import Mathlib

/-!
# sales-bonus: `src/main.js`

A shallow embedding of the three functions of `src/main.js`
(`calculateSimpleRevenue`, `calculateBonusByProfit`, `analyzeSalesData`)
and the properties of them that the specification states.

Modelling conventions.

* A JavaScript number is a rational (`ℚ`); a number that the code computes
  from a possibly `undefined` operand is a `JSNumber`, where `none` is `NaN`.
  The definitions of the first part compute exactly.  Those of the section
  "Double arithmetic" round the result of every operation, as the code does,
  with the rounding as a parameter: `roundToDouble` for the code as it runs,
  the identity for the definitions of the first part.  What the spec says of
  sums, of the rounding of the output and of the ranking is stated on them.
  The infinities are not modelled.
* Arrays are lists.  An object that the code mutates through a reference held
  in an index (`sellerIndex[id]`) is addressed by its position in `sellerStats`.
* `sellerIndex` and `productIndex` are plain objects built by
  `Object.fromEntries`, so a property read `index[key]` yields the object's own
  entry for `key` (the last one written), and otherwise whatever
  `Object.prototype` has under that name (`constructor`, `toString`, ...), and
  only otherwise `undefined`.  `Lookup` keeps the three cases apart.
* The two strategies of `options` are pure, total functions that return
  numbers; the revenue strategy returns a number other than `NaN`.
* `console.warn` only writes to the console and is left out.
* `String.prototype.localeCompare` depends on the host's collation; it is a
  parameter `localeCompare : String → String → ℤ`.
* `seller.products_sold` is written but never read for the result and is left
  out (its reads cannot throw: it is the object `{}` of a seeded stat).
-/

namespace SalesBonus

/-! ## Data model -/

/-- A number computed by the code: `none` is `NaN`. -/
abbrev JSNumber := Option ℚ

/-- An element of `data.sellers`. -/
structure Seller where
  id : String
  first_name : String
  last_name : String
deriving DecidableEq

/-- An element of `data.products`. -/
structure Product where
  sku : String
  name : String
  category : String
  purchase_price : ℚ
deriving DecidableEq

/-- An element of `record.items`. -/
structure LineItem where
  sku : String
  quantity : ℚ
  sale_price : ℚ
  discount : ℚ
deriving DecidableEq

/-- An element of `data.purchase_records`. -/
structure PurchaseRecord where
  id : String
  seller_id : String
  total_amount : ℚ
  items : List LineItem
deriving DecidableEq

/-- The argument `data`; a field is `none` when it is missing or not an array. -/
structure Data where
  sellers : Option (List Seller)
  products : Option (List Product)
  purchase_records : Option (List PurchaseRecord)
deriving DecidableEq

/-- The object `purchaseData` handed to the revenue strategy (lines 117-121). -/
structure PurchaseData where
  sale_price : ℚ
  quantity : ℚ
  discount : ℚ
deriving DecidableEq

/-- An element of `sellerStats` during accumulation and ranking (lines 70-79);
`top_products` is the `Map` in insertion order. -/
structure SellerStat where
  id : String
  name : String
  revenue : ℚ
  profit : JSNumber
  sales_count : ℕ
  top_products : List (String × ℚ)
  bonus : JSNumber
deriving DecidableEq

/-- The argument `options`; a field is `none` when it is missing (falsy). -/
structure Options where
  calculateRevenue : Option (PurchaseData → Product → ℚ)
  calculateBonus : Option (ℤ → ℤ → SellerStat → JSNumber)

/-- An element of a returned `top_products` array (lines 169-174). -/
structure TopProduct where
  sku : String
  quantity : ℚ
  product_name : String
  category : String
deriving DecidableEq

/-- An element of the returned array (lines 185-193). -/
structure SellerResult where
  seller_id : String
  name : String
  revenue : ℚ
  profit : JSNumber
  sales_count : ℕ
  top_products : List TopProduct
  bonus : JSNumber
deriving DecidableEq

/-- The ways a call of `analyzeSalesData` ends with an exception: the three
`throw new Error(...)` of lines 54, 59 and 66, and the `TypeError` of reading a
property of `undefined`. -/
inductive AnalysisError where
  | invalidData
  | invalidOptions
  | missingFunctions
  | typeError
deriving DecidableEq

/-- Outcomes of a call (`Except AnalysisError _`: a returned value or a thrown
exception) can be compared. -/
instance instDecidableEqOutcome {α : Type} [DecidableEq α] :
    DecidableEq (Except AnalysisError α)
  | .ok a, .ok b =>
    if h : a = b then isTrue (congrArg Except.ok h)
    else isFalse fun h' => h (Except.ok.inj h')
  | .error e, .error f =>
    if h : e = f then isTrue (congrArg Except.error h)
    else isFalse fun h' => h (Except.error.inj h')
  | .ok _, .error _ => isFalse fun h => Except.noConfusion h
  | .error _, .ok _ => isFalse fun h => Except.noConfusion h

/-! ## Numbers -/

/-- JavaScript `a + b` on numbers. -/
def jsAdd (a b : JSNumber) : JSNumber :=
  match a, b with
  | some x, some y => some (x + y)
  | _, _ => none

/-- JavaScript `a - b` on numbers. -/
def jsSub (a b : JSNumber) : JSNumber :=
  match a, b with
  | some x, some y => some (x - y)
  | _, _ => none

/-- JavaScript `a * b` on numbers. -/
def jsMul (a b : JSNumber) : JSNumber :=
  match a, b with
  | some x, some y => some (x * y)
  | _, _ => none

/-- JavaScript `a !== b` on numbers: `NaN` differs from everything. -/
def strictNotEqual (a b : JSNumber) : Bool :=
  match a, b with
  | some x, some y => decide (x ≠ y)
  | _, _ => true

/-- The value of `+x.toFixed(2)` for a number `x`: the multiple of `1/100`
nearest to `x`, the one of larger magnitude when two are equally near.  (From
`10^21` on `toFixed` keeps the number as it is; a double of that size is an
integer, which rounding to 2 decimals keeps as well.) -/
def toFixed2 (x : ℚ) : ℚ :=
  if 0 ≤ x then (⌊x * 100 + 1 / 2⌋ : ℚ) / 100 else -((⌊-x * 100 + 1 / 2⌋ : ℚ) / 100)

/-- The value of `+x.toFixed(2)` where `x` may be `NaN` (`NaN.toFixed(2)` is `"NaN"`). -/
def jsToFixed2 (x : JSNumber) : JSNumber := x.map toFixed2

/-! ## Property lookup on the two index objects -/

/-- The result of reading `index[key]` on an object built by `Object.fromEntries`. -/
inductive Lookup (α : Type) where
  | own (value : α)
  | inherited
  | absent
deriving DecidableEq

/-- The property names of `Object.prototype`.  Each holds a function or an
object, hence a truthy value. -/
def objectPrototypeKeys : List String :=
  ["constructor", "__defineGetter__", "__defineSetter__", "hasOwnProperty",
   "__lookupGetter__", "__lookupSetter__", "isPrototypeOf", "propertyIsEnumerable",
   "toString", "valueOf", "__proto__", "toLocaleString"]

/-- The own property `key` of `Object.fromEntries(entries)`: the value of the
last entry with that key. -/
def ownProperty {α : Type} : List (String × α) → String → Option α
  | [], _ => none
  | (k, v) :: rest, key =>
    match ownProperty rest key with
    | some w => some w
    | none => if k = key then some v else none

/-- The read `Object.fromEntries(entries)[key]`. -/
def getProperty {α : Type} (entries : List (String × α)) (key : String) : Lookup α :=
  match ownProperty entries key with
  | some v => .own v
  | none => if key ∈ objectPrototypeKeys then .inherited else .absent

/-! ## The two strategies shipped with the module -/

/-- Lines 7-11. -/
def calculateSimpleRevenue (purchase : PurchaseData) (_product : Product) : ℚ :=
  let discount := 1 - purchase.discount / 100
  purchase.sale_price * purchase.quantity * discount

/-- The `bonusPercentage` chosen by lines 24-32. -/
def bonusPercentage (index total : ℤ) : ℚ :=
  if index = 0 then 15 / 100
  else if index = 1 ∨ index = 2 then 10 / 100
  else if index = total - 1 then 0
  else 5 / 100

/-- Lines 20-36. -/
def calculateBonusByProfit (index total : ℤ) (seller : SellerStat) : JSNumber :=
  jsMul seller.profit (some (bonusPercentage index total))

/-! ## `analyzeSalesData`: seeding and indexing (lines 70-87) -/

/-- The object created for one seller by lines 70-79. -/
def seedStat (seller : Seller) : SellerStat :=
  { id := seller.id
    name := seller.first_name ++ " " ++ seller.last_name
    revenue := 0
    profit := some 0
    sales_count := 0
    top_products := []
    bonus := some 0 }

/-- Lines 70-79. -/
def sellerStats (sellers : List Seller) : List SellerStat :=
  sellers.map seedStat

/-- The entries `[sellerStat.id, sellerStat]` of line 83, the stat given by its
position in `sellerStats`, counted from `n`. -/
def sellerEntries : ℕ → List SellerStat → List (String × ℕ)
  | _, [] => []
  | n, sellerStat :: rest => (sellerStat.id, n) :: sellerEntries (n + 1) rest

/-- Lines 82-84. -/
def sellerIndex (stats : List SellerStat) : List (String × ℕ) :=
  sellerEntries 0 stats

/-- Lines 85-87. -/
def productIndex (products : List Product) : List (String × Product) :=
  products.map fun product => (product.sku, product)

/-! ## `analyzeSalesData`: accumulation (lines 90-142) -/

/-- The call `map.get(key)` on a `Map`. -/
def mapGet : List (String × ℚ) → String → Option ℚ
  | [], _ => none
  | (k, v) :: rest, key => if k = key then some v else mapGet rest key

/-- The call `map.set(key, value)` on a `Map`: an existing key keeps its place,
a new key goes last. -/
def mapSet : List (String × ℚ) → String → ℚ → List (String × ℚ)
  | [], key, value => [(key, value)]
  | (k, v) :: rest, key, value =>
    if k = key then (k, value) :: rest else (k, v) :: mapSet rest key value

/-- Lines 139-140. -/
def countProduct (top_products : List (String × ℚ)) (item : LineItem) : List (String × ℚ) :=
  let currentCount := (mapGet top_products item.sku).getD 0
  mapSet top_products item.sku (currentCount + item.quantity)

/-- The body of `record.items.forEach` (lines 104-141) when `seller` is one of
the seeded stats.  When `productIndex[item.sku]` is a member of
`Object.prototype`, it passes the test of line 108, `product.purchase_price` is
`undefined`, `cost` is `NaN` and so is `profit`, whatever the strategy returns. -/
def addItem (calculateRevenue : PurchaseData → Product → ℚ)
    (products : List (String × Product)) (seller : SellerStat) (item : LineItem) :
    SellerStat :=
  match getProperty products item.sku with
  | .absent => seller
  | .own product =>
    let cost := product.purchase_price * item.quantity
    let purchaseData : PurchaseData :=
      { sale_price := item.sale_price, quantity := item.quantity, discount := item.discount }
    let revenue := calculateRevenue purchaseData product
    let profit := revenue - cost
    { seller with
      profit := jsAdd seller.profit (some profit)
      top_products := countProduct seller.top_products item }
  | .inherited =>
    { seller with
      profit := jsAdd seller.profit none
      top_products := countProduct seller.top_products item }

/-- Lines 99-141 for a record whose seller is one of the seeded stats. -/
def addSale (calculateRevenue : PurchaseData → Product → ℚ)
    (products : List (String × Product)) (record : PurchaseRecord) (seller : SellerStat) :
    SellerStat :=
  record.items.foldl (addItem calculateRevenue products)
    { seller with
      sales_count := seller.sales_count + 1
      revenue := seller.revenue + record.total_amount }

/-- Lines 104-141 for a record whose `seller` is a member of `Object.prototype`
(it passes the test of line 94): an item without product is skipped at line
110; at the first item with a product, line 132 reads
`seller.products_sold[item.sku]` where `seller.products_sold` is `undefined`,
which throws a `TypeError`. -/
def addItemsInherited (products : List (String × Product)) :
    List LineItem → Except AnalysisError Unit
  | [] => .ok ()
  | item :: rest =>
    match getProperty products item.sku with
    | .absent => addItemsInherited products rest
    | _ => .error .typeError

/-- The function `f` applied to the element at position `n`. -/
def modifyAt {α : Type} (f : α → α) : ℕ → List α → List α
  | _, [] => []
  | 0, a :: l => f a :: l
  | n + 1, a :: l => a :: modifyAt f n l

/-- The body of `data.purchase_records.forEach` (lines 90-142). -/
def processRecord (calculateRevenue : PurchaseData → Product → ℚ)
    (sellers : List (String × ℕ)) (products : List (String × Product))
    (stats : List SellerStat) (record : PurchaseRecord) :
    Except AnalysisError (List SellerStat) :=
  match getProperty sellers record.seller_id with
  | .absent => .ok stats
  | .own seller => .ok (modifyAt (addSale calculateRevenue products record) seller stats)
  | .inherited =>
    match addItemsInherited products record.items with
    | .ok _ => .ok stats
    | .error e => .error e

/-- Lines 90-142: the records in order, until one throws. -/
def accumulate (calculateRevenue : PurchaseData → Product → ℚ)
    (sellers : List (String × ℕ)) (products : List (String × Product)) :
    List SellerStat → List PurchaseRecord → Except AnalysisError (List SellerStat)
  | stats, [] => .ok stats
  | stats, record :: rest =>
    match processRecord calculateRevenue sellers products stats record with
    | .ok stats' => accumulate calculateRevenue sellers products stats' rest
    | .error e => .error e

/-! ## `analyzeSalesData`: ranking (lines 145-160) -/

/-- The comparator of lines 145-160. -/
def compareSellers (localeCompare : String → String → ℤ) (a b : SellerStat) : JSNumber :=
  if strictNotEqual b.profit a.profit then jsSub b.profit a.profit
  else if b.revenue ≠ a.revenue then some (b.revenue - a.revenue)
  else if b.sales_count ≠ a.sales_count then
    some ((b.sales_count : ℚ) - (a.sales_count : ℚ))
  else some (localeCompare a.name b.name : ℚ)

/-- The call `array.sort(comparefn)`: a stable sort, in which `a` goes before
`b` when `comparefn(a, b)` is not positive, a `NaN` counting as `0`.  For a
consistent comparator the outcome of a stable sort is unique; insertion from
the right is one.  For a comparator that is not consistent (it returns `NaN`
for a seller whose profit is `NaN`) the order is the engine's own: it is a
permutation, which this definition need not give, and what is stated of the
place that a seller takes is stated for numeric profits. -/
def arraySort {α : Type} (comparefn : α → α → JSNumber) (l : List α) : List α :=
  List.insertionSort (fun a b => (comparefn a b).getD 0 ≤ 0) l

/-! ## `analyzeSalesData`: bonus, top products and output (lines 163-193) -/

/-- The value of `productIndex[sku]?.name || sku` (line 172).  A function of
`Object.prototype` has its property name as `name`, except `constructor`, which
is `Object`; `__proto__` yields `Object.prototype`, which has no `name`. -/
def productName (products : List (String × Product)) (sku : String) : String :=
  match getProperty products sku with
  | .own product => if product.name = "" then sku else product.name
  | .inherited => if sku = "constructor" then "Object" else sku
  | .absent => sku

/-- The value of `productIndex[sku]?.category || 'Неизвестно'` (line 173). -/
def productCategory (products : List (String × Product)) (sku : String) : String :=
  match getProperty products sku with
  | .own product => if product.category = "" then "Неизвестно" else product.category
  | _ => "Неизвестно"

/-- Lines 168-178. -/
def topProductsArray (products : List (String × Product)) (top_products : List (String × ℚ)) :
    List TopProduct :=
  (arraySort (fun a b : TopProduct => some (b.quantity - a.quantity))
    (top_products.map fun entry =>
      { sku := entry.1
        quantity := entry.2
        product_name := productName products entry.1
        category := productCategory products entry.1 })).take 10

/-- What lines 163-182 and 185-193 make of the seller at position `index`. -/
def resultRecord (calculateBonus : ℤ → ℤ → SellerStat → JSNumber)
    (products : List (String × Product)) (total : ℕ) (index : ℕ) (seller : SellerStat) :
    SellerResult :=
  let bonus := calculateBonus index total seller
  { seller_id := seller.id
    name := seller.name
    revenue := toFixed2 seller.revenue
    profit := jsToFixed2 seller.profit
    sales_count := seller.sales_count
    top_products := topProductsArray products seller.top_products
    bonus := jsToFixed2 bonus }

/-- Lines 163-193 over the sorted stats, positions counted from `index`. -/
def resultsFrom (calculateBonus : ℤ → ℤ → SellerStat → JSNumber)
    (products : List (String × Product)) (total : ℕ) : ℕ → List SellerStat → List SellerResult
  | _, [] => []
  | index, seller :: rest =>
    resultRecord calculateBonus products total index seller ::
      resultsFrom calculateBonus products total (index + 1) rest

/-! ## `analyzeSalesData` -/

/-- The stats after lines 70-142, or the exception thrown on the way. -/
def accumulatedStats (calculateRevenue : PurchaseData → Product → ℚ)
    (sellers : List Seller) (products : List Product) (purchase_records : List PurchaseRecord) :
    Except AnalysisError (List SellerStat) :=
  accumulate calculateRevenue (sellerIndex (sellerStats sellers)) (productIndex products)
    (sellerStats sellers) purchase_records

/-- The stats after the sort of lines 145-160. -/
def rankedStats (localeCompare : String → String → ℤ) (stats : List SellerStat) :
    List SellerStat :=
  arraySort (compareSellers localeCompare) stats

/-- Lines 69-193, for arguments that passed the checks of lines 46-67. -/
def analyzeValid (localeCompare : String → String → ℤ)
    (calculateRevenue : PurchaseData → Product → ℚ)
    (calculateBonus : ℤ → ℤ → SellerStat → JSNumber)
    (sellers : List Seller) (products : List Product) (purchase_records : List PurchaseRecord) :
    Except AnalysisError (List SellerResult) :=
  match accumulatedStats calculateRevenue sellers products purchase_records with
  | .error e => .error e
  | .ok stats =>
    let ranked := rankedStats localeCompare stats
    .ok (resultsFrom calculateBonus (productIndex products) ranked.length 0 ranked)

/-- Lines 44-194. -/
def analyzeSalesData (localeCompare : String → String → ℤ)
    (data : Option Data) (options : Option Options) :
    Except AnalysisError (List SellerResult) :=
  match data with
  | none => .error .invalidData
  | some data =>
    match data.sellers, data.products, data.purchase_records with
    | some sellers, some products, some purchase_records =>
      if sellers.length = 0 ∨ products.length = 0 ∨ purchase_records.length = 0 then
        .error .invalidData
      else
        match options with
        | none => .error .invalidOptions
        | some options =>
          match options.calculateRevenue, options.calculateBonus with
          | some calculateRevenue, some calculateBonus =>
            analyzeValid localeCompare calculateRevenue calculateBonus
              sellers products purchase_records
          | _, _ => .error .missingFunctions
    | _, _, _ => .error .invalidData

/-- The options `{ calculateRevenue: calculateSimpleRevenue, calculateBonus:
calculateBonusByProfit }`. -/
def defaultOptions : Options :=
  { calculateRevenue := some calculateSimpleRevenue
    calculateBonus := some calculateBonusByProfit }

/-- What the records, in order, make of the stat at position `j` of
`sellerStats`: the records whose seller resolves to that position are added. -/
def sellerFold (calculateRevenue : PurchaseData → Product → ℚ)
    (sellers : List (String × ℕ)) (products : List (String × Product)) (j : ℕ)
    (records : List PurchaseRecord) (stat : SellerStat) : SellerStat :=
  records.foldl
    (fun st record =>
      if getProperty sellers record.seller_id = .own j then
        addSale calculateRevenue products record st
      else st)
    stat

/-- The profit of one line item as the specification states it: the revenue
that the strategy computes for the item and its catalog product, minus
`purchase_price * quantity`; the catalog product is the one with the item's SKU. -/
def lineItemProfit (calculateRevenue : PurchaseData → Product → ℚ) (products : List Product)
    (item : LineItem) : ℚ :=
  match products.find? (fun product => product.sku = item.sku) with
  | some product =>
    calculateRevenue
      { sale_price := item.sale_price, quantity := item.quantity, discount := item.discount }
      product - product.purchase_price * item.quantity
  | none => 0

/-- The records on which lines 90-142 throw: the seller id is no seller's but
a property name of `Object.prototype`, and some line item has a product (its
SKU is a product's or a property name of `Object.prototype`). -/
def recordThrows (sellers : List (String × ℕ)) (products : List (String × Product))
    (record : PurchaseRecord) : Prop :=
  getProperty sellers record.seller_id = .inherited ∧
    ∃ item ∈ record.items, getProperty products item.sku ≠ .absent

/-- Lexicographic comparison of two character sequences by code point. -/
def compareChars : List Char → List Char → ℤ
  | [], [] => 0
  | [], _ :: _ => -1
  | _ :: _, [] => 1
  | a :: as, b :: bs =>
    if a.toNat < b.toNat then -1
    else if b.toNat < a.toNat then 1
    else compareChars as bs

/-- A comparison of names by code points, one admissible `localeCompare`. -/
def codePointCompare (a b : String) : ℤ :=
  compareChars a.data b.data

/-! ## The order of section 4.3 -/

/-- The order of section 4.3 read on two returned records, `x` before `y`:
descending profit, then descending revenue, then descending sales count, then
ascending name. -/
def returnedInOrder (localeCompare : String → String → ℤ) (x y : SellerResult) : Prop :=
  (∃ p q, x.profit = some p ∧ y.profit = some q ∧ q < p) ∨
  (x.profit = y.profit ∧ y.revenue < x.revenue) ∨
  (x.profit = y.profit ∧ x.revenue = y.revenue ∧ y.sales_count < x.sales_count) ∨
  (x.profit = y.profit ∧ x.revenue = y.revenue ∧ x.sales_count = y.sales_count ∧
    localeCompare x.name y.name ≤ 0)

/-- The order of section 4.3 read on two accumulated stats, `a` before `b`,
whose profits are numbers. -/
def statsInOrder (localeCompare : String → String → ℤ) (a b : SellerStat) : Prop :=
  ∃ p q, a.profit = some p ∧ b.profit = some q ∧
    (q < p ∨ (p = q ∧ (b.revenue < a.revenue ∨ (a.revenue = b.revenue ∧
      (b.sales_count < a.sales_count ∨ (a.sales_count = b.sales_count ∧
        localeCompare a.name b.name ≤ 0))))))

/-- The same order with a `NaN` profit counted as `0`, which makes it a total
preorder on all stats. -/
def rankedBefore (localeCompare : String → String → ℤ) (a b : SellerStat) : Prop :=
  b.profit.getD 0 < a.profit.getD 0 ∨ (a.profit.getD 0 = b.profit.getD 0 ∧
    (b.revenue < a.revenue ∨ (a.revenue = b.revenue ∧
      (b.sales_count < a.sales_count ∨ (a.sales_count = b.sales_count ∧
        localeCompare a.name b.name ≤ 0)))))

/-- The order `rankedBefore` can be computed. -/
instance rankedBeforeDecidable (localeCompare : String → String → ℤ) :
    DecidableRel (rankedBefore localeCompare) := fun a b => by
  unfold rankedBefore
  infer_instance

/-- Two sellers, X and Y. -/
def roundingSellers : List Seller :=
  [ { id := "x", first_name := "Seller", last_name := "X" },
    { id := "y", first_name := "Seller", last_name := "Y" } ]

/-- One product, bought at 0. -/
def roundingProducts : List Product :=
  [ { sku := "SKU_001", name := "Product", category := "Category", purchase_price := 0 } ]

/-- One record for each seller: X sells at 10.004 and has revenue 5, Y sells at
10.001 and has revenue 100. -/
def roundingRecords : List PurchaseRecord :=
  [ { id := "r1", seller_id := "x", total_amount := 5
      items := [{ sku := "SKU_001", quantity := 1, sale_price := 2501 / 250, discount := 0 }] },
    { id := "r2", seller_id := "y", total_amount := 100
      items := [{ sku := "SKU_001", quantity := 1, sale_price := 10001 / 1000,
                  discount := 0 }] } ]

/-- Two sellers whose profits 10.004 and 10.001 differ only in the third
decimal, the seller of the smaller profit having the larger revenue. -/
def roundingData : Data :=
  { sellers := some roundingSellers
    products := some roundingProducts
    purchase_records := some roundingRecords }

/-- What `analyzeSalesData` returns on `roundingData` with the default options. -/
def roundingResult : List SellerResult :=
  [ { seller_id := "x", name := "Seller X", revenue := 5, profit := some 10, sales_count := 1
      top_products :=
        [{ sku := "SKU_001", quantity := 1, product_name := "Product", category := "Category" }]
      bonus := some (3 / 2) },
    { seller_id := "y", name := "Seller Y", revenue := 100, profit := some 10, sales_count := 1
      top_products :=
        [{ sku := "SKU_001", quantity := 1, product_name := "Product", category := "Category" }]
      bonus := some 1 } ]

/-! ## A small input with an unknown seller and an unknown SKU -/

/-- Two sellers. -/
def sampleSellers : List Seller :=
  [ { id := "seller_1", first_name := "Alexey", last_name := "Petrov" },
    { id := "seller_2", first_name := "Mikhail", last_name := "Nikolaev" } ]

/-- Two products. -/
def sampleProducts : List Product :=
  [ { sku := "SKU_001", name := "Keyboard", category := "Peripherals", purchase_price := 50 },
    { sku := "SKU_002", name := "Mouse", category := "Peripherals", purchase_price := 20 } ]

/-- The record of `sampleRecords` whose seller id `seller_9` matches no seller. -/
def strayRecord : PurchaseRecord :=
  { id := "r2", seller_id := "seller_9", total_amount := 999
    items := [{ sku := "SKU_001", quantity := 1, sale_price := 100, discount := 0 }] }

/-- Four records: `r1` holds a line item whose SKU `SKU_404` is in no product,
`r2` is `strayRecord`. -/
def sampleRecords : List PurchaseRecord :=
  [ { id := "r1", seller_id := "seller_1", total_amount := 300
      items := [{ sku := "SKU_001", quantity := 2, sale_price := 100, discount := 10 },
                { sku := "SKU_404", quantity := 1, sale_price := 5, discount := 0 }] },
    strayRecord,
    { id := "r3", seller_id := "seller_2", total_amount := 241 / 2
      items := [{ sku := "SKU_002", quantity := 3, sale_price := 40, discount := 0 }] },
    { id := "r4", seller_id := "seller_1", total_amount := 80
      items := [{ sku := "SKU_002", quantity := 1, sale_price := 30, discount := 50 }] } ]

/-- The input made of the three lists above. -/
def sampleData : Data :=
  { sellers := some sampleSellers
    products := some sampleProducts
    purchase_records := some sampleRecords }

/-- What `analyzeSalesData` returns on `sampleData` with the default options. -/
def sampleResult : List SellerResult :=
  [ { seller_id := "seller_1", name := "Alexey Petrov", revenue := 380, profit := some 75
      sales_count := 2
      top_products :=
        [ { sku := "SKU_001", quantity := 2, product_name := "Keyboard",
            category := "Peripherals" },
          { sku := "SKU_002", quantity := 1, product_name := "Mouse",
            category := "Peripherals" } ]
      bonus := some (45 / 4) },
    { seller_id := "seller_2", name := "Mikhail Nikolaev", revenue := 241 / 2
      profit := some 60
      sales_count := 1
      top_products :=
        [ { sku := "SKU_002", quantity := 3, product_name := "Mouse",
            category := "Peripherals" } ]
      bonus := some 6 } ]

/-! ## Inputs whose references are property names of `Object.prototype` -/

/-- One seller. -/
def loneSeller : List Seller :=
  [ { id := "seller_1", first_name := "Alexey", last_name := "Petrov" } ]

/-- One product. -/
def loneProduct : List Product :=
  [ { sku := "SKU_001", name := "Keyboard", category := "Peripherals", purchase_price := 50 } ]

/-- A record whose `seller_id` is `constructor`, the id of no seller, with one
line item of a catalog product. -/
def constructorRecord : PurchaseRecord :=
  { id := "r1", seller_id := "constructor", total_amount := 100
    items := [{ sku := "SKU_001", quantity := 1, sale_price := 80, discount := 0 }] }

/-- A record of the one seller, with one line item of a catalog product. -/
def plainRecord : PurchaseRecord :=
  { id := "r2", seller_id := "seller_1", total_amount := 100
    items := [{ sku := "SKU_001", quantity := 1, sale_price := 80, discount := 0 }] }

/-- A line item whose SKU is `constructor`, the SKU of no product. -/
def constructorItem : LineItem :=
  { sku := "constructor", quantity := 1, sale_price := 10, discount := 0 }

/-- The record `plainRecord` with `constructorItem` as a second line item. -/
def mixedRecord : PurchaseRecord :=
  { id := "r2", seller_id := "seller_1", total_amount := 100
    items := [{ sku := "SKU_001", quantity := 1, sale_price := 80, discount := 0 },
              constructorItem] }

/-- The input with the given purchase records for `loneSeller` and `loneProduct`. -/
def loneData (purchase_records : List PurchaseRecord) : Data :=
  { sellers := some loneSeller
    products := some loneProduct
    purchase_records := some purchase_records }

/-- What `analyzeSalesData` returns on `loneData [plainRecord]` with the
default options. -/
def plainResult : List SellerResult :=
  [ { seller_id := "seller_1", name := "Alexey Petrov", revenue := 100, profit := some 30
      sales_count := 1
      top_products :=
        [ { sku := "SKU_001", quantity := 1, product_name := "Keyboard",
            category := "Peripherals" } ]
      bonus := some (9 / 2) } ]

/-- What `analyzeSalesData` returns on `loneData [mixedRecord]` with the
default options: profit and bonus are `NaN`. -/
def mixedResult : List SellerResult :=
  [ { seller_id := "seller_1", name := "Alexey Petrov", revenue := 100, profit := none
      sales_count := 1
      top_products :=
        [ { sku := "SKU_001", quantity := 1, product_name := "Keyboard",
            category := "Peripherals" },
          { sku := "constructor", quantity := 1, product_name := "Object",
            category := "Неизвестно" } ]
      bonus := none } ]

/-! ## The example of the specification (section 8) -/

/-- Sellers A, B and C of the example. -/
def exampleSellers : List Seller :=
  [ { id := "A", first_name := "Seller", last_name := "A" },
    { id := "B", first_name := "Seller", last_name := "B" },
    { id := "C", first_name := "Seller", last_name := "C" } ]

/-- One product, bought at 100. -/
def exampleProducts : List Product :=
  [ { sku := "SKU_001", name := "Product", category := "Category", purchase_price := 100 } ]

/-- A line item of one unit of the product sold at `sale_price`, no discount. -/
def exampleItem (sale_price : ℚ) : LineItem :=
  { sku := "SKU_001", quantity := 1, sale_price := sale_price, discount := 0 }

/-- Records that give A profit 1000, revenue 2000 and 5 sales, B profit 1000,
revenue 2500 and 3 sales, and C profit 100. -/
def exampleRecords : List PurchaseRecord :=
  [ { id := "r1", seller_id := "A", total_amount := 400, items := [exampleItem 1100] },
    { id := "r2", seller_id := "A", total_amount := 400, items := [] },
    { id := "r3", seller_id := "A", total_amount := 400, items := [] },
    { id := "r4", seller_id := "A", total_amount := 400, items := [] },
    { id := "r5", seller_id := "A", total_amount := 400, items := [] },
    { id := "r6", seller_id := "B", total_amount := 1000, items := [exampleItem 1100] },
    { id := "r7", seller_id := "B", total_amount := 1000, items := [] },
    { id := "r8", seller_id := "B", total_amount := 500, items := [] },
    { id := "r9", seller_id := "C", total_amount := 300, items := [exampleItem 200] } ]

/-- The input of the example. -/
def exampleData : Data :=
  { sellers := some exampleSellers
    products := some exampleProducts
    purchase_records := some exampleRecords }

/-- The stats of A, B and C after accumulation. -/
def exampleStats : List SellerStat :=
  [ { id := "A", name := "Seller A", revenue := 2000, profit := some 1000, sales_count := 5
      top_products := [("SKU_001", 1)], bonus := some 0 },
    { id := "B", name := "Seller B", revenue := 2500, profit := some 1000, sales_count := 3
      top_products := [("SKU_001", 1)], bonus := some 0 },
    { id := "C", name := "Seller C", revenue := 300, profit := some 100, sales_count := 1
      top_products := [("SKU_001", 1)], bonus := some 0 } ]

/-- The stats of the example in the order B, A, C. -/
def exampleRanked : List SellerStat :=
  [ { id := "B", name := "Seller B", revenue := 2500, profit := some 1000, sales_count := 3
      top_products := [("SKU_001", 1)], bonus := some 0 },
    { id := "A", name := "Seller A", revenue := 2000, profit := some 1000, sales_count := 5
      top_products := [("SKU_001", 1)], bonus := some 0 },
    { id := "C", name := "Seller C", revenue := 300, profit := some 100, sales_count := 1
      top_products := [("SKU_001", 1)], bonus := some 0 } ]

/-- What `analyzeSalesData` returns on the example with the default options. -/
def exampleResult : List SellerResult :=
  [ { seller_id := "B", name := "Seller B", revenue := 2500, profit := some 1000
      sales_count := 3
      top_products :=
        [{ sku := "SKU_001", quantity := 1, product_name := "Product", category := "Category" }]
      bonus := some 150 },
    { seller_id := "A", name := "Seller A", revenue := 2000, profit := some 1000
      sales_count := 5
      top_products :=
        [{ sku := "SKU_001", quantity := 1, product_name := "Product", category := "Category" }]
      bonus := some 100 },
    { seller_id := "C", name := "Seller C", revenue := 300, profit := some 100
      sales_count := 1
      top_products :=
        [{ sku := "SKU_001", quantity := 1, product_name := "Product", category := "Category" }]
      bonus := some 10 } ]

/-! ## Revenue and cost of goods of a line item -/

/-- The revenue of a line item under the default strategy:
`sale_price * quantity * (1 - discount / 100)`. -/
def lineItemRevenue (item : LineItem) : ℚ :=
  item.sale_price * item.quantity * (1 - item.discount / 100)

/-- The cost of goods of a line item as the specification states it:
`purchase_price * quantity` for the catalog product with the item's SKU. -/
def lineItemCost (products : List Product) (item : LineItem) : ℚ :=
  match products.find? (fun product => product.sku = item.sku) with
  | some product => product.purchase_price * item.quantity
  | none => 0

/-! ## A bonus strategy that is not a number for a seller without sales -/

/-- A bonus strategy a caller can pass, the profit per sale:
`(index, total, seller) => seller.profit / seller.sales_count`.  A seller
without sales has profit `0`, and `0 / 0` is `NaN`. -/
def profitPerSale (_index _total : ℤ) (seller : SellerStat) : JSNumber :=
  if seller.sales_count = 0 then none
  else jsMul seller.profit (some (1 / (seller.sales_count : ℚ)))

/-- The sellers of `sampleSellers`, one product, and one record, of the first
seller: the second seller has no sale. -/
def idleSellerData : Data :=
  { sellers := some sampleSellers
    products := some loneProduct
    purchase_records := some [plainRecord] }

/-- What `analyzeSalesData` returns on `idleSellerData` with the bonus strategy
`profitPerSale`: the bonus of the second seller is `NaN`. -/
def idleSellerResult : List SellerResult :=
  [ { seller_id := "seller_1", name := "Alexey Petrov", revenue := 100, profit := some 30
      sales_count := 1
      top_products :=
        [ { sku := "SKU_001", quantity := 1, product_name := "Keyboard",
            category := "Peripherals" } ]
      bonus := some 30 },
    { seller_id := "seller_2", name := "Mikhail Nikolaev", revenue := 0, profit := some 0
      sales_count := 0
      top_products := []
      bonus := none } ]

/-! ## An input with a duplicate seller id and a duplicate SKU -/

/-- Three sellers, the first and the third with the id `seller_1`. -/
def duplicateSellers : List Seller :=
  [ { id := "seller_1", first_name := "Alexey", last_name := "Petrov" },
    { id := "seller_2", first_name := "Mikhail", last_name := "Nikolaev" },
    { id := "seller_1", first_name := "Anna", last_name := "Petrova" } ]

/-- Two products with the SKU `SKU_001`. -/
def duplicateProducts : List Product :=
  [ { sku := "SKU_001", name := "Keyboard", category := "Peripherals", purchase_price := 50 },
    { sku := "SKU_001", name := "Keyboard 2", category := "Input", purchase_price := 60 } ]

/-- The input with the duplicate id, the duplicate SKU and one record, of the
id `seller_1`. -/
def duplicateData : Data :=
  { sellers := some duplicateSellers
    products := some duplicateProducts
    purchase_records := some [plainRecord] }

/-- What `analyzeSalesData` returns on `duplicateData` with the default
options: the record goes to the later seller `seller_1`, the item is costed at
the later product's 60. -/
def duplicateResult : List SellerResult :=
  [ { seller_id := "seller_1", name := "Anna Petrova", revenue := 100, profit := some 20
      sales_count := 1
      top_products :=
        [ { sku := "SKU_001", quantity := 1, product_name := "Keyboard 2", category := "Input" } ]
      bonus := some 3 },
    { seller_id := "seller_1", name := "Alexey Petrov", revenue := 0, profit := some 0
      sales_count := 0
      top_products := []
      bonus := some 0 },
    { seller_id := "seller_2", name := "Mikhail Nikolaev", revenue := 0, profit := some 0
      sales_count := 0
      top_products := []
      bonus := some 0 } ]

/-! ## The pairs of SKU and quantity sold by a seller -/

/-- The keys of a list, each once, in the order of their first occurrence. -/
def firstOccurrences : List String → List String
  | [] => []
  | key :: rest => key :: (firstOccurrences rest).filter fun other => other ≠ key

/-- The cumulative quantity of a SKU over a list of line items. -/
def soldQuantity (items : List LineItem) (sku : String) : ℚ :=
  ((items.filter fun item => item.sku = sku).map (·.quantity)).sum

/-- The pairs of SKU and cumulative quantity of a list of line items, in the
order of each SKU's first line item. -/
def soldPairs (items : List LineItem) : List (String × ℚ) :=
  (firstOccurrences (items.map (·.sku))).map fun sku => (sku, soldQuantity items sku)

/-- The line items counted for the seller at position `j`, in order: those of
the records whose `seller_id` resolves to that position, for which
`productIndex[item.sku]` passes the test of line 108. -/
def soldItems (sellers : List (String × ℕ)) (products : List (String × Product)) (j : ℕ)
    (records : List PurchaseRecord) : List LineItem :=
  ((records.filter fun record => getProperty sellers record.seller_id = .own j).flatMap
    (·.items)).filter fun item => getProperty products item.sku ≠ .absent

/-- The entry of `topProductsArray` made from one entry of the `Map` (lines 169-174). -/
def topProductOf (products : List (String × Product)) (entry : String × ℚ) : TopProduct :=
  { sku := entry.1
    quantity := entry.2
    product_name := productName products entry.1
    category := productCategory products entry.1 }

/-- The list `top` is the first 10 entries of the stable sort of `entries` by
descending quantity: a permutation `sorted` of `entries` with non-increasing
quantities in which entries of equal quantity keep the order they have in
`entries`, cut after 10 entries; `top` has at most 10 entries, no SKU twice,
non-increasing quantities, and its entries of equal quantity keep the order
they have in `entries`. -/
def stableTopTen (entries top : List TopProduct) : Prop :=
  (∃ sorted : List TopProduct, sorted.Perm entries ∧
    sorted.Pairwise (fun a b => b.quantity ≤ a.quantity) ∧
    (∀ a b, List.Sublist [a, b] entries → a.quantity = b.quantity →
      List.Sublist [a, b] sorted) ∧
    top = sorted.take 10) ∧
  top.length ≤ 10 ∧
  (top.map (·.sku)).Nodup ∧
  top.Pairwise (fun a b => b.quantity ≤ a.quantity) ∧
  ∀ a b, List.Sublist [a, b] entries → a.quantity = b.quantity → b ∈ top →
    List.Sublist [a, b] top

/-! ## The quantity a seller sold of catalog products -/

/-- The line items of the records that carry `seller_id` whose SKU is the SKU
of a catalog product, in order. -/
def catalogItems (products : List Product) (records : List PurchaseRecord)
    (seller_id : String) : List LineItem :=
  ((records.filter fun record => record.seller_id = seller_id).flatMap (·.items)).filter
    fun item => item.sku ∈ products.map (·.sku)

/-- The total quantity of the line items of `catalogItems`. -/
def catalogQuantity (products : List Product) (records : List PurchaseRecord)
    (seller_id : String) : ℚ :=
  ((catalogItems products records seller_id).map (·.quantity)).sum

/-! ## Results that agree up to the order of the `Map` entries -/

/-- Two stats that agree in every field but the order of the entries of the
`Map` of sold quantities. -/
def sameUpToMapOrder (a' a : SellerStat) : Prop :=
  a'.id = a.id ∧ a'.name = a.name ∧ a'.revenue = a.revenue ∧ a'.profit = a.profit ∧
  a'.sales_count = a.sales_count ∧ a'.bonus = a.bonus ∧ a'.top_products.Perm a.top_products

/-- Two result entries of the same seller with the same revenue, profit,
`sales_count` and bonus, whose `top_products` are the first 10 entries of two
lists `sorted'` and `sorted` of the same entries (SKU, quantity, name and
category), each by non-increasing quantity: the two lists of top products
show the same quantities position by position, and differ at most in the order
of entries of equal quantity and in which of these are among the first 10. -/
def sameRanking (x' x : SellerResult) : Prop :=
  x'.seller_id = x.seller_id ∧ x'.name = x.name ∧ x'.revenue = x.revenue ∧
  x'.profit = x.profit ∧ x'.sales_count = x.sales_count ∧ x'.bonus = x.bonus ∧
  x'.top_products.map (·.quantity) = x.top_products.map (·.quantity) ∧
  ∃ sorted' sorted : List TopProduct,
    sorted'.Perm sorted ∧
    sorted'.Pairwise (fun a b => b.quantity ≤ a.quantity) ∧
    sorted.Pairwise (fun a b => b.quantity ≤ a.quantity) ∧
    x'.top_products = sorted'.take 10 ∧ x.top_products = sorted.take 10

/-- A bonus strategy a caller can pass, the quantity of the first product the
seller sold: `(index, total, seller) => [...seller.top_products.values()][0] || 0`. -/
def firstProductBonus (_index _total : ℤ) (seller : SellerStat) : JSNumber :=
  some ((seller.top_products.head?.map Prod.snd).getD 0)

/-- Two records of the seller `seller_1`: one unit of `SKU_001`, then two
units of `SKU_002`. -/
def orderedRecords : List PurchaseRecord :=
  [ { id := "r1", seller_id := "seller_1", total_amount := 100
      items := [{ sku := "SKU_001", quantity := 1, sale_price := 100, discount := 0 }] },
    { id := "r2", seller_id := "seller_1", total_amount := 80
      items := [{ sku := "SKU_002", quantity := 2, sale_price := 40, discount := 0 }] } ]

/-- The input with `loneSeller`, `sampleProducts` and the given records. -/
def orderData (purchase_records : List PurchaseRecord) : Data :=
  { sellers := some loneSeller
    products := some sampleProducts
    purchase_records := some purchase_records }

/-! ## Inputs for the ranking: a profit that is not a number, and a tie -/

/-- Records for the sellers and the product of the example: A sells one unit
at a profit of 10, B has a line item with the SKU `constructor`, the SKU of no
product, and C sells one unit at a profit of 20. -/
def nanRecords : List PurchaseRecord :=
  [ { id := "r1", seller_id := "A", total_amount := 110, items := [exampleItem 110] },
    { id := "r2", seller_id := "B", total_amount := 10, items := [constructorItem] },
    { id := "r3", seller_id := "C", total_amount := 120, items := [exampleItem 120] } ]

/-- The input with the sellers and the product of the example and `nanRecords`. -/
def nanData : Data :=
  { sellers := some exampleSellers
    products := some exampleProducts
    purchase_records := some nanRecords }

/-- The stats of A, B and C after accumulation over `nanRecords`: the profit
of B is `NaN`. -/
def nanStats : List SellerStat :=
  [ { id := "A", name := "Seller A", revenue := 110, profit := some 10, sales_count := 1
      top_products := [("SKU_001", 1)], bonus := some 0 },
    { id := "B", name := "Seller B", revenue := 10, profit := none, sales_count := 1
      top_products := [("constructor", 1)], bonus := some 0 },
    { id := "C", name := "Seller C", revenue := 120, profit := some 20, sales_count := 1
      top_products := [("SKU_001", 1)], bonus := some 0 } ]

/-- What `analyzeSalesData` returns on `nanData` with the default options: the
sellers in the order A, B, C. -/
def nanResult : List SellerResult :=
  [ { seller_id := "A", name := "Seller A", revenue := 110, profit := some 10
      sales_count := 1
      top_products :=
        [{ sku := "SKU_001", quantity := 1, product_name := "Product", category := "Category" }]
      bonus := some (3 / 2) },
    { seller_id := "B", name := "Seller B", revenue := 10, profit := none
      sales_count := 1
      top_products :=
        [{ sku := "constructor", quantity := 1, product_name := "Object",
           category := "Неизвестно" }]
      bonus := none },
    { seller_id := "C", name := "Seller C", revenue := 120, profit := some 20
      sales_count := 1
      top_products :=
        [{ sku := "SKU_001", quantity := 1, product_name := "Product", category := "Category" }]
      bonus := some 2 } ]

/-- Three sellers, the first and the third of the same name. -/
def tiedSellers : List Seller :=
  [ { id := "t1", first_name := "Ivan", last_name := "Ivanov" },
    { id := "t2", first_name := "Petr", last_name := "Petrov" },
    { id := "t3", first_name := "Ivan", last_name := "Ivanov" } ]

/-- One record for each of `tiedSellers`: the first and the third seller sell
one unit at a profit of 10, the second one unit at a profit of 20. -/
def tiedRecords : List PurchaseRecord :=
  [ { id := "r1", seller_id := "t1", total_amount := 110, items := [exampleItem 110] },
    { id := "r2", seller_id := "t2", total_amount := 120, items := [exampleItem 120] },
    { id := "r3", seller_id := "t3", total_amount := 110, items := [exampleItem 110] } ]

/-- What `analyzeSalesData` returns on `tiedSellers`, the product of the
example and `tiedRecords` with the default options: `t2`, then the tied `t1`
and `t3` in the order of `data.sellers`. -/
def tiedResult : List SellerResult :=
  [ { seller_id := "t2", name := "Petr Petrov", revenue := 120, profit := some 20
      sales_count := 1
      top_products :=
        [{ sku := "SKU_001", quantity := 1, product_name := "Product", category := "Category" }]
      bonus := some 3 },
    { seller_id := "t1", name := "Ivan Ivanov", revenue := 110, profit := some 10
      sales_count := 1
      top_products :=
        [{ sku := "SKU_001", quantity := 1, product_name := "Product", category := "Category" }]
      bonus := some 1 },
    { seller_id := "t3", name := "Ivan Ivanov", revenue := 110, profit := some 10
      sales_count := 1
      top_products :=
        [{ sku := "SKU_001", quantity := 1, product_name := "Product", category := "Category" }]
      bonus := some 1 } ]

/-! ## Double arithmetic

The definitions above add and multiply exactly.  The code computes with IEEE
754 doubles: the result of `+`, `-`, `*` and `/` is the exact result rounded
to the nearest double.  The definitions below are those of lines 7-36 and
90-142 again, with a parameter `round` applied to the result of every
arithmetic operation: `roundToDouble` for the code as it runs, the identity
for exact arithmetic.  A number stands for the double of that value; the
infinities, which a result beyond the largest double becomes, are not
modelled.  The comparators of lines 145-160 and 176 are used through the sign
of a difference, which rounding to the nearest double keeps, and line 188-190
return the double nearest to a decimal of 2 places, written as that decimal;
ranking and output are those defined above. -/

/-- The number `2 ^ k` for an integer `k`. -/
def twoPow (k : ℤ) : ℚ :=
  if 0 ≤ k then ((2 ^ k.toNat : ℕ) : ℚ) else 1 / ((2 ^ (-k).toNat : ℕ) : ℚ)

/-- How often `n` can be halved before it is below 2, with at most `fuel`
halvings; `halvings n n` is the integer part of the binary logarithm of `n`. -/
def halvings : ℕ → ℕ → ℕ
  | 0, _ => 0
  | fuel + 1, n => if n < 2 then 0 else halvings fuel (n / 2) + 1

/-- The exponent `e` with `2 ^ e ≤ x < 2 ^ (e + 1)` of a positive number `x`. -/
def binaryExponent (x : ℚ) : ℤ :=
  let e : ℤ := (halvings x.num.natAbs x.num.natAbs : ℤ) - (halvings x.den x.den : ℤ)
  if twoPow e ≤ x then e else e - 1

/-- The integer nearest to `y`, the even one of two that are equally near. -/
def roundHalfEven (y : ℚ) : ℤ :=
  let n := ⌊y⌋
  if y - n < 1 / 2 then n
  else if 1 / 2 < y - n then n + 1
  else if n % 2 = 0 then n else n + 1

/-- The double nearest to `x` (IEEE 754 binary64, round to nearest, ties to
even): a multiple of `2 ^ (e - 52)` for the binary exponent `e` of `x`, of
`2 ^ (-1074)` in the subnormal range. -/
def roundToDouble (x : ℚ) : ℚ :=
  if x = 0 then 0
  else
    let ulp := twoPow (max (binaryExponent |x| - 52) (-1074))
    (if x < 0 then -1 else 1) * (roundHalfEven (|x| / ulp) : ℚ) * ulp

/-- Lines 7-11 in rounded arithmetic. -/
def calculateSimpleRevenueRounded (round : ℚ → ℚ) (purchase : PurchaseData)
    (_product : Product) : ℚ :=
  let discount := round (1 - round (purchase.discount / 100))
  round (round (purchase.sale_price * purchase.quantity) * discount)

/-- Lines 20-36 in rounded arithmetic: the literals `0.15`, `0.10` and `0.05`
are the numbers of the format nearest to them. -/
def calculateBonusByProfitRounded (round : ℚ → ℚ) (index total : ℤ) (seller : SellerStat) :
    JSNumber :=
  (jsMul seller.profit (some (round (bonusPercentage index total)))).map round

/-- The default options in rounded arithmetic. -/
def defaultOptionsRounded (round : ℚ → ℚ) : Options :=
  { calculateRevenue := some (calculateSimpleRevenueRounded round)
    calculateBonus := some (calculateBonusByProfitRounded round) }

/-- Lines 139-140 in rounded arithmetic. -/
def countProductRounded (round : ℚ → ℚ) (top_products : List (String × ℚ)) (item : LineItem) :
    List (String × ℚ) :=
  let currentCount := (mapGet top_products item.sku).getD 0
  mapSet top_products item.sku (round (currentCount + item.quantity))

/-- The body of `record.items.forEach` (lines 104-141) in rounded arithmetic. -/
def addItemRounded (round : ℚ → ℚ) (calculateRevenue : PurchaseData → Product → ℚ)
    (products : List (String × Product)) (seller : SellerStat) (item : LineItem) :
    SellerStat :=
  match getProperty products item.sku with
  | .absent => seller
  | .own product =>
    let cost := round (product.purchase_price * item.quantity)
    let purchaseData : PurchaseData :=
      { sale_price := item.sale_price, quantity := item.quantity, discount := item.discount }
    let revenue := calculateRevenue purchaseData product
    let profit := round (revenue - cost)
    { seller with
      profit := (jsAdd seller.profit (some profit)).map round
      top_products := countProductRounded round seller.top_products item }
  | .inherited =>
    { seller with
      profit := jsAdd seller.profit none
      top_products := countProductRounded round seller.top_products item }

/-- Lines 99-141 in rounded arithmetic, for a record whose seller is one of the
seeded stats. -/
def addSaleRounded (round : ℚ → ℚ) (calculateRevenue : PurchaseData → Product → ℚ)
    (products : List (String × Product)) (record : PurchaseRecord) (seller : SellerStat) :
    SellerStat :=
  record.items.foldl (addItemRounded round calculateRevenue products)
    { seller with
      sales_count := seller.sales_count + 1
      revenue := round (seller.revenue + record.total_amount) }

/-- The body of `data.purchase_records.forEach` (lines 90-142) in rounded
arithmetic. -/
def processRecordRounded (round : ℚ → ℚ) (calculateRevenue : PurchaseData → Product → ℚ)
    (sellers : List (String × ℕ)) (products : List (String × Product))
    (stats : List SellerStat) (record : PurchaseRecord) :
    Except AnalysisError (List SellerStat) :=
  match getProperty sellers record.seller_id with
  | .absent => .ok stats
  | .own seller =>
    .ok (modifyAt (addSaleRounded round calculateRevenue products record) seller stats)
  | .inherited =>
    match addItemsInherited products record.items with
    | .ok _ => .ok stats
    | .error e => .error e

/-- Lines 90-142 in rounded arithmetic: the records in order, until one throws. -/
def accumulateRounded (round : ℚ → ℚ) (calculateRevenue : PurchaseData → Product → ℚ)
    (sellers : List (String × ℕ)) (products : List (String × Product)) :
    List SellerStat → List PurchaseRecord → Except AnalysisError (List SellerStat)
  | stats, [] => .ok stats
  | stats, record :: rest =>
    match processRecordRounded round calculateRevenue sellers products stats record with
    | .ok stats' => accumulateRounded round calculateRevenue sellers products stats' rest
    | .error e => .error e

/-- The stats after lines 70-142 in rounded arithmetic, or the exception
thrown on the way. -/
def accumulatedStatsRounded (round : ℚ → ℚ) (calculateRevenue : PurchaseData → Product → ℚ)
    (sellers : List Seller) (products : List Product) (purchase_records : List PurchaseRecord) :
    Except AnalysisError (List SellerStat) :=
  accumulateRounded round calculateRevenue (sellerIndex (sellerStats sellers))
    (productIndex products) (sellerStats sellers) purchase_records

/-- Lines 69-193 in rounded arithmetic, for arguments that passed the checks of
lines 46-67. -/
def analyzeValidRounded (round : ℚ → ℚ) (localeCompare : String → String → ℤ)
    (calculateRevenue : PurchaseData → Product → ℚ)
    (calculateBonus : ℤ → ℤ → SellerStat → JSNumber)
    (sellers : List Seller) (products : List Product) (purchase_records : List PurchaseRecord) :
    Except AnalysisError (List SellerResult) :=
  match accumulatedStatsRounded round calculateRevenue sellers products purchase_records with
  | .error e => .error e
  | .ok stats =>
    let ranked := rankedStats localeCompare stats
    .ok (resultsFrom calculateBonus (productIndex products) ranked.length 0 ranked)

/-- Lines 44-194 in rounded arithmetic. -/
def analyzeSalesDataRounded (round : ℚ → ℚ) (localeCompare : String → String → ℤ)
    (data : Option Data) (options : Option Options) :
    Except AnalysisError (List SellerResult) :=
  match data with
  | none => .error .invalidData
  | some data =>
    match data.sellers, data.products, data.purchase_records with
    | some sellers, some products, some purchase_records =>
      if sellers.length = 0 ∨ products.length = 0 ∨ purchase_records.length = 0 then
        .error .invalidData
      else
        match options with
        | none => .error .invalidOptions
        | some options =>
          match options.calculateRevenue, options.calculateBonus with
          | some calculateRevenue, some calculateBonus =>
            analyzeValidRounded round localeCompare calculateRevenue calculateBonus
              sellers products purchase_records
          | _, _ => .error .missingFunctions
    | _, _, _ => .error .invalidData

/-- What the records, in order, make in rounded arithmetic of the stat at
position `j` of `sellerStats`. -/
def sellerFoldRounded (round : ℚ → ℚ) (calculateRevenue : PurchaseData → Product → ℚ)
    (sellers : List (String × ℕ)) (products : List (String × Product)) (j : ℕ)
    (records : List PurchaseRecord) (stat : SellerStat) : SellerStat :=
  records.foldl
    (fun st record =>
      if getProperty sellers record.seller_id = .own j then
        addSaleRounded round calculateRevenue products record st
      else st)
    stat

/-- The profit of one line item in rounded arithmetic: the revenue that the
strategy returns for the item and its catalog product, minus the rounded
`purchase_price * quantity`, rounded. -/
def lineItemProfitRounded (round : ℚ → ℚ) (calculateRevenue : PurchaseData → Product → ℚ)
    (products : List Product) (item : LineItem) : ℚ :=
  match products.find? (fun product => product.sku = item.sku) with
  | some product =>
    round (calculateRevenue
      { sale_price := item.sale_price, quantity := item.quantity, discount := item.discount }
      product - round (product.purchase_price * item.quantity))
  | none => 0

/-- Two records of the seller `seller_1` without line items, whose
`total_amount`s are the doubles that `0.12` and `0.005` denote. -/
def centRecords : List PurchaseRecord :=
  [ { id := "r1", seller_id := "seller_1", total_amount := roundToDouble (12 / 100)
      items := [] },
    { id := "r2", seller_id := "seller_1", total_amount := roundToDouble (5 / 1000)
      items := [] } ]

/-- Two records of the seller `seller_1` without line items, with the
`total_amount`s `9007199254740992`, which is `2 ^ 53`, and `1`. -/
def largeRecords : List PurchaseRecord :=
  [ { id := "r1", seller_id := "seller_1", total_amount := 9007199254740992, items := [] },
    { id := "r2", seller_id := "seller_1", total_amount := 1, items := [] } ]

/-- One record of the seller `seller_1` with two line items of one unit of
`SKU_001`, sold at the doubles that `0.12` and `0.005` denote. -/
def centItemRecords : List PurchaseRecord :=
  [ { id := "r1", seller_id := "seller_1", total_amount := 0
      items :=
        [ { sku := "SKU_001", quantity := 1, sale_price := roundToDouble (12 / 100),
            discount := 0 },
          { sku := "SKU_001", quantity := 1, sale_price := roundToDouble (5 / 1000),
            discount := 0 } ] } ]

/-- The input with `loneSeller`, the product of `roundingProducts`, bought at
0, and the given records. -/
def freeProductData (purchase_records : List PurchaseRecord) : Data :=
  { sellers := some loneSeller
    products := some roundingProducts
    purchase_records := some purchase_records }

/-- What `analyzeSalesData` returns on `loneData centRecords` in double
arithmetic, with the default options: the revenue is 0.13. -/
def centResult : List SellerResult :=
  [ { seller_id := "seller_1", name := "Alexey Petrov", revenue := 13 / 100, profit := some 0
      sales_count := 2
      top_products := []
      bonus := some 0 } ]

/-- What `analyzeSalesData` returns on `loneData largeRecords` in double
arithmetic, with the default options: the revenue is `2 ^ 53`. -/
def largeResult : List SellerResult :=
  [ { seller_id := "seller_1", name := "Alexey Petrov", revenue := 9007199254740992
      profit := some 0
      sales_count := 2
      top_products := []
      bonus := some 0 } ]

/-- What `analyzeSalesData` returns on `freeProductData centItemRecords` in
double arithmetic, with the default options: the profit is 0.13. -/
def centItemResult : List SellerResult :=
  [ { seller_id := "seller_1", name := "Alexey Petrov", revenue := 0, profit := some (13 / 100)
      sales_count := 1
      top_products :=
        [{ sku := "SKU_001", quantity := 2, product_name := "Product", category := "Category" }]
      bonus := some (1 / 50) } ]

/-! ## Sums that are not rounded -/

/-- Every sum of some of the `values` is a number that `round` leaves as it
is: with `roundToDouble`, every such sum is a double.  The code then adds the
values, in whatever order, without rounding a sum. -/
def sumsExact (round : ℚ → ℚ) (values : List ℚ) : Prop :=
  ∀ l ∈ values.sublists, round l.sum = l.sum

instance sumsExactDecidable (round : ℚ → ℚ) (values : List ℚ) :
    Decidable (sumsExact round values) :=
  inferInstanceAs (Decidable (∀ l ∈ values.sublists, round l.sum = l.sum))

/-- The profits (line 126) of the line items that have a catalog product, in
order, in rounded arithmetic. -/
def itemProfits (round : ℚ → ℚ) (calculateRevenue : PurchaseData → Product → ℚ)
    (products : List (String × Product)) (items : List LineItem) : List ℚ :=
  items.filterMap fun item =>
    match getProperty products item.sku with
    | .own product =>
      some (round (calculateRevenue
        { sale_price := item.sale_price, quantity := item.quantity, discount := item.discount }
        product - round (product.purchase_price * item.quantity)))
    | _ => none

/-- What lines 108-129 make of `seller.profit` for one line item, in rounded
arithmetic: it is left alone when line 108 finds no product, the profit of the
item is added for a catalog product, and it becomes `NaN` for a member of
`Object.prototype`. -/
def addProfitRounded (round : ℚ → ℚ) (calculateRevenue : PurchaseData → Product → ℚ)
    (products : List (String × Product)) (profit : JSNumber) (item : LineItem) : JSNumber :=
  match getProperty products item.sku with
  | .absent => profit
  | .own product =>
    (jsAdd profit (some (round (calculateRevenue
      { sale_price := item.sale_price, quantity := item.quantity, discount := item.discount }
      product - round (product.purchase_price * item.quantity))))).map round
  | .inherited => none

/-! ## Inputs and a strategy for double arithmetic -/

/-- Three records of the seller `seller_1` without line items, with the
`total_amount`s `2 ^ 53`, 1 and 1. -/
def largeOrderRecords : List PurchaseRecord :=
  [ { id := "r1", seller_id := "seller_1", total_amount := 9007199254740992, items := [] },
    { id := "r2", seller_id := "seller_1", total_amount := 1, items := [] },
    { id := "r3", seller_id := "seller_1", total_amount := 1, items := [] } ]

/-- The bonus strategy `profitPerSale` in rounded arithmetic: the quotient is
rounded. -/
def profitPerSaleRounded (round : ℚ → ℚ) (index total : ℤ) (seller : SellerStat) : JSNumber :=
  (profitPerSale index total seller).map round

/-! ## Lemmas: lists and lookups -/

theorem length_modifyAt {α : Type} (f : α → α) (n : ℕ) (l : List α) :
    (modifyAt f n l).length = l.length := by
  induction l generalizing n with
  | nil => cases n <;> rfl
  | cons a l ih => cases n <;> simp [modifyAt, ih]

theorem getElem?_modifyAt {α : Type} (f : α → α) (n : ℕ) (l : List α) (j : ℕ) :
    (modifyAt f n l)[j]? = if j = n then (l[j]?).map f else l[j]? := by
  induction l generalizing n j with
  | nil => cases n <;> simp [modifyAt]
  | cons a l ih =>
    cases n with
    | zero => cases j <;> simp [modifyAt]
    | succ n => cases j <;> simp [modifyAt, ih]

theorem map_modifyAt {α β : Type} (g : α → β) (f : α → α) (hf : ∀ a, g (f a) = g a)
    (n : ℕ) (l : List α) : (modifyAt f n l).map g = l.map g := by
  induction l generalizing n with
  | nil => cases n <;> rfl
  | cons a l ih => cases n <;> simp [modifyAt, ih, hf]

theorem ownProperty_eq_none {α : Type} (entries : List (String × α)) (key : String) :
    ownProperty entries key = none ↔ key ∉ entries.map Prod.fst := by
  induction entries with
  | nil => simp [ownProperty]
  | cons e rest ih =>
    obtain ⟨k, v⟩ := e
    simp only [ownProperty, List.map_cons, List.mem_cons, not_or]
    cases h : ownProperty rest key with
    | some w =>
      have hm : ¬ key ∉ rest.map Prod.fst := fun hn => by simp [ih.mpr hn] at h
      constructor
      · intro h0; cases h0
      · rintro ⟨_, hn⟩; exact absurd hn hm
    | none =>
      have hn := ih.mp h
      by_cases hk : k = key
      · simp [hk]
      · simp [hk, hn, Ne.symm hk]

theorem mem_of_ownProperty {α : Type} (entries : List (String × α)) (key : String) (v : α)
    (h : ownProperty entries key = some v) : (key, v) ∈ entries := by
  induction entries with
  | nil => simp [ownProperty] at h
  | cons e rest ih =>
    obtain ⟨k, w⟩ := e
    simp only [ownProperty] at h
    cases h' : ownProperty rest key with
    | some u =>
      rw [h'] at h
      simp only [Option.some.injEq] at h
      subst h
      exact List.mem_cons_of_mem _ (ih h')
    | none =>
      rw [h'] at h
      by_cases hk : k = key
      · simp only [hk, if_true, Option.some.injEq] at h
        subst h; subst hk
        exact List.mem_cons_self _ _
      · simp [hk] at h

theorem ownProperty_of_mem {α : Type} (entries : List (String × α)) (key : String) (v : α)
    (hnd : (entries.map Prod.fst).Nodup) (h : (key, v) ∈ entries) :
    ownProperty entries key = some v := by
  induction entries with
  | nil => simp at h
  | cons e rest ih =>
    obtain ⟨k, w⟩ := e
    simp only [List.map_cons, List.nodup_cons] at hnd
    simp only [ownProperty]
    rcases List.mem_cons.mp h with h | h
    · simp only [Prod.mk.injEq] at h
      obtain ⟨hk, hv⟩ := h
      subst hk; subst hv
      rw [(ownProperty_eq_none rest key).mpr hnd.1]
      simp
    · rw [ih hnd.2 h]

theorem map_fst_sellerEntries (n : ℕ) (stats : List SellerStat) :
    (sellerEntries n stats).map Prod.fst = stats.map (·.id) := by
  induction stats generalizing n with
  | nil => rfl
  | cons st rest ih => simp [sellerEntries, ih]

theorem mem_sellerEntries (n : ℕ) (stats : List SellerStat) (key : String) (i : ℕ) :
    (key, i) ∈ sellerEntries n stats ↔ n ≤ i ∧ (stats[i - n]?).map (·.id) = some key := by
  induction stats generalizing n with
  | nil => simp [sellerEntries]
  | cons st rest ih =>
    simp only [sellerEntries, List.mem_cons, Prod.mk.injEq, ih]
    constructor
    · rintro (⟨hk, hi⟩ | ⟨hle, h⟩)
      · subst hi; subst hk; simp
      · refine ⟨by omega, ?_⟩
        have : i - n = (i - (n + 1)) + 1 := by omega
        rw [this]; simpa using h
    · rintro ⟨hle, h⟩
      rcases Nat.eq_or_lt_of_le hle with he | hlt
      · left
        subst he
        simp at h
        exact ⟨h.symm, rfl⟩
      · right
        refine ⟨by omega, ?_⟩
        have : i - n = (i - (n + 1)) + 1 := by omega
        rw [this] at h; simpa using h

theorem map_fst_productIndex (products : List Product) :
    (productIndex products).map Prod.fst = products.map (·.sku) := by
  simp [productIndex, Function.comp_def]

/-! ## Lemmas: accumulation -/

theorem addItem_fields (cr : PurchaseData → Product → ℚ) (products : List (String × Product))
    (st : SellerStat) (item : LineItem) :
    (addItem cr products st item).id = st.id ∧ (addItem cr products st item).name = st.name ∧
    (addItem cr products st item).revenue = st.revenue ∧
    (addItem cr products st item).sales_count = st.sales_count ∧
    (addItem cr products st item).bonus = st.bonus := by
  unfold addItem
  cases getProperty products item.sku <;> simp

theorem foldl_addItem_fields (cr : PurchaseData → Product → ℚ)
    (products : List (String × Product)) (items : List LineItem) (st : SellerStat) :
    (items.foldl (addItem cr products) st).id = st.id ∧
    (items.foldl (addItem cr products) st).name = st.name ∧
    (items.foldl (addItem cr products) st).revenue = st.revenue ∧
    (items.foldl (addItem cr products) st).sales_count = st.sales_count ∧
    (items.foldl (addItem cr products) st).bonus = st.bonus := by
  induction items generalizing st with
  | nil => simp
  | cons item rest ih =>
    obtain ⟨h1, h2, h3, h4, h5⟩ := addItem_fields cr products st item
    obtain ⟨i1, i2, i3, i4, i5⟩ := ih (addItem cr products st item)
    simp only [List.foldl_cons]
    exact ⟨i1.trans h1, i2.trans h2, i3.trans h3, i4.trans h4, i5.trans h5⟩

theorem addSale_fields (cr : PurchaseData → Product → ℚ) (products : List (String × Product))
    (record : PurchaseRecord) (st : SellerStat) :
    (addSale cr products record st).id = st.id ∧
    (addSale cr products record st).name = st.name ∧
    (addSale cr products record st).revenue = st.revenue + record.total_amount ∧
    (addSale cr products record st).sales_count = st.sales_count + 1 ∧
    (addSale cr products record st).bonus = st.bonus := by
  unfold addSale
  obtain ⟨h1, h2, h3, h4, h5⟩ := foldl_addItem_fields cr products record.items
    { st with sales_count := st.sales_count + 1, revenue := st.revenue + record.total_amount }
  exact ⟨h1, h2, h3, h4, h5⟩

theorem processRecord_ok (cr : PurchaseData → Product → ℚ) (sellers : List (String × ℕ))
    (products : List (String × Product)) (stats stats' : List SellerStat)
    (record : PurchaseRecord) (h : processRecord cr sellers products stats record = .ok stats') :
    stats' = match getProperty sellers record.seller_id with
      | .own seller => modifyAt (addSale cr products record) seller stats
      | _ => stats := by
  unfold processRecord at h
  cases hl : getProperty sellers record.seller_id with
  | own seller => rw [hl] at h; simp only [Except.ok.injEq] at h; simp [h]
  | absent => rw [hl] at h; simp only [Except.ok.injEq] at h; simp [h]
  | inherited =>
    rw [hl] at h
    cases hi : addItemsInherited products record.items with
    | ok u => rw [hi] at h; simp only [Except.ok.injEq] at h; simp [h]
    | error e => rw [hi] at h; simp at h

theorem sellerFold_cons (cr : PurchaseData → Product → ℚ) (sellers : List (String × ℕ))
    (products : List (String × Product)) (j : ℕ) (record : PurchaseRecord)
    (rest : List PurchaseRecord) (st : SellerStat) :
    sellerFold cr sellers products j (record :: rest) st =
      sellerFold cr sellers products j rest
        (if getProperty sellers record.seller_id = .own j then
          addSale cr products record st else st) := rfl

theorem accumulate_getElem? (cr : PurchaseData → Product → ℚ) (sellers : List (String × ℕ))
    (products : List (String × Product)) (records : List PurchaseRecord)
    (stats stats' : List SellerStat)
    (h : accumulate cr sellers products stats records = .ok stats') (j : ℕ) :
    stats'[j]? = (stats[j]?).map (sellerFold cr sellers products j records) := by
  induction records generalizing stats with
  | nil =>
    simp only [accumulate, Except.ok.injEq] at h
    subst h
    cases stats[j]? <;> simp [sellerFold]
  | cons record rest ih =>
    simp only [accumulate] at h
    cases hp : processRecord cr sellers products stats record with
    | error e => rw [hp] at h; simp at h
    | ok stats1 =>
      rw [hp] at h
      have h1 := processRecord_ok cr sellers products stats stats1 record hp
      rw [ih stats1 h, h1]
      cases hl : getProperty sellers record.seller_id with
      | own seller =>
        simp only
        rw [getElem?_modifyAt]
        by_cases hj : j = seller
        · subst hj
          simp only [if_true, Option.map_map]
          congr 1
          funext st
          simp [sellerFold_cons, hl]
        · have hne : (Lookup.own seller : Lookup ℕ) ≠ Lookup.own j := by
            intro he; injection he with he; exact hj he.symm
          simp only [if_neg hj]
          congr 1
          funext st
          simp [sellerFold_cons, hl, hne]
      | absent =>
        simp only
        congr 1
        funext st
        simp [sellerFold_cons, hl]
      | inherited =>
        simp only
        congr 1
        funext st
        simp [sellerFold_cons, hl]

theorem accumulate_length (cr : PurchaseData → Product → ℚ) (sellers : List (String × ℕ))
    (products : List (String × Product)) (records : List PurchaseRecord)
    (stats stats' : List SellerStat)
    (h : accumulate cr sellers products stats records = .ok stats') :
    stats'.length = stats.length := by
  induction records generalizing stats with
  | nil => simp only [accumulate, Except.ok.injEq] at h; rw [h]
  | cons record rest ih =>
    simp only [accumulate] at h
    cases hp : processRecord cr sellers products stats record with
    | error e => rw [hp] at h; simp at h
    | ok stats1 =>
      rw [hp] at h
      have h1 := processRecord_ok cr sellers products stats stats1 record hp
      rw [ih stats1 h, h1]
      cases getProperty sellers record.seller_id <;> simp [length_modifyAt]

theorem sellerFold_fields (cr : PurchaseData → Product → ℚ) (sellers : List (String × ℕ))
    (products : List (String × Product)) (j : ℕ) (records : List PurchaseRecord)
    (st : SellerStat) :
    (sellerFold cr sellers products j records st).id = st.id ∧
    (sellerFold cr sellers products j records st).name = st.name ∧
    (sellerFold cr sellers products j records st).sales_count = st.sales_count +
      (records.filter fun r => getProperty sellers r.seller_id = .own j).length ∧
    (sellerFold cr sellers products j records st).revenue = st.revenue +
      ((records.filter fun r => getProperty sellers r.seller_id = .own j).map
        (·.total_amount)).sum := by
  induction records generalizing st with
  | nil => simp [sellerFold]
  | cons record rest ih =>
    unfold sellerFold at ih ⊢
    simp only [List.foldl_cons]
    by_cases hl : getProperty sellers record.seller_id = .own j
    · obtain ⟨h1, h2, h3, h4, _⟩ := addSale_fields cr products record st
      obtain ⟨i1, i2, i3, i4⟩ := ih (addSale cr products record st)
      simp only [hl, if_true, List.filter_cons, decide_True, List.length_cons, List.map_cons,
        List.sum_cons]
      refine ⟨i1.trans h1, i2.trans h2, ?_, ?_⟩
      · rw [i3, h4]; omega
      · rw [i4, h3]; ring
    · obtain ⟨i1, i2, i3, i4⟩ := ih st
      simp only [hl, if_false, List.filter_cons, decide_False]
      exact ⟨i1, i2, i3, i4⟩

/-! ## Lemmas: the pipeline -/

theorem analyzeSalesData_eq_analyzeValid (lc : String → String → ℤ) (sellers : List Seller)
    (products : List Product) (records : List PurchaseRecord)
    (cr : PurchaseData → Product → ℚ) (cb : ℤ → ℤ → SellerStat → JSNumber)
    (result : List SellerResult)
    (h : analyzeSalesData lc
      (some { sellers := some sellers, products := some products,
              purchase_records := some records })
      (some { calculateRevenue := some cr, calculateBonus := some cb }) = .ok result) :
    sellers ≠ [] ∧ products ≠ [] ∧ records ≠ [] ∧
    analyzeValid lc cr cb sellers products records = .ok result := by
  simp only [analyzeSalesData] at h
  split at h
  · simp at h
  · rename_i hne
    simp only [not_or, List.length_eq_zero] at hne
    exact ⟨hne.1, hne.2.1, hne.2.2, h⟩

theorem analyzeValid_ok (lc : String → String → ℤ)
    (cr : PurchaseData → Product → ℚ) (cb : ℤ → ℤ → SellerStat → JSNumber)
    (sellers : List Seller) (products : List Product) (records : List PurchaseRecord)
    (result : List SellerResult)
    (h : analyzeValid lc cr cb sellers products records = .ok result) :
    ∃ stats, accumulatedStats cr sellers products records = .ok stats ∧
      result = resultsFrom cb (productIndex products) (rankedStats lc stats).length 0
        (rankedStats lc stats) := by
  unfold analyzeValid at h
  cases ha : accumulatedStats cr sellers products records with
  | error e => rw [ha] at h; simp at h
  | ok stats =>
    rw [ha] at h
    simp only [Except.ok.injEq] at h
    exact ⟨stats, rfl, h.symm⟩

theorem rankedStats_perm (lc : String → String → ℤ) (stats : List SellerStat) :
    (rankedStats lc stats).Perm stats :=
  List.perm_insertionSort _ _

theorem length_rankedStats (lc : String → String → ℤ) (stats : List SellerStat) :
    (rankedStats lc stats).length = stats.length :=
  (rankedStats_perm lc stats).length_eq

theorem length_resultsFrom (cb : ℤ → ℤ → SellerStat → JSNumber)
    (products : List (String × Product)) (total index : ℕ) (l : List SellerStat) :
    (resultsFrom cb products total index l).length = l.length := by
  induction l generalizing index with
  | nil => rfl
  | cons st rest ih => simp [resultsFrom, ih]

theorem getElem?_resultsFrom (cb : ℤ → ℤ → SellerStat → JSNumber)
    (products : List (String × Product)) (total index : ℕ) (l : List SellerStat) (k : ℕ) :
    (resultsFrom cb products total index l)[k]? =
      (l[k]?).map (resultRecord cb products total (index + k)) := by
  induction l generalizing index k with
  | nil => simp [resultsFrom]
  | cons st rest ih =>
    cases k with
    | zero => simp [resultsFrom]
    | succ k =>
      have hk : index + 1 + k = index + (k + 1) := by omega
      simp only [resultsFrom, List.getElem?_cons_succ, ih, hk]

theorem map_seller_id_resultsFrom (cb : ℤ → ℤ → SellerStat → JSNumber)
    (products : List (String × Product)) (total index : ℕ) (l : List SellerStat) :
    (resultsFrom cb products total index l).map (·.seller_id) = l.map (·.id) := by
  induction l generalizing index with
  | nil => rfl
  | cons st rest ih => simp [resultsFrom, resultRecord, ih]

theorem mem_resultsFrom (cb : ℤ → ℤ → SellerStat → JSNumber)
    (products : List (String × Product)) (total index : ℕ) (l : List SellerStat)
    (x : SellerResult) (hx : x ∈ resultsFrom cb products total index l) :
    ∃ st ∈ l, ∃ i, x = resultRecord cb products total i st := by
  induction l generalizing index with
  | nil => simp [resultsFrom] at hx
  | cons st rest ih =>
    simp only [resultsFrom, List.mem_cons] at hx
    rcases hx with hx | hx
    · exact ⟨st, List.mem_cons_self _ _, index, hx⟩
    · obtain ⟨st', hm, i, hi⟩ := ih (index + 1) hx
      exact ⟨st', List.mem_cons_of_mem _ hm, i, hi⟩

theorem exists_resultsFrom (cb : ℤ → ℤ → SellerStat → JSNumber)
    (products : List (String × Product)) (total index : ℕ) (l : List SellerStat)
    (st : SellerStat) (hst : st ∈ l) :
    ∃ x ∈ resultsFrom cb products total index l, ∃ i, x = resultRecord cb products total i st := by
  induction l generalizing index with
  | nil => simp at hst
  | cons st' rest ih =>
    rcases List.mem_cons.mp hst with h | h
    · subst h
      exact ⟨_, List.mem_cons_self _ _, index, rfl⟩
    · obtain ⟨x, hx, i, hi⟩ := ih (index + 1) h
      exact ⟨x, List.mem_cons_of_mem _ hx, i, hi⟩

theorem accumulatedStats_getElem? (cr : PurchaseData → Product → ℚ)
    (sellers : List Seller) (products : List Product) (records : List PurchaseRecord)
    (stats : List SellerStat) (h : accumulatedStats cr sellers products records = .ok stats)
    (j : ℕ) :
    stats[j]? = (sellers[j]?).map fun seller =>
      sellerFold cr (sellerIndex (sellerStats sellers)) (productIndex products) j records
        (seedStat seller) := by
  unfold accumulatedStats at h
  rw [accumulate_getElem? cr _ _ records _ stats h j]
  simp [sellerStats, Function.comp_def]

theorem accumulatedStats_map_id (cr : PurchaseData → Product → ℚ)
    (sellers : List Seller) (products : List Product) (records : List PurchaseRecord)
    (stats : List SellerStat) (h : accumulatedStats cr sellers products records = .ok stats) :
    stats.map (·.id) = sellers.map (·.id) := by
  apply List.ext_getElem?
  intro j
  rw [List.getElem?_map, List.getElem?_map, accumulatedStats_getElem? cr _ _ _ _ h j]
  cases sellers[j]? with
  | none => rfl
  | some seller =>
    simp only [Option.map_some']
    rw [(sellerFold_fields cr _ _ j records (seedStat seller)).1]
    rfl

/-- The accumulated stat of every returned record and of every seller. -/
theorem result_stats (lc : String → String → ℤ)
    (cr : PurchaseData → Product → ℚ) (cb : ℤ → ℤ → SellerStat → JSNumber)
    (sellers : List Seller) (products : List Product) (records : List PurchaseRecord)
    (result : List SellerResult)
    (h : analyzeValid lc cr cb sellers products records = .ok result) :
    (∀ x ∈ result, ∃ j seller i, sellers[j]? = some seller ∧
      x = resultRecord cb (productIndex products) sellers.length i
        (sellerFold cr (sellerIndex (sellerStats sellers)) (productIndex products) j records
          (seedStat seller))) ∧
    (∀ j seller, sellers[j]? = some seller → ∃ x ∈ result, ∃ i,
      x = resultRecord cb (productIndex products) sellers.length i
        (sellerFold cr (sellerIndex (sellerStats sellers)) (productIndex products) j records
          (seedStat seller))) := by
  obtain ⟨stats, hacc, hres⟩ := analyzeValid_ok lc cr cb sellers products records result h
  have hlen : (rankedStats lc stats).length = sellers.length := by
    rw [length_rankedStats]
    have := congrArg List.length (accumulatedStats_map_id cr _ _ _ _ hacc)
    simpa using this
  rw [hlen] at hres
  constructor
  · intro x hx
    rw [hres] at hx
    obtain ⟨st, hst, i, hi⟩ := mem_resultsFrom cb _ _ _ _ x hx
    have hst' : st ∈ stats := (rankedStats_perm lc stats).mem_iff.mp hst
    obtain ⟨j, hj⟩ := List.mem_iff_getElem?.mp hst'
    rw [accumulatedStats_getElem? cr _ _ _ _ hacc j] at hj
    cases hs : sellers[j]? with
    | none => rw [hs] at hj; simp at hj
    | some seller =>
      rw [hs] at hj
      simp only [Option.map_some', Option.some.injEq] at hj
      exact ⟨j, seller, i, hs, by rw [hi, ← hj]⟩
  · intro j seller hs
    have hj := accumulatedStats_getElem? cr _ _ _ _ hacc j
    rw [hs] at hj
    simp only [Option.map_some'] at hj
    have hst : _ ∈ stats := List.mem_iff_getElem?.mpr ⟨j, hj⟩
    have hst' := (rankedStats_perm lc stats).mem_iff.mpr hst
    obtain ⟨x, hx, i, hi⟩ := exists_resultsFrom cb (productIndex products) sellers.length 0 _ _ hst'
    exact ⟨x, by rw [hres]; exact hx, i, hi⟩

/-! ## Lemmas: what a seller's records add up to -/

theorem getProperty_own_iff {α : Type} (entries : List (String × α)) (key : String) (v : α) :
    getProperty entries key = .own v ↔ ownProperty entries key = some v := by
  unfold getProperty
  cases ownProperty entries key with
  | some w => simp
  | none => by_cases hk : key ∈ objectPrototypeKeys <;> simp [hk]

theorem sellerIndex_own_iff (sellers : List Seller) (hid : (sellers.map (·.id)).Nodup)
    (key : String) (j : ℕ) :
    getProperty (sellerIndex (sellerStats sellers)) key = .own j ↔
      (sellers[j]?).map (·.id) = some key := by
  rw [getProperty_own_iff]
  have hkeys : ((sellerIndex (sellerStats sellers)).map Prod.fst).Nodup := by
    rw [sellerIndex, map_fst_sellerEntries]
    simpa [sellerStats, Function.comp_def, seedStat] using hid
  have hmem : (key, j) ∈ sellerIndex (sellerStats sellers) ↔
      (sellers[j]?).map (·.id) = some key := by
    rw [sellerIndex, mem_sellerEntries]
    simp only [Nat.zero_le, true_and, Nat.sub_zero, sellerStats, List.getElem?_map,
      Option.map_map]
    rfl
  constructor
  · intro h; exact hmem.mp (mem_of_ownProperty _ _ _ h)
  · intro h; exact ownProperty_of_mem _ _ _ hkeys (hmem.mpr h)

theorem sellerFold_eq_foldl_filter (cr : PurchaseData → Product → ℚ)
    (sellers : List (String × ℕ)) (products : List (String × Product)) (j : ℕ)
    (records : List PurchaseRecord) (st : SellerStat) :
    sellerFold cr sellers products j records st =
      (records.filter fun r => getProperty sellers r.seller_id = .own j).foldl
        (fun st r => addSale cr products r st) st := by
  induction records generalizing st with
  | nil => rfl
  | cons record rest ih =>
    rw [sellerFold_cons, ih]
    by_cases hl : getProperty sellers record.seller_id = .own j
    · simp [hl, List.filter_cons]
    · simp [hl, List.filter_cons]

theorem jsAdd_assoc_some (a : JSNumber) (x y : ℚ) :
    jsAdd (jsAdd a (some x)) (some y) = jsAdd a (some (x + y)) := by
  cases a <;> simp [jsAdd, add_assoc]

theorem productIndex_own_of_mem (products : List Product)
    (hsku : (products.map (·.sku)).Nodup) (sku : String) (hm : sku ∈ products.map (·.sku)) :
    ∃ product, getProperty (productIndex products) sku = .own product ∧
      products.find? (fun p => p.sku = sku) = some product := by
  have hsome : (products.find? (fun p => decide (p.sku = sku))).isSome = true := by
    rw [List.find?_isSome]
    obtain ⟨p, hp, hpk⟩ := List.mem_map.mp hm
    exact ⟨p, hp, by simpa using hpk⟩
  obtain ⟨product, hfind⟩ := Option.isSome_iff_exists.mp hsome
  refine ⟨product, ?_, hfind⟩
  have hpm : product ∈ products := List.mem_of_find?_eq_some hfind
  have hpk : product.sku = sku := by simpa using List.find?_some hfind
  rw [getProperty_own_iff]
  apply ownProperty_of_mem
  · rw [map_fst_productIndex]; exact hsku
  · rw [← hpk]
    exact List.mem_map.mpr ⟨product, hpm, rfl⟩

theorem addItem_profit_own (cr : PurchaseData → Product → ℚ) (products : List Product)
    (hsku : (products.map (·.sku)).Nodup) (st : SellerStat) (item : LineItem)
    (hm : item.sku ∈ products.map (·.sku)) :
    (addItem cr (productIndex products) st item).profit =
      jsAdd st.profit (some (lineItemProfit cr products item)) := by
  obtain ⟨product, hget, hfind⟩ := productIndex_own_of_mem products hsku item.sku hm
  simp [addItem, hget, lineItemProfit, hfind]

theorem foldl_addItem_profit (cr : PurchaseData → Product → ℚ) (products : List Product)
    (hsku : (products.map (·.sku)).Nodup) (items : List LineItem) (st : SellerStat)
    (hm : ∀ item ∈ items, item.sku ∈ products.map (·.sku)) :
    (items.foldl (addItem cr (productIndex products)) st).profit =
      jsAdd st.profit (some ((items.map (lineItemProfit cr products)).sum)) := by
  induction items generalizing st with
  | nil => cases hp : st.profit <;> simp [jsAdd, hp]
  | cons item rest ih =>
    simp only [List.foldl_cons, List.map_cons, List.sum_cons]
    rw [ih _ (fun it hit => hm it (List.mem_cons_of_mem _ hit)),
      addItem_profit_own cr products hsku st item (hm item (List.mem_cons_self _ _)),
      jsAdd_assoc_some]

theorem foldl_addSale_profit (cr : PurchaseData → Product → ℚ) (products : List Product)
    (hsku : (products.map (·.sku)).Nodup) (records : List PurchaseRecord) (st : SellerStat)
    (hm : ∀ r ∈ records, ∀ item ∈ r.items, item.sku ∈ products.map (·.sku)) :
    (records.foldl (fun st r => addSale cr (productIndex products) r st) st).profit =
      jsAdd st.profit
        (some ((records.map fun r => (r.items.map (lineItemProfit cr products)).sum).sum)) := by
  induction records generalizing st with
  | nil => cases hp : st.profit <;> simp [jsAdd, hp]
  | cons record rest ih =>
    simp only [List.foldl_cons, List.map_cons, List.sum_cons]
    rw [ih _ (fun r hr => hm r (List.mem_cons_of_mem _ hr))]
    have h1 : (addSale cr (productIndex products) record st).profit =
        jsAdd st.profit (some ((record.items.map (lineItemProfit cr products)).sum)) := by
      unfold addSale
      rw [foldl_addItem_profit cr products hsku record.items _
        (hm record (List.mem_cons_self _ _))]
    rw [h1, jsAdd_assoc_some]

/-- With pairwise distinct seller ids, the records added to the stat of seller
`j` are those that carry its id. -/
theorem filter_own_eq (sellers : List Seller) (hid : (sellers.map (·.id)).Nodup)
    (records : List PurchaseRecord) (j : ℕ) (seller : Seller) (hj : sellers[j]? = some seller) :
    (records.filter fun r =>
      getProperty (sellerIndex (sellerStats sellers)) r.seller_id = .own j) =
    records.filter fun r => r.seller_id = seller.id := by
  apply List.filter_congr
  intro r _
  have := sellerIndex_own_iff sellers hid r.seller_id j
  rw [hj] at this
  simp only [Option.map_some', Option.some.injEq] at this
  by_cases h : r.seller_id = seller.id
  · rw [decide_eq_true (this.mpr h.symm), decide_eq_true h]
  · have h' : ¬ getProperty (sellerIndex (sellerStats sellers)) r.seller_id = .own j :=
      fun hg => h (this.mp hg).symm
    rw [decide_eq_false h', decide_eq_false h]

/-! ## When the call returns -/

theorem addItem_of_absent (cr : PurchaseData → Product → ℚ) (products : List (String × Product))
    (seller : SellerStat) (item : LineItem) (h : getProperty products item.sku = .absent) :
    addItem cr products seller item = seller := by
  simp [addItem, h]

theorem addItemsInherited_ok_iff (products : List (String × Product)) (items : List LineItem) :
    addItemsInherited products items = .ok () ↔
      ∀ item ∈ items, getProperty products item.sku = .absent := by
  induction items with
  | nil => simp [addItemsInherited]
  | cons item rest ih =>
    simp only [addItemsInherited, List.mem_cons, forall_eq_or_imp]
    cases h : getProperty products item.sku with
    | absent => simpa using ih
    | own p => simp
    | inherited => simp

theorem addItemsInherited_cases (products : List (String × Product)) (items : List LineItem) :
    addItemsInherited products items = .ok () ∨
      addItemsInherited products items = .error .typeError := by
  induction items with
  | nil => left; rfl
  | cons item rest ih =>
    simp only [addItemsInherited]
    cases h : getProperty products item.sku with
    | absent => simpa using ih
    | own p => right; rfl
    | inherited => right; rfl

theorem processRecord_returns_iff (cr : PurchaseData → Product → ℚ)
    (sellers : List (String × ℕ)) (products : List (String × Product))
    (stats : List SellerStat) (record : PurchaseRecord) :
    (∃ stats', processRecord cr sellers products stats record = .ok stats') ↔
      ¬ recordThrows sellers products record := by
  unfold processRecord recordThrows
  cases h : getProperty sellers record.seller_id with
  | absent => simp
  | own j => simp
  | inherited =>
    simp only [true_and, not_exists, not_and, not_not]
    rcases addItemsInherited_cases products record.items with hok | herr
    · rw [hok]
      have := (addItemsInherited_ok_iff products record.items).mp hok
      simpa using this
    · rw [herr]
      have hno : ¬ ∀ item ∈ record.items, getProperty products item.sku = .absent := by
        intro hall
        rw [(addItemsInherited_ok_iff products record.items).mpr hall] at herr
        cases herr
      simpa using hno

theorem accumulate_returns_iff (cr : PurchaseData → Product → ℚ)
    (sellers : List (String × ℕ)) (products : List (String × Product))
    (records : List PurchaseRecord) (stats : List SellerStat) :
    (∃ stats', accumulate cr sellers products stats records = .ok stats') ↔
      ∀ record ∈ records, ¬ recordThrows sellers products record := by
  induction records generalizing stats with
  | nil => simp [accumulate]
  | cons record rest ih =>
    simp only [accumulate, List.mem_cons, forall_eq_or_imp]
    rw [← processRecord_returns_iff cr sellers products stats record]
    cases hp : processRecord cr sellers products stats record with
    | error e => simp
    | ok stats1 => simpa using ih stats1

/-- The inputs on which `analyzeSalesData` returns: the three lists are there
and not empty, both strategies are supplied, and no purchase record throws. -/
theorem analyzeSalesData_returns_iff (localeCompare : String → String → ℤ)
    (data : Option Data) (options : Option Options) :
    (∃ result, analyzeSalesData localeCompare data options = .ok result) ↔
      ∃ sellers products purchase_records calculateRevenue calculateBonus,
        data = some { sellers := some sellers, products := some products,
                      purchase_records := some purchase_records } ∧
        options = some { calculateRevenue := some calculateRevenue,
                         calculateBonus := some calculateBonus } ∧
        sellers ≠ [] ∧ products ≠ [] ∧ purchase_records ≠ [] ∧
        ∀ record ∈ purchase_records,
          ¬ recordThrows (sellerIndex (sellerStats sellers)) (productIndex products) record := by
  constructor
  · rintro ⟨result, h⟩
    cases data with
    | none => simp [analyzeSalesData] at h
    | some data =>
      obtain ⟨sellers, products, records⟩ := data
      cases sellers with
      | none => simp [analyzeSalesData] at h
      | some sellers =>
      cases products with
      | none => simp [analyzeSalesData] at h
      | some products =>
      cases records with
      | none => simp [analyzeSalesData] at h
      | some records =>
      cases options with
      | none =>
        simp only [analyzeSalesData] at h
        split at h <;> simp at h
      | some options =>
        obtain ⟨cr, cb⟩ := options
        cases cr with
        | none =>
          simp only [analyzeSalesData] at h
          split at h <;> simp at h
        | some cr =>
        cases cb with
        | none =>
          simp only [analyzeSalesData] at h
          split at h <;> simp at h
        | some cb =>
          obtain ⟨hs, hp, hr, hv⟩ := analyzeSalesData_eq_analyzeValid _ _ _ _ _ _ _ h
          obtain ⟨stats, hacc, _⟩ := analyzeValid_ok _ _ _ _ _ _ _ hv
          exact ⟨sellers, products, records, cr, cb, rfl, rfl, hs, hp, hr,
            (accumulate_returns_iff cr _ _ records _).mp ⟨stats, hacc⟩⟩
  · rintro ⟨sellers, products, records, cr, cb, hd, ho, hs, hp, hr, hno⟩
    subst hd; subst ho
    obtain ⟨stats, hacc⟩ := (accumulate_returns_iff cr _ _ records (sellerStats sellers)).mpr hno
    have hne : ¬ (sellers.length = 0 ∨ products.length = 0 ∨ records.length = 0) := by
      simp only [not_or, List.length_eq_zero]
      exact ⟨hs, hp, hr⟩
    have hacc' : accumulatedStats cr sellers products records = .ok stats := hacc
    refine ⟨resultsFrom cb (productIndex products) (rankedStats localeCompare stats).length 0
      (rankedStats localeCompare stats), ?_⟩
    simp only [analyzeSalesData, if_neg hne, analyzeValid, hacc']

/-! ## The ranking -/

theorem toFixed2_mono {x y : ℚ} (h : x ≤ y) : toFixed2 x ≤ toFixed2 y := by
  unfold toFixed2
  by_cases hx : 0 ≤ x
  · have hy : 0 ≤ y := le_trans hx h
    rw [if_pos hx, if_pos hy]
    have hf : ⌊x * 100 + 1 / 2⌋ ≤ ⌊y * 100 + 1 / 2⌋ := Int.floor_mono (by linarith)
    have hq : (⌊x * 100 + 1 / 2⌋ : ℚ) ≤ (⌊y * 100 + 1 / 2⌋ : ℚ) := by exact_mod_cast hf
    exact div_le_div_of_nonneg_right hq (by norm_num)
  · rw [if_neg hx]
    have hx' : x < 0 := not_le.mp hx
    by_cases hy : 0 ≤ y
    · rw [if_pos hy]
      have h1 : (0 : ℤ) ≤ ⌊-x * 100 + 1 / 2⌋ := Int.floor_nonneg.mpr (by linarith)
      have h2 : (0 : ℤ) ≤ ⌊y * 100 + 1 / 2⌋ := Int.floor_nonneg.mpr (by linarith)
      have h1q : (0 : ℚ) ≤ (⌊-x * 100 + 1 / 2⌋ : ℚ) := by exact_mod_cast h1
      have h2q : (0 : ℚ) ≤ (⌊y * 100 + 1 / 2⌋ : ℚ) := by exact_mod_cast h2
      have a1 : (0 : ℚ) ≤ (⌊-x * 100 + 1 / 2⌋ : ℚ) / 100 := div_nonneg h1q (by norm_num)
      have a2 : (0 : ℚ) ≤ (⌊y * 100 + 1 / 2⌋ : ℚ) / 100 := div_nonneg h2q (by norm_num)
      linarith
    · rw [if_neg hy]
      have hf : ⌊-y * 100 + 1 / 2⌋ ≤ ⌊-x * 100 + 1 / 2⌋ := Int.floor_mono (by linarith)
      have hq : (⌊-y * 100 + 1 / 2⌋ : ℚ) ≤ (⌊-x * 100 + 1 / 2⌋ : ℚ) := by exact_mod_cast hf
      have := div_le_div_of_nonneg_right hq (by norm_num : (0 : ℚ) ≤ 100)
      linarith

theorem compareSellers_le_iff (lc : String → String → ℤ) (a b : SellerStat)
    (ha : a.profit ≠ none) (hb : b.profit ≠ none) :
    (compareSellers lc a b).getD 0 ≤ 0 ↔ rankedBefore lc a b := by
  obtain ⟨p, hp⟩ := Option.ne_none_iff_exists'.mp ha
  obtain ⟨q, hq⟩ := Option.ne_none_iff_exists'.mp hb
  unfold compareSellers rankedBefore
  rw [hp, hq]
  simp only [strictNotEqual, jsSub, Option.getD_some]
  by_cases h1 : q = p
  · subst h1
    simp only [ne_eq, not_true_eq_false, decide_False, Bool.false_eq_true, if_false,
      lt_self_iff_false, true_and, false_or]
    by_cases h2 : b.revenue = a.revenue
    · simp only [h2, not_true_eq_false, if_false, lt_self_iff_false, true_and, false_or]
      by_cases h3 : b.sales_count = a.sales_count
      · simp only [h3, not_true_eq_false, if_false, lt_self_iff_false, true_and, false_or,
          Option.getD_some]
        exact_mod_cast Iff.rfl
      · simp only [h3, not_false_eq_true, if_true, Option.getD_some, Ne.symm h3, false_and,
          or_false, sub_nonpos, Nat.cast_le]
        omega
    · simp only [h2, not_false_eq_true, if_true, Option.getD_some, sub_nonpos, Ne.symm h2,
        false_and, or_false]
      exact ⟨fun h => lt_of_le_of_ne h h2, le_of_lt⟩
  · simp only [ne_eq, h1, not_false_eq_true, decide_True, if_true, Option.getD_some, sub_nonpos,
      Ne.symm h1, false_and, or_false]
    exact ⟨fun h => lt_of_le_of_ne h h1, le_of_lt⟩

theorem rankedBefore_total (lc : String → String → ℤ)
    (htotal : ∀ a b, lc a b ≤ 0 ∨ lc b a ≤ 0) (a b : SellerStat) :
    rankedBefore lc a b ∨ rankedBefore lc b a := by
  unfold rankedBefore
  rcases lt_trichotomy (a.profit.getD 0) (b.profit.getD 0) with h | h | h
  · right; left; exact h
  · rcases lt_trichotomy a.revenue b.revenue with h2 | h2 | h2
    · right; right; exact ⟨h.symm, Or.inl h2⟩
    · rcases lt_trichotomy a.sales_count b.sales_count with h3 | h3 | h3
      · right; right; exact ⟨h.symm, Or.inr ⟨h2.symm, Or.inl h3⟩⟩
      · rcases htotal a.name b.name with h4 | h4
        · left; right; exact ⟨h, Or.inr ⟨h2, Or.inr ⟨h3, h4⟩⟩⟩
        · right; right; exact ⟨h.symm, Or.inr ⟨h2.symm, Or.inr ⟨h3.symm, h4⟩⟩⟩
      · left; right; exact ⟨h, Or.inr ⟨h2, Or.inl h3⟩⟩
    · left; right; exact ⟨h, Or.inl h2⟩
  · left; left; exact h

theorem rankedBefore_trans (lc : String → String → ℤ)
    (htrans : ∀ a b c, lc a b ≤ 0 → lc b c ≤ 0 → lc a c ≤ 0) (a b c : SellerStat)
    (hab : rankedBefore lc a b) (hbc : rankedBefore lc b c) : rankedBefore lc a c := by
  unfold rankedBefore at *
  rcases hab with h | ⟨h, hab⟩
  · rcases hbc with k | ⟨k, _⟩
    · left; exact lt_trans k h
    · left; rw [← k]; exact h
  · rcases hbc with k | ⟨k, hbc⟩
    · left; rw [h]; exact k
    · right
      refine ⟨h.trans k, ?_⟩
      rcases hab with h2 | ⟨h2, hab⟩
      · rcases hbc with k2 | ⟨k2, _⟩
        · left; exact lt_trans k2 h2
        · left; rw [← k2]; exact h2
      · rcases hbc with k2 | ⟨k2, hbc⟩
        · left; rw [h2]; exact k2
        · right
          refine ⟨h2.trans k2, ?_⟩
          rcases hab with h3 | ⟨h3, hab⟩
          · rcases hbc with k3 | ⟨k3, _⟩
            · left; exact lt_trans k3 h3
            · left; rw [← k3]; exact h3
          · rcases hbc with k3 | ⟨k3, hbc⟩
            · left; rw [h3]; exact k3
            · right; exact ⟨h3.trans k3, htrans _ _ _ hab hbc⟩

theorem rankedStats_pairwise (lc : String → String → ℤ)
    (htotal : ∀ a b, lc a b ≤ 0 ∨ lc b a ≤ 0)
    (htrans : ∀ a b c, lc a b ≤ 0 → lc b c ≤ 0 → lc a c ≤ 0)
    (stats : List SellerStat) (hnum : ∀ st ∈ stats, st.profit ≠ none) :
    (rankedStats lc stats).Pairwise (rankedBefore lc) := by
  haveI : IsTotal SellerStat (rankedBefore lc) := ⟨rankedBefore_total lc htotal⟩
  haveI : IsTrans SellerStat (rankedBefore lc) := ⟨rankedBefore_trans lc htrans⟩
  have hmap := List.map_insertionSort (r := fun a b => (compareSellers lc a b).getD 0 ≤ 0)
    (s := rankedBefore lc) (fun st : SellerStat => st) stats
    (fun a ha b hb => compareSellers_le_iff lc a b (hnum a ha) (hnum b hb))
  simp only [List.map_id'] at hmap
  unfold rankedStats arraySort
  rw [hmap]
  exact List.sorted_insertionSort (rankedBefore lc) stats

theorem statsInOrder_of_rankedBefore (lc : String → String → ℤ) (a b : SellerStat)
    (ha : a.profit ≠ none) (hb : b.profit ≠ none) (h : rankedBefore lc a b) :
    statsInOrder lc a b := by
  obtain ⟨p, hp⟩ := Option.ne_none_iff_exists'.mp ha
  obtain ⟨q, hq⟩ := Option.ne_none_iff_exists'.mp hb
  unfold rankedBefore at h
  rw [hp, hq] at h
  exact ⟨p, q, hp, hq, h⟩

theorem pairwise_resultsFrom (cb : ℤ → ℤ → SellerStat → JSNumber)
    (products : List (String × Product)) (total : ℕ) (R : SellerStat → SellerStat → Prop)
    (R' : SellerResult → SellerResult → Prop)
    (hR : ∀ a b i k, R a b →
      R' (resultRecord cb products total i a) (resultRecord cb products total k b))
    (index : ℕ) (l : List SellerStat) (h : l.Pairwise R) :
    (resultsFrom cb products total index l).Pairwise R' := by
  induction l generalizing index with
  | nil => simp [resultsFrom]
  | cons st rest ih =>
    rw [List.pairwise_cons] at h
    simp only [resultsFrom, List.pairwise_cons]
    refine ⟨?_, ih (index + 1) h.2⟩
    intro x hx
    obtain ⟨st', hm, i, hi⟩ := mem_resultsFrom cb products total (index + 1) rest x hx
    rw [hi]
    exact hR st st' index i (h.1 st' hm)

/-! ## One entry per seller -/

/-- C1. Whenever `analyzeSalesData` accepts its input and returns, the result
has as many entries as `data.sellers`, and its `seller_id`s are a permutation
of the sellers' ids, whatever the purchase records refer to. -/
theorem analyzeSalesData_entry_per_seller (localeCompare : String → String → ℤ)
    (sellers : List Seller) (products : List Product) (purchase_records : List PurchaseRecord)
    (calculateRevenue : PurchaseData → Product → ℚ)
    (calculateBonus : ℤ → ℤ → SellerStat → JSNumber) (result : List SellerResult)
    (h : analyzeSalesData localeCompare
      (some { sellers := some sellers, products := some products,
              purchase_records := some purchase_records })
      (some { calculateRevenue := some calculateRevenue, calculateBonus := some calculateBonus })
      = .ok result) :
    result.length = sellers.length ∧
    (result.map (·.seller_id)).Perm (sellers.map (·.id)) := by
  obtain ⟨_, _, _, hv⟩ := analyzeSalesData_eq_analyzeValid _ _ _ _ _ _ _ h
  obtain ⟨stats, hacc, hres⟩ := analyzeValid_ok _ _ _ _ _ _ _ hv
  have hid := accumulatedStats_map_id _ _ _ _ _ hacc
  have hperm : (result.map (·.seller_id)).Perm (sellers.map (·.id)) := by
    rw [hres, map_seller_id_resultsFrom, ← hid]
    exact (rankedStats_perm localeCompare stats).map _
  refine ⟨?_, hperm⟩
  simpa using hperm.length_eq

/-- C1 at `sampleData`, whose records name an unknown seller and an unknown SKU. -/
theorem analyzeSalesData_entry_per_seller_witness :
    analyzeSalesData codePointCompare (some sampleData) (some defaultOptions) = .ok sampleResult ∧
    sampleResult.length = sampleSellers.length ∧
    (sampleResult.map (·.seller_id)).Perm (sampleSellers.map (·.id)) :=
  ⟨by decide!,
   analyzeSalesData_entry_per_seller codePointCompare sampleSellers sampleProducts
     sampleRecords calculateSimpleRevenue calculateBonusByProfit sampleResult (by decide!)⟩

theorem compareChars_total (a b : List Char) :
    compareChars a b ≤ 0 ∨ compareChars b a ≤ 0 := by
  induction a generalizing b with
  | nil => cases b <;> simp [compareChars]
  | cons x as ih =>
    cases b with
    | nil => simp [compareChars]
    | cons y bs =>
      simp only [compareChars]
      by_cases h1 : x.toNat < y.toNat
      · simp [h1]
      · by_cases h2 : y.toNat < x.toNat
        · simp [h2]
        · simp only [h1, h2, if_false]
          exact ih bs

theorem compareChars_trans (a b c : List Char) (hab : compareChars a b ≤ 0)
    (hbc : compareChars b c ≤ 0) : compareChars a c ≤ 0 := by
  induction a generalizing b c with
  | nil => cases c <;> simp [compareChars]
  | cons x as ih =>
    cases b with
    | nil => simp [compareChars] at hab
    | cons y bs =>
      cases c with
      | nil => simp [compareChars] at hbc
      | cons z cs =>
        simp only [compareChars] at hab hbc ⊢
        by_cases h1 : x.toNat < y.toNat
        · by_cases k1 : y.toNat < z.toNat
          · have : x.toNat < z.toNat := by omega
            simp [this]
          · by_cases k2 : z.toNat < y.toNat
            · simp [k1, k2] at hbc
            · have : x.toNat < z.toNat := by omega
              simp [this]
        · by_cases h2 : y.toNat < x.toNat
          · simp [h1, h2] at hab
          · simp only [h1, h2, if_false] at hab
            by_cases k1 : y.toNat < z.toNat
            · have : x.toNat < z.toNat := by omega
              simp [this]
            · by_cases k2 : z.toNat < y.toNat
              · simp [k1, k2] at hbc
              · simp only [k1, k2, if_false] at hbc
                have e1 : ¬ x.toNat < z.toNat := by omega
                have e2 : ¬ z.toNat < x.toNat := by omega
                simp only [e1, e2, if_false]
                exact ih bs cs hab hbc

theorem codePointCompare_total (a b : String) :
    codePointCompare a b ≤ 0 ∨ codePointCompare b a ≤ 0 :=
  compareChars_total a.data b.data

theorem codePointCompare_trans (a b c : String) (hab : codePointCompare a b ≤ 0)
    (hbc : codePointCompare b c ≤ 0) : codePointCompare a c ≤ 0 :=
  compareChars_trans a.data b.data c.data hab hbc

/-- C2, as stated, fails: on `roundingData` the two sellers are returned with
the same rounded profit 10, the first with revenue 5 and the second with
revenue 100, so the order of section 4.3 read on the returned records does not
hold between them. -/
theorem returned_order_counterexample :
    ∃ x y, analyzeSalesData codePointCompare (some roundingData) (some defaultOptions) =
        .ok [x, y] ∧
      x.profit = some 10 ∧ y.profit = some 10 ∧ x.revenue = 5 ∧ y.revenue = 100 ∧
      ¬ returnedInOrder codePointCompare x y := by
  refine ⟨roundingResult.get ⟨0, by decide⟩, roundingResult.get ⟨1, by decide⟩, by decide!,
    rfl, rfl, rfl, rfl, ?_⟩
  unfold returnedInOrder
  simp [roundingResult]
  norm_num

/-- C2, amended. Whenever `analyzeSalesData` accepts its input and returns,
every returned profit is a number and `localeCompare` is a total preorder, the
records are returned in the order of section 4.3 read on the accumulated stats
before rounding: the result is made, position by position, of a permutation
`ranked` of the accumulated stats in which any stat `a` placed before a stat
`b` has the larger profit, or the same profit and the larger revenue, or the
same profit and revenue and the larger sales count, or the same three and a
name that does not compare after that of `b`.  On the returned records
themselves this leaves a profit that does not increase. -/
theorem ranked_in_order_of_accumulated_stats (localeCompare : String → String → ℤ)
    (sellers : List Seller) (products : List Product) (purchase_records : List PurchaseRecord)
    (calculateRevenue : PurchaseData → Product → ℚ)
    (calculateBonus : ℤ → ℤ → SellerStat → JSNumber) (result : List SellerResult)
    (h : analyzeSalesData localeCompare
      (some { sellers := some sellers, products := some products,
              purchase_records := some purchase_records })
      (some { calculateRevenue := some calculateRevenue, calculateBonus := some calculateBonus })
      = .ok result)
    (htotal : ∀ a b, localeCompare a b ≤ 0 ∨ localeCompare b a ≤ 0)
    (htrans : ∀ a b c, localeCompare a b ≤ 0 → localeCompare b c ≤ 0 → localeCompare a c ≤ 0)
    (hnum : ∀ x ∈ result, x.profit ≠ none) :
    ∃ stats ranked,
      accumulatedStats calculateRevenue sellers products purchase_records = .ok stats ∧
      ranked.Perm stats ∧
      result = resultsFrom calculateBonus (productIndex products) ranked.length 0 ranked ∧
      ranked.Pairwise (statsInOrder localeCompare) ∧
      result.Pairwise (fun x y => ∃ p q, x.profit = some p ∧ y.profit = some q ∧ q ≤ p) := by
  obtain ⟨_, _, _, hv⟩ := analyzeSalesData_eq_analyzeValid _ _ _ _ _ _ _ h
  obtain ⟨stats, hacc, hres⟩ := analyzeValid_ok _ _ _ _ _ _ _ hv
  have hnum' : ∀ st ∈ stats, st.profit ≠ none := by
    intro st hst hnone
    have hst' := (rankedStats_perm localeCompare stats).mem_iff.mpr hst
    obtain ⟨x, hx, i, hi⟩ := exists_resultsFrom calculateBonus (productIndex products)
      (rankedStats localeCompare stats).length 0 _ st hst'
    rw [← hres] at hx
    apply hnum x hx
    rw [hi]
    show jsToFixed2 st.profit = none
    rw [hnone]; rfl
  have hnumr : ∀ st ∈ rankedStats localeCompare stats, st.profit ≠ none :=
    fun st hst => hnum' st ((rankedStats_perm localeCompare stats).mem_iff.mp hst)
  have hpw := rankedStats_pairwise localeCompare htotal htrans stats hnum'
  have hord : (rankedStats localeCompare stats).Pairwise (statsInOrder localeCompare) :=
    hpw.imp_of_mem fun {a b} ha hb hab =>
      statsInOrder_of_rankedBefore localeCompare a b (hnumr a ha) (hnumr b hb) hab
  refine ⟨stats, rankedStats localeCompare stats, hacc, rankedStats_perm _ _, hres, hord, ?_⟩
  rw [hres]
  apply pairwise_resultsFrom calculateBonus (productIndex products) _
    (statsInOrder localeCompare) _ _ 0 _ hord
  rintro a b i k ⟨p, q, hp, hq, hpq⟩
  refine ⟨toFixed2 p, toFixed2 q, ?_, ?_, ?_⟩
  · show jsToFixed2 a.profit = _
    rw [hp]; rfl
  · show jsToFixed2 b.profit = _
    rw [hq]; rfl
  · apply toFixed2_mono
    rcases hpq with hlt | ⟨heq, _⟩
    · exact le_of_lt hlt
    · exact le_of_eq heq.symm

/-- C2, amended, at `roundingData`: the stat of profit 10.004 is ranked before
the stat of profit 10.001. -/
theorem ranked_in_order_of_accumulated_stats_witness :
    analyzeSalesData codePointCompare (some roundingData) (some defaultOptions) =
      .ok roundingResult ∧
    (∀ x ∈ roundingResult, x.profit ≠ none) ∧
    ∃ stats ranked,
      accumulatedStats calculateSimpleRevenue roundingSellers roundingProducts
        roundingRecords = .ok stats ∧
      ranked.Perm stats ∧
      roundingResult = resultsFrom calculateBonusByProfit (productIndex roundingProducts)
        ranked.length 0 ranked ∧
      ranked.Pairwise (statsInOrder codePointCompare) ∧
      roundingResult.Pairwise
        (fun x y => ∃ p q, x.profit = some p ∧ y.profit = some q ∧ q ≤ p) :=
  ⟨by decide!, by decide,
   ranked_in_order_of_accumulated_stats codePointCompare roundingSellers roundingProducts
     roundingRecords calculateSimpleRevenue calculateBonusByProfit roundingResult (by decide!)
     codePointCompare_total codePointCompare_trans (by decide)⟩

/-! ## Unknown references -/

theorem accumulate_remove (cr : PurchaseData → Product → ℚ) (sellers : List (String × ℕ))
    (products : List (String × Product)) (pre post : List PurchaseRecord) (R : PurchaseRecord)
    (hR : ownProperty sellers R.seller_id = none) (stats stats' : List SellerStat)
    (h : accumulate cr sellers products stats (pre ++ R :: post) = .ok stats') :
    accumulate cr sellers products stats (pre ++ post) = .ok stats' := by
  induction pre generalizing stats with
  | nil =>
    simp only [List.nil_append, accumulate] at h ⊢
    cases hp : processRecord cr sellers products stats R with
    | error e => rw [hp] at h; simp at h
    | ok stats1 =>
      rw [hp] at h
      have h1 := processRecord_ok cr sellers products stats stats1 R hp
      have hne : ∀ j, getProperty sellers R.seller_id ≠ .own j := fun j hj =>
        by rw [getProperty_own_iff, hR] at hj; simp at hj
      cases hl : getProperty sellers R.seller_id with
      | own j => exact absurd hl (hne j)
      | absent => rw [hl] at h1; simp only at h1; rw [← h1]; exact h
      | inherited => rw [hl] at h1; simp only at h1; rw [← h1]; exact h
  | cons record rest ih =>
    simp only [List.cons_append, accumulate] at h ⊢
    cases hp : processRecord cr sellers products stats record with
    | error e => rw [hp] at h; simp at h
    | ok stats1 => rw [hp] at h; exact ih stats1 h

/-- A purchase record whose seller id matches no seller leaves no trace in the
result: when `analyzeSalesData` returns for an input that holds such a record
and another one, it returns the same for the input without the record. -/
theorem unknown_seller_record_ignored (localeCompare : String → String → ℤ)
    (sellers : List Seller) (products : List Product) (pre post : List PurchaseRecord)
    (R : PurchaseRecord)
    (calculateRevenue : PurchaseData → Product → ℚ)
    (calculateBonus : ℤ → ℤ → SellerStat → JSNumber) (result : List SellerResult)
    (h : analyzeSalesData localeCompare
      (some { sellers := some sellers, products := some products,
              purchase_records := some (pre ++ R :: post) })
      (some { calculateRevenue := some calculateRevenue, calculateBonus := some calculateBonus })
      = .ok result)
    (hR : R.seller_id ∉ sellers.map (·.id)) (hother : pre ++ post ≠ []) :
    analyzeSalesData localeCompare
      (some { sellers := some sellers, products := some products,
              purchase_records := some (pre ++ post) })
      (some { calculateRevenue := some calculateRevenue, calculateBonus := some calculateBonus })
      = .ok result := by
  obtain ⟨hs, hp, _, hv⟩ := analyzeSalesData_eq_analyzeValid _ _ _ _ _ _ _ h
  obtain ⟨stats, hacc, hres⟩ := analyzeValid_ok _ _ _ _ _ _ _ hv
  have hown : ownProperty (sellerIndex (sellerStats sellers)) R.seller_id = none := by
    rw [ownProperty_eq_none, sellerIndex, map_fst_sellerEntries]
    simpa [sellerStats, Function.comp_def, seedStat] using hR
  have hacc' : accumulatedStats calculateRevenue sellers products (pre ++ post) = .ok stats :=
    accumulate_remove _ _ _ pre post R hown _ _ hacc
  have hv' : analyzeValid localeCompare calculateRevenue calculateBonus sellers products
      (pre ++ post) = .ok result := by
    unfold analyzeValid
    rw [hacc', hres]
  simp only [analyzeSalesData]
  rw [if_neg]
  · exact hv'
  · simp only [not_or, List.length_eq_zero]
    exact ⟨hs, hp, hother⟩

theorem getProperty_absent_iff {α : Type} (entries : List (String × α)) (key : String) :
    getProperty entries key = .absent ↔
      key ∉ entries.map Prod.fst ∧ key ∉ objectPrototypeKeys := by
  unfold getProperty
  cases h : ownProperty entries key with
  | some v =>
    have hm : ¬ key ∉ entries.map Prod.fst := fun hn => by
      rw [(ownProperty_eq_none entries key).mpr hn] at h; cases h
    constructor
    · intro h0; cases h0
    · rintro ⟨hn, _⟩; exact absurd hn hm
  | none =>
    have hn := (ownProperty_eq_none entries key).mp h
    by_cases hk : key ∈ objectPrototypeKeys
    · rw [if_pos hk]
      constructor
      · intro h0; cases h0
      · rintro ⟨_, hk'⟩; exact absurd hk hk'
    · rw [if_neg hk]
      exact ⟨fun _ => ⟨hn, hk⟩, fun _ => rfl⟩

theorem foldl_addItem_remove (cr : PurchaseData → Product → ℚ)
    (products : List (String × Product)) (before after : List LineItem) (item : LineItem)
    (h : getProperty products item.sku = .absent) (seller : SellerStat) :
    (before ++ item :: after).foldl (addItem cr products) seller =
      (before ++ after).foldl (addItem cr products) seller := by
  simp only [List.foldl_append, List.foldl_cons, addItem_of_absent cr products _ item h]

theorem addItemsInherited_remove (products : List (String × Product))
    (before after : List LineItem) (item : LineItem)
    (h : getProperty products item.sku = .absent) :
    addItemsInherited products (before ++ item :: after) =
      addItemsInherited products (before ++ after) := by
  induction before with
  | nil => simp [addItemsInherited, h]
  | cons first rest ih =>
    simp only [List.cons_append, addItemsInherited]
    cases getProperty products first.sku with
    | absent => exact ih
    | own p => rfl
    | inherited => rfl

theorem accumulate_congr (cr : PurchaseData → Product → ℚ) (sellers : List (String × ℕ))
    (products : List (String × Product)) (pre post : List PurchaseRecord)
    (R R' : PurchaseRecord)
    (hR : ∀ stats, processRecord cr sellers products stats R =
      processRecord cr sellers products stats R') (stats : List SellerStat) :
    accumulate cr sellers products stats (pre ++ R :: post) =
      accumulate cr sellers products stats (pre ++ R' :: post) := by
  induction pre generalizing stats with
  | nil => simp only [List.nil_append, accumulate, hR]
  | cons record rest ih =>
    simp only [List.cons_append, accumulate]
    cases processRecord cr sellers products stats record with
    | error e => rfl
    | ok stats1 => exact ih stats1

/-- A line item whose SKU is neither a product's nor a property name of
`Object.prototype` is skipped and nothing else is: with the item deleted from
its record the outcome of `analyzeSalesData` is the same. -/
theorem absent_sku_item_ignored (localeCompare : String → String → ℤ)
    (sellers : List Seller) (products : List Product) (pre post : List PurchaseRecord)
    (R : PurchaseRecord) (before after : List LineItem) (item : LineItem)
    (options : Option Options)
    (hitems : R.items = before ++ item :: after)
    (hsku : item.sku ∉ products.map (·.sku)) (hproto : item.sku ∉ objectPrototypeKeys) :
    analyzeSalesData localeCompare
      (some { sellers := some sellers, products := some products,
              purchase_records := some (pre ++ R :: post) }) options =
    analyzeSalesData localeCompare
      (some { sellers := some sellers, products := some products,
              purchase_records := some (pre ++ { R with items := before ++ after } :: post) })
      options := by
  have habs : getProperty (productIndex products) item.sku = .absent := by
    rw [getProperty_absent_iff, map_fst_productIndex]
    exact ⟨hsku, hproto⟩
  have hrec : ∀ (cr : PurchaseData → Product → ℚ) (stats : List SellerStat),
      processRecord cr (sellerIndex (sellerStats sellers)) (productIndex products) stats R =
      processRecord cr (sellerIndex (sellerStats sellers)) (productIndex products) stats
        { R with items := before ++ after } := by
    intro cr stats
    have hsale : addSale cr (productIndex products) R =
        addSale cr (productIndex products) { R with items := before ++ after } := by
      funext st
      simp only [addSale, hitems, foldl_addItem_remove cr _ before after item habs]
    simp only [processRecord, hsale, hitems, addItemsInherited_remove _ before after item habs]
  have hlen : (pre ++ R :: post).length = 0 ↔
      (pre ++ { R with items := before ++ after } :: post).length = 0 := by simp
  simp only [analyzeSalesData, hlen]
  split
  · rfl
  · cases options with
    | none => rfl
    | some options =>
      obtain ⟨cr, cb⟩ := options
      cases cr with
      | none => rfl
      | some cr =>
        cases cb with
        | none => rfl
        | some cb =>
          simp only [analyzeValid, accumulatedStats]
          rw [accumulate_congr cr _ _ pre post R { R with items := before ++ after }
            (hrec cr)]

theorem accumulate_remove_absent (cr : PurchaseData → Product → ℚ)
    (sellers : List (String × ℕ)) (products : List (String × Product))
    (pre post : List PurchaseRecord) (R : PurchaseRecord)
    (habs : getProperty sellers R.seller_id = .absent) (stats : List SellerStat) :
    accumulate cr sellers products stats (pre ++ R :: post) =
      accumulate cr sellers products stats (pre ++ post) := by
  induction pre generalizing stats with
  | nil => simp only [List.nil_append, accumulate, processRecord, habs]
  | cons record rest ih =>
    simp only [List.cons_append, accumulate]
    cases processRecord cr sellers products stats record with
    | error e => rfl
    | ok stats1 => exact ih stats1

/-- A purchase record whose seller id is neither a seller's nor a property name
of `Object.prototype` is skipped: when another record is left, the outcome of
`analyzeSalesData` without the record is the same. -/
theorem absent_seller_record_ignored (localeCompare : String → String → ℤ)
    (sellers : List Seller) (products : List Product) (pre post : List PurchaseRecord)
    (R : PurchaseRecord) (options : Option Options)
    (hid : R.seller_id ∉ sellers.map (·.id)) (hproto : R.seller_id ∉ objectPrototypeKeys)
    (hother : pre ++ post ≠ []) :
    analyzeSalesData localeCompare
      (some { sellers := some sellers, products := some products,
              purchase_records := some (pre ++ R :: post) }) options =
    analyzeSalesData localeCompare
      (some { sellers := some sellers, products := some products,
              purchase_records := some (pre ++ post) }) options := by
  have habs : getProperty (sellerIndex (sellerStats sellers)) R.seller_id = .absent := by
    rw [getProperty_absent_iff, sellerIndex, map_fst_sellerEntries]
    refine ⟨?_, hproto⟩
    simpa [sellerStats, Function.comp_def, seedStat] using hid
  have hlen : (pre ++ R :: post).length = 0 ↔ (pre ++ post).length = 0 := by
    constructor
    · intro h; simp at h
    · intro h; exact absurd (List.length_eq_zero.mp h) hother
  simp only [analyzeSalesData, hlen]
  split
  · rfl
  · cases options with
    | none => rfl
    | some options =>
      obtain ⟨cr, cb⟩ := options
      cases cr with
      | none => rfl
      | some cr =>
        cases cb with
        | none => rfl
        | some cb =>
          simp only [analyzeValid, accumulatedStats]
          rw [accumulate_remove_absent cr _ _ pre post R habs]

/-- C5: a failing input. `loneData [constructorRecord]` has non-empty sellers,
products and purchase records, and both strategies are supplied, whichever they
are; the one record names the seller `constructor`, which is no seller, and
`analyzeSalesData` throws a `TypeError`. -/
theorem inherited_seller_key_throws (localeCompare : String → String → ℤ)
    (calculateRevenue : PurchaseData → Product → ℚ)
    (calculateBonus : ℤ → ℤ → SellerStat → JSNumber) :
    loneSeller ≠ [] ∧ loneProduct ≠ [] ∧ [constructorRecord] ≠ [] ∧
    constructorRecord.seller_id ∉ loneSeller.map (·.id) ∧
    analyzeSalesData localeCompare (some (loneData [constructorRecord]))
      (some { calculateRevenue := some calculateRevenue, calculateBonus := some calculateBonus })
      = .error .typeError := by
  refine ⟨by decide, by decide, by decide, by decide, ?_⟩
  have hs : getProperty (sellerIndex (sellerStats loneSeller)) constructorRecord.seller_id =
      .inherited := by decide
  have hi : addItemsInherited (productIndex loneProduct) constructorRecord.items =
      .error .typeError := by decide
  have hacc : accumulatedStats calculateRevenue loneSeller loneProduct [constructorRecord] =
      .error .typeError := by
    simp only [accumulatedStats, accumulate, processRecord, hs, hi]
  have hne : ¬ (loneSeller.length = 0 ∨ loneProduct.length = 0 ∨
      [constructorRecord].length = 0) := by decide
  simp only [analyzeSalesData, loneData, if_neg hne, analyzeValid, hacc]

/-- C6: a failing input. In `loneData [constructorRecord, plainRecord]` the
record `constructorRecord` matches no seller and there is another record; with
the record `analyzeSalesData` throws a `TypeError`, without it the call returns
the entry of the seller. -/
theorem unknown_seller_record_throws :
    constructorRecord.seller_id ∉ loneSeller.map (·.id) ∧
    analyzeSalesData codePointCompare (some (loneData [constructorRecord, plainRecord]))
      (some defaultOptions) = .error .typeError ∧
    analyzeSalesData codePointCompare (some (loneData [plainRecord]))
      (some defaultOptions) = .ok plainResult := by
  refine ⟨by decide, by decide!, by decide!⟩

/-- C7: a failing input. In `loneData [mixedRecord]` the line item
`constructorItem` has a SKU that is in no product; with the item the seller is
returned with profit and bonus `NaN` and the item among the top products,
without it (`plainRecord`) with profit 30 and bonus 4.5. -/
theorem unknown_sku_item_not_skipped :
    constructorItem.sku ∉ loneProduct.map (·.sku) ∧
    mixedRecord.items = plainRecord.items ++ [constructorItem] ∧
    analyzeSalesData codePointCompare (some (loneData [mixedRecord]))
      (some defaultOptions) = .ok mixedResult ∧
    analyzeSalesData codePointCompare (some (loneData [plainRecord]))
      (some defaultOptions) = .ok plainResult ∧
    mixedResult ≠ plainResult := by
  refine ⟨by decide, by decide, by decide!, by decide!, by decide⟩

/-! ## The bonus -/

/-- C8, as stated, fails: in the example seller C is returned last, at index 2
of 3, and its bonus is 10% of its profit 100, that is 10 and not 0;
`calculateBonusByProfit(2, 3, seller)` is `seller.profit * 0.10`. -/
theorem example_last_of_three_counterexample :
    ∃ b a c, analyzeSalesData codePointCompare (some exampleData) (some defaultOptions) =
        .ok [b, a, c] ∧
      c.seller_id = "C" ∧ c.profit = some 100 ∧ c.bonus = some 10 ∧ c.bonus ≠ some 0 ∧
      (∀ seller : SellerStat, seller.profit = some 100 →
        calculateBonusByProfit 2 3 seller = some 10) := by
  refine ⟨exampleResult.get ⟨0, by decide⟩, exampleResult.get ⟨1, by decide⟩,
    exampleResult.get ⟨2, by decide⟩, by decide!, rfl, rfl, rfl, by decide, ?_⟩
  intro seller hp
  simp only [calculateBonusByProfit, hp, jsMul, bonusPercentage]
  norm_num

/-- C8, amended. In the example, with the default strategies and whatever the
collation of names, the sellers are returned in the order B, A, C with the
bonuses 150, 100 and 10, which are 15%, 10% and 10% of their profits 1000,
1000 and 100: the last of the three is at index 2, where
`calculateBonusByProfit(2, 3, seller)` is `seller.profit * 0.10`. -/
theorem example_order_and_bonuses (localeCompare : String → String → ℤ) :
    analyzeSalesData localeCompare (some exampleData) (some defaultOptions) =
      .ok exampleResult ∧
    exampleResult.map (fun x => (x.seller_id, x.profit, x.bonus)) =
      [("B", some 1000, some 150), ("A", some 1000, some 100), ("C", some 100, some 10)] ∧
    exampleResult.map (·.bonus) =
      [jsMul (some 1000) (some (15 / 100)), jsMul (some 1000) (some (10 / 100)),
       jsMul (some 100) (some (10 / 100))] ∧
    (∀ seller : SellerStat,
      calculateBonusByProfit 2 3 seller = jsMul seller.profit (some (10 / 100))) := by
  refine ⟨?_, by decide!, by decide!,
    fun seller => by simp [calculateBonusByProfit, bonusPercentage]⟩
  have hacc : accumulatedStats calculateSimpleRevenue exampleSellers exampleProducts
      exampleRecords = .ok exampleStats := by decide!
  have hrank : rankedStats localeCompare exampleStats = exampleRanked := by
    simp [rankedStats, arraySort, exampleStats, exampleRanked, List.insertionSort,
      List.orderedInsert, compareSellers, strictNotEqual, jsSub]
    norm_num
  have hres : resultsFrom calculateBonusByProfit (productIndex exampleProducts)
      exampleRanked.length 0 exampleRanked = exampleResult := by decide!
  have hne : ¬ (exampleSellers.length = 0 ∨ exampleProducts.length = 0 ∨
      exampleRecords.length = 0) := by decide
  simp only [analyzeSalesData, exampleData, defaultOptions, if_neg hne, analyzeValid, hacc,
    hrank, hres]

/-- C9. `calculateBonusByProfit(index, total, seller)` is `seller.profit` times
15% when `index` is 0, times 10% when `index` is 1 or 2, times 0% when `index`
is `total - 1` and none of 0, 1, 2, and times 5% otherwise; a single seller
gets 15% and the last of two sellers gets 10%. -/
theorem calculateBonusByProfit_branches (index total : ℤ) (seller : SellerStat) :
    (index = 0 →
      calculateBonusByProfit index total seller = jsMul seller.profit (some (15 / 100))) ∧
    (index = 1 ∨ index = 2 →
      calculateBonusByProfit index total seller = jsMul seller.profit (some (10 / 100))) ∧
    (index = total - 1 → index ≠ 0 → index ≠ 1 → index ≠ 2 →
      calculateBonusByProfit index total seller = jsMul seller.profit (some 0)) ∧
    (index ≠ 0 → index ≠ 1 → index ≠ 2 → index ≠ total - 1 →
      calculateBonusByProfit index total seller = jsMul seller.profit (some (5 / 100))) ∧
    calculateBonusByProfit 0 1 seller = jsMul seller.profit (some (15 / 100)) ∧
    calculateBonusByProfit 1 2 seller = jsMul seller.profit (some (10 / 100)) := by
  refine ⟨?_, ?_, ?_, ?_, ?_, ?_⟩
  · intro h; simp [calculateBonusByProfit, bonusPercentage, h]
  · intro h
    rcases h with h | h <;> simp [calculateBonusByProfit, bonusPercentage, h]
  · intro h h0 h1 h2
    simp [calculateBonusByProfit, bonusPercentage, h0, h1, h2, ← h]
  · intro h0 h1 h2 h3
    simp [calculateBonusByProfit, bonusPercentage, h0, h1, h2, h3]
  · simp [calculateBonusByProfit, bonusPercentage]
  · simp [calculateBonusByProfit, bonusPercentage]

/-- C9 at the stat of seller C of the example (profit 100): index 3 of 4 is the
last rank and gives 0, index 3 of 5 gives 5%, index 0 of 1 gives 15% and index
1 of 2 gives 10%. -/
theorem calculateBonusByProfit_branches_witness :
    calculateBonusByProfit 3 4 (exampleStats.get ⟨2, by decide⟩) =
      jsMul (some 100) (some 0) ∧
    calculateBonusByProfit 3 5 (exampleStats.get ⟨2, by decide⟩) =
      jsMul (some 100) (some (5 / 100)) ∧
    calculateBonusByProfit 0 1 (exampleStats.get ⟨2, by decide⟩) =
      jsMul (some 100) (some (15 / 100)) ∧
    calculateBonusByProfit 1 2 (exampleStats.get ⟨2, by decide⟩) =
      jsMul (some 100) (some (10 / 100)) :=
  ⟨(calculateBonusByProfit_branches 3 4 (exampleStats.get ⟨2, by decide⟩)).2.2.1
      (by decide) (by decide) (by decide) (by decide),
   (calculateBonusByProfit_branches 3 5 (exampleStats.get ⟨2, by decide⟩)).2.2.2.1
      (by decide) (by decide) (by decide) (by decide),
   (calculateBonusByProfit_branches 0 1 (exampleStats.get ⟨2, by decide⟩)).2.2.2.2.1,
   (calculateBonusByProfit_branches 1 2 (exampleStats.get ⟨2, by decide⟩)).2.2.2.2.2⟩

/-- C10. For `total ≥ 4` the percentage that `calculateBonusByProfit` applies
does not increase with the rank: it is 15% at rank 0, 10% at ranks 1 and 2, 5%
at the ranks 3 to `total - 2` and 0% at rank `total - 1`, so for ranks
`0 ≤ i ≤ j ≤ total - 1` the percentage at `j` is at most that at `i`. -/
theorem bonusPercentage_antitone (total : ℤ) (h : 4 ≤ total) :
    (∀ index (seller : SellerStat), calculateBonusByProfit index total seller =
        jsMul seller.profit (some (bonusPercentage index total))) ∧
    (∀ i j : ℤ, 0 ≤ i → i ≤ j → j ≤ total - 1 →
        bonusPercentage j total ≤ bonusPercentage i total) ∧
    bonusPercentage 0 total = 15 / 100 ∧
    bonusPercentage 1 total = 10 / 100 ∧ bonusPercentage 2 total = 10 / 100 ∧
    (∀ i : ℤ, 3 ≤ i → i ≤ total - 2 → bonusPercentage i total = 5 / 100) ∧
    bonusPercentage (total - 1) total = 0 := by
  have hmid : ∀ i : ℤ, 3 ≤ i → i ≤ total - 2 → bonusPercentage i total = 5 / 100 := by
    intro i h3 hi
    have h0 : i ≠ 0 := by omega
    have h1 : i ≠ 1 := by omega
    have h2 : i ≠ 2 := by omega
    have h4 : i ≠ total - 1 := by omega
    simp [bonusPercentage, h0, h1, h2, h4]
  have hlast : bonusPercentage (total - 1) total = 0 := by
    have h0 : total - 1 ≠ 0 := by omega
    have h1 : total - 1 ≠ 1 := by omega
    have h2 : total - 1 ≠ 2 := by omega
    simp [bonusPercentage, h0, h1, h2]
  have h0 : bonusPercentage 0 total = 15 / 100 := by simp [bonusPercentage]
  have h1 : bonusPercentage 1 total = 10 / 100 := by simp [bonusPercentage]
  have h2 : bonusPercentage 2 total = 10 / 100 := by simp [bonusPercentage]
  refine ⟨fun _ _ => rfl, ?_, h0, h1, h2, hmid, hlast⟩
  intro i j hi hij hj
  have key : ∀ k : ℤ, 0 ≤ k → k ≤ total - 1 →
      (k = 0 ∧ bonusPercentage k total = 15 / 100) ∨
      ((k = 1 ∨ k = 2) ∧ bonusPercentage k total = 10 / 100) ∨
      (3 ≤ k ∧ k ≤ total - 2 ∧ bonusPercentage k total = 5 / 100) ∨
      (k = total - 1 ∧ bonusPercentage k total = 0) := by
    intro k hk0 hk1
    rcases (by omega : k = 0 ∨ k = 1 ∨ k = 2 ∨ (3 ≤ k ∧ k ≤ total - 2) ∨ k = total - 1)
      with e | e | e | e | e
    · left; subst e; exact ⟨rfl, h0⟩
    · right; left; subst e; exact ⟨Or.inl rfl, h1⟩
    · right; left; subst e; exact ⟨Or.inr rfl, h2⟩
    · right; right; left; exact ⟨e.1, e.2, hmid k e.1 e.2⟩
    · right; right; right; subst e; exact ⟨rfl, hlast⟩
  rcases key i hi (by omega) with ⟨ei, pi⟩ | ⟨ei, pi⟩ | ⟨ei, ei', pi⟩ | ⟨ei, pi⟩ <;>
  rcases key j (by omega) hj with ⟨ej, pj⟩ | ⟨ej, pj⟩ | ⟨ej, ej', pj⟩ | ⟨ej, pj⟩ <;>
  rw [pi, pj] <;> first | (exfalso; omega) | norm_num

/-- C10 at five sellers. -/
theorem bonusPercentage_antitone_witness :
    (4 : ℤ) ≤ 5 ∧
    (∀ index (seller : SellerStat), calculateBonusByProfit index 5 seller =
        jsMul seller.profit (some (bonusPercentage index 5))) ∧
    (∀ i j : ℤ, 0 ≤ i → i ≤ j → j ≤ 5 - 1 →
        bonusPercentage j 5 ≤ bonusPercentage i 5) ∧
    bonusPercentage 0 5 = 15 / 100 ∧
    bonusPercentage 1 5 = 10 / 100 ∧ bonusPercentage 2 5 = 10 / 100 ∧
    (∀ i : ℤ, 3 ≤ i → i ≤ 5 - 2 → bonusPercentage i 5 = 5 / 100) ∧
    bonusPercentage (5 - 1) 5 = 0 :=
  ⟨by decide, bonusPercentage_antitone 5 (by decide)⟩

/-! ## The default revenue strategy -/

/-- C11. `calculateSimpleRevenue(purchase, product)` is
`sale_price * quantity * (1 - discount / 100)` for every line item, a value is
returned for every argument, and the product plays no part; on
`{sale_price: 100, quantity: 2, discount: 10}` the value is 180, and a discount
outside `[0, 100]` gives the value of the same formula: -100 for a discount of
150 and 300 for a discount of -50. -/
theorem calculateSimpleRevenue_formula (purchase : PurchaseData) (product : Product) :
    calculateSimpleRevenue purchase product =
      purchase.sale_price * purchase.quantity * (1 - purchase.discount / 100) ∧
    (∀ other : Product,
      calculateSimpleRevenue purchase other = calculateSimpleRevenue purchase product) ∧
    calculateSimpleRevenue { sale_price := 100, quantity := 2, discount := 10 } product = 180 ∧
    calculateSimpleRevenue { sale_price := 100, quantity := 2, discount := 150 } product
      = -100 ∧
    calculateSimpleRevenue { sale_price := 100, quantity := 2, discount := -50 } product
      = 300 := by
  refine ⟨rfl, fun _ => rfl, ?_, ?_, ?_⟩ <;> simp only [calculateSimpleRevenue] <;> norm_num

/-! ## The ranking comparator -/

theorem compareSellers_some (lc : String → String → ℤ) (a b : SellerStat) (p q : ℚ)
    (ha : a.profit = some p) (hb : b.profit = some q) :
    compareSellers lc a b = some
      (if q ≠ p then q - p
       else if b.revenue ≠ a.revenue then b.revenue - a.revenue
       else if b.sales_count ≠ a.sales_count then (b.sales_count : ℚ) - (a.sales_count : ℚ)
       else (lc a.name b.name : ℚ)) := by
  unfold compareSellers
  rw [ha, hb]
  simp only [strictNotEqual, jsSub]
  by_cases h1 : q = p
  · simp only [h1, ne_eq, not_true_eq_false, decide_False, Bool.false_eq_true, if_false]
    by_cases h2 : b.revenue = a.revenue
    · simp only [h2, not_true_eq_false, if_false]
      by_cases h3 : b.sales_count = a.sales_count
      · simp only [h3, not_true_eq_false, if_false]
      · simp only [h3, not_false_eq_true, if_true]
    · simp only [h2, not_false_eq_true, if_true]
  · simp only [ne_eq, h1, not_false_eq_true, decide_True, if_true]

theorem compareSellers_flip (lc : String → String → ℤ)
    (hflip : ∀ x y, lc x y < 0 ↔ 0 < lc y x) (a b : SellerStat)
    (ha : a.profit ≠ none) (hb : b.profit ≠ none) :
    ∃ u v : ℚ, compareSellers lc a b = some u ∧ compareSellers lc b a = some v ∧
      (u < 0 ↔ 0 < v) ∧ (u = 0 ↔ v = 0) ∧ (0 < u ↔ v < 0) ∧
      (u = 0 → a.profit = b.profit ∧ a.revenue = b.revenue ∧
        a.sales_count = b.sales_count ∧ lc a.name b.name = 0) := by
  obtain ⟨p, hp⟩ := Option.ne_none_iff_exists'.mp ha
  obtain ⟨q, hq⟩ := Option.ne_none_iff_exists'.mp hb
  have hab := compareSellers_some lc a b p q hp hq
  have hba := compareSellers_some lc b a q p hq hp
  have hsigns : ∀ x y : ℚ, x ≠ y → (y - x < 0 ↔ 0 < x - y) ∧ (y - x = 0 ↔ x - y = 0) ∧
      (0 < y - x ↔ x - y < 0) ∧ (y - x = 0 → False) := by
    intro x y hxy
    refine ⟨by constructor <;> intro h <;> linarith, ?_,
      by constructor <;> intro h <;> linarith, fun h => hxy (by linarith)⟩
    constructor <;> intro h <;> linarith
  by_cases h1 : q = p
  · rw [if_neg (not_not.mpr h1)] at hab
    rw [if_neg (not_not.mpr h1.symm)] at hba
    by_cases h2 : b.revenue = a.revenue
    · rw [if_neg (not_not.mpr h2)] at hab
      rw [if_neg (not_not.mpr h2.symm)] at hba
      by_cases h3 : b.sales_count = a.sales_count
      · rw [if_neg (not_not.mpr h3)] at hab
        rw [if_neg (not_not.mpr h3.symm)] at hba
        have f1 := hflip a.name b.name
        have f2 := hflip b.name a.name
        refine ⟨_, _, hab, hba, ?_, ?_, ?_, ?_⟩
        · exact_mod_cast f1
        · have : lc a.name b.name = 0 ↔ lc b.name a.name = 0 := by
            constructor <;> intro h <;> omega
          exact_mod_cast this
        · have : 0 < lc a.name b.name ↔ lc b.name a.name < 0 := f2.symm
          exact_mod_cast this
        · intro hu
          refine ⟨by rw [hp, hq, h1], h2.symm, h3.symm, ?_⟩
          exact_mod_cast hu
      · rw [if_pos h3] at hab
        rw [if_pos (Ne.symm h3)] at hba
        have hne : (a.sales_count : ℚ) ≠ (b.sales_count : ℚ) := by
          intro e; exact h3 (by exact_mod_cast e.symm)
        obtain ⟨s1, s2, s3, s4⟩ := hsigns _ _ hne
        exact ⟨_, _, hab, hba, s1, s2, s3, fun hu => (s4 hu).elim⟩
    · rw [if_pos h2] at hab
      rw [if_pos (Ne.symm h2)] at hba
      obtain ⟨s1, s2, s3, s4⟩ := hsigns _ _ (Ne.symm h2)
      exact ⟨_, _, hab, hba, s1, s2, s3, fun hu => (s4 hu).elim⟩
  · rw [if_pos h1] at hab
    rw [if_pos (Ne.symm h1)] at hba
    obtain ⟨s1, s2, s3, s4⟩ := hsigns _ _ (Ne.symm h1)
    exact ⟨_, _, hab, hba, s1, s2, s3, fun hu => (s4 hu).elim⟩

/-- C18, as stated, fails: for a stat whose profit is `NaN`, such as the one
that `loneData [mixedRecord]` accumulates, `cmp(a, a)` is `NaN`, which has no
sign and is not `<= 0`. -/
theorem compareSellers_nan_counterexample :
    ∃ a : SellerStat,
      accumulatedStats calculateSimpleRevenue loneSeller loneProduct [mixedRecord] = .ok [a] ∧
      a.profit = none ∧
      compareSellers codePointCompare a a = none ∧
      ¬ ∃ u : ℚ, compareSellers codePointCompare a a = some u ∧ u ≤ 0 := by
  refine ⟨{ id := "seller_1", name := "Alexey Petrov", revenue := 100, profit := none,
            sales_count := 1, top_products := [("SKU_001", 1), ("constructor", 1)],
            bonus := some 0 }, by decide!, rfl, by decide!, ?_⟩
  rintro ⟨u, hu, _⟩
  have hn : compareSellers codePointCompare
      { id := "seller_1", name := "Alexey Petrov", revenue := 100, profit := none,
        sales_count := 1, top_products := [("SKU_001", 1), ("constructor", 1)],
        bonus := some 0 }
      { id := "seller_1", name := "Alexey Petrov", revenue := 100, profit := none,
        sales_count := 1, top_products := [("SKU_001", 1), ("constructor", 1)],
        bonus := some 0 } = none := by decide!
  rw [hn] at hu
  cases hu

/-- C18, amended. On seller stats whose profits are numbers, and for a
`localeCompare` whose sign flips with its arguments and whose `<= 0` is
transitive, the ranking comparator is a total preorder that tells apart
whatever differs in profit, revenue, sales count or name comparison: `cmp(a, b)`
and `cmp(b, a)` are numbers of opposite signs, `cmp(a, b) = 0` only when `a` and
`b` agree on profit, revenue and sales count and their names compare equal, so
never for two stats whose names `localeCompare` tells apart, and `cmp(a, b) <= 0`
with `cmp(b, c) <= 0` gives `cmp(a, c) <= 0`. -/
theorem compareSellers_total_order (localeCompare : String → String → ℤ)
    (hflip : ∀ x y, localeCompare x y < 0 ↔ 0 < localeCompare y x)
    (htrans : ∀ x y z, localeCompare x y ≤ 0 → localeCompare y z ≤ 0 → localeCompare x z ≤ 0)
    (a b c : SellerStat)
    (ha : a.profit ≠ none) (hb : b.profit ≠ none) (hc : c.profit ≠ none) :
    (∃ u v : ℚ,
      compareSellers localeCompare a b = some u ∧
      compareSellers localeCompare b a = some v ∧
      (u < 0 ↔ 0 < v) ∧ (u = 0 ↔ v = 0) ∧ (0 < u ↔ v < 0) ∧
      (u = 0 → a.profit = b.profit ∧ a.revenue = b.revenue ∧
        a.sales_count = b.sales_count ∧ localeCompare a.name b.name = 0) ∧
      (localeCompare a.name b.name ≠ 0 → u ≠ 0)) ∧
    (∀ u t : ℚ, compareSellers localeCompare a b = some u →
      compareSellers localeCompare b c = some t → u ≤ 0 → t ≤ 0 →
      ∃ w : ℚ, compareSellers localeCompare a c = some w ∧ w ≤ 0) := by
  constructor
  · obtain ⟨u, v, hab, hba, s1, s2, s3, hz⟩ := compareSellers_flip localeCompare hflip a b ha hb
    exact ⟨u, v, hab, hba, s1, s2, s3, hz, fun hn hu => hn (hz hu).2.2.2⟩
  · intro u t hu ht hu0 ht0
    obtain ⟨w, _, hac, _⟩ := compareSellers_flip localeCompare hflip a c ha hc
    refine ⟨w, hac, ?_⟩
    have h1 : (compareSellers localeCompare a b).getD 0 ≤ 0 := by rw [hu]; exact hu0
    have h2 : (compareSellers localeCompare b c).getD 0 ≤ 0 := by rw [ht]; exact ht0
    have h3 := (compareSellers_le_iff localeCompare a c ha hc).mpr
      (rankedBefore_trans localeCompare htrans a b c
        ((compareSellers_le_iff localeCompare a b ha hb).mp h1)
        ((compareSellers_le_iff localeCompare b c hb hc).mp h2))
    rw [hac] at h3
    exact h3

theorem compareChars_flip (a b : List Char) : compareChars a b < 0 ↔ 0 < compareChars b a := by
  induction a generalizing b with
  | nil => cases b <;> simp [compareChars]
  | cons x as ih =>
    cases b with
    | nil => simp [compareChars]
    | cons y bs =>
      simp only [compareChars]
      by_cases h1 : x.toNat < y.toNat
      · have h2 : ¬ y.toNat < x.toNat := by omega
        simp [h1, h2]
      · by_cases h2 : y.toNat < x.toNat
        · simp [h1, h2]
        · simp only [h1, h2, if_false]
          exact ih bs

theorem codePointCompare_flip (a b : String) :
    codePointCompare a b < 0 ↔ 0 < codePointCompare b a :=
  compareChars_flip a.data b.data

/-- C18, amended, at the stats of sellers A, B and C of the example and the
comparison of names by code points. -/
theorem compareSellers_total_order_witness :
    (∃ u v : ℚ,
      compareSellers codePointCompare (exampleStats.get ⟨0, by decide⟩)
        (exampleStats.get ⟨1, by decide⟩) = some u ∧
      compareSellers codePointCompare (exampleStats.get ⟨1, by decide⟩)
        (exampleStats.get ⟨0, by decide⟩) = some v ∧
      (u < 0 ↔ 0 < v) ∧ (u = 0 ↔ v = 0) ∧ (0 < u ↔ v < 0) ∧
      (u = 0 → (exampleStats.get ⟨0, by decide⟩).profit =
          (exampleStats.get ⟨1, by decide⟩).profit ∧
        (exampleStats.get ⟨0, by decide⟩).revenue = (exampleStats.get ⟨1, by decide⟩).revenue ∧
        (exampleStats.get ⟨0, by decide⟩).sales_count =
          (exampleStats.get ⟨1, by decide⟩).sales_count ∧
        codePointCompare (exampleStats.get ⟨0, by decide⟩).name
          (exampleStats.get ⟨1, by decide⟩).name = 0) ∧
      (codePointCompare (exampleStats.get ⟨0, by decide⟩).name
          (exampleStats.get ⟨1, by decide⟩).name ≠ 0 → u ≠ 0)) ∧
    (∀ u t : ℚ,
      compareSellers codePointCompare (exampleStats.get ⟨0, by decide⟩)
        (exampleStats.get ⟨1, by decide⟩) = some u →
      compareSellers codePointCompare (exampleStats.get ⟨1, by decide⟩)
        (exampleStats.get ⟨2, by decide⟩) = some t → u ≤ 0 → t ≤ 0 →
      ∃ w : ℚ, compareSellers codePointCompare (exampleStats.get ⟨0, by decide⟩)
        (exampleStats.get ⟨2, by decide⟩) = some w ∧ w ≤ 0) :=
  compareSellers_total_order codePointCompare codePointCompare_flip codePointCompare_trans
    (exampleStats.get ⟨0, by decide⟩) (exampleStats.get ⟨1, by decide⟩)
    (exampleStats.get ⟨2, by decide⟩) (by decide) (by decide) (by decide)

/-! ## Profit, revenue and cost of goods -/

theorem sum_map_sub {α : Type} (f g : α → ℚ) (l : List α) :
    (l.map fun a => f a - g a).sum = (l.map f).sum - (l.map g).sum := by
  induction l with
  | nil => simp
  | cons a l ih => simp only [List.map_cons, List.sum_cons, ih]; ring

theorem lineItemProfit_default (products : List Product) (item : LineItem)
    (hm : item.sku ∈ products.map (·.sku)) :
    lineItemProfit calculateSimpleRevenue products item =
      lineItemRevenue item - lineItemCost products item := by
  have hsome : (products.find? (fun p => decide (p.sku = item.sku))).isSome = true := by
    rw [List.find?_isSome]
    obtain ⟨p, hp, hpk⟩ := List.mem_map.mp hm
    exact ⟨p, hp, by simpa using hpk⟩
  obtain ⟨product, hfind⟩ := Option.isSome_iff_exists.mp hsome
  simp only [lineItemProfit, lineItemCost, hfind, calculateSimpleRevenue, lineItemRevenue]

theorem sum_lineItemProfit_default (products : List Product) (records : List PurchaseRecord)
    (hm : ∀ r ∈ records, ∀ item ∈ r.items, item.sku ∈ products.map (·.sku)) :
    (records.map fun r => (r.items.map (lineItemProfit calculateSimpleRevenue products)).sum).sum =
      (records.map fun r => (r.items.map lineItemRevenue).sum).sum -
      (records.map fun r => (r.items.map (lineItemCost products)).sum).sum := by
  rw [← sum_map_sub]
  congr 1
  apply List.map_congr_left
  intro r hr
  rw [← sum_map_sub]
  congr 1
  apply List.map_congr_left
  intro item hitem
  exact lineItemProfit_default products item (hm r hr item hitem)

/-- C16, as stated, fails: in the example of the specification, with the default
strategies, distinct seller ids and SKUs and no unmatched reference, seller A
accumulates profit 1000 and revenue 2000, and the cost of its one line item is
100: the profit is not the revenue minus the cost of goods. -/
theorem profit_is_not_revenue_minus_cost_counterexample :
    accumulatedStats calculateSimpleRevenue exampleSellers exampleProducts exampleRecords =
      .ok exampleStats ∧
    (exampleSellers.map (·.id)).Nodup ∧ (exampleProducts.map (·.sku)).Nodup ∧
    (∀ r ∈ exampleRecords, r.seller_id ∈ exampleSellers.map (·.id) ∧
      ∀ item ∈ r.items, item.sku ∈ exampleProducts.map (·.sku)) ∧
    (∃ a ∈ exampleStats, a.id = "A" ∧ a.profit = some 1000 ∧ a.revenue = 2000 ∧
      ((exampleRecords.filter fun r => r.seller_id = "A").map fun r =>
        (r.items.map (lineItemCost exampleProducts)).sum).sum = 100 ∧
      a.profit ≠ some (a.revenue -
        ((exampleRecords.filter fun r => r.seller_id = "A").map fun r =>
          (r.items.map (lineItemCost exampleProducts)).sum).sum)) := by
  refine ⟨by decide!, by decide, by decide, by decide, exampleStats.get ⟨0, by decide⟩,
    by decide, rfl, rfl, rfl, by decide!, by decide!⟩

/-- C16, amended. Whenever `analyzeSalesData` accepts its input and returns,
with the default revenue strategy, pairwise distinct seller ids and SKUs, for a
seller `s` all of whose line items reference catalog SKUs, the accumulated
revenue of `s` is the sum of the `total_amount` of its records, and its
accumulated profit is the sum over its line items of
`sale_price * quantity * (1 - discount / 100)` minus the sum over the same line
items of `purchase_price * quantity`; the profit is the accumulated revenue
minus that cost of goods exactly when the `total_amount`s add up to the revenue
of the line items. -/
theorem accumulated_profit_of_seller (localeCompare : String → String → ℤ)
    (sellers : List Seller) (products : List Product) (purchase_records : List PurchaseRecord)
    (calculateBonus : ℤ → ℤ → SellerStat → JSNumber) (result : List SellerResult)
    (h : analyzeSalesData localeCompare
      (some { sellers := some sellers, products := some products,
              purchase_records := some purchase_records })
      (some { calculateRevenue := some calculateSimpleRevenue,
              calculateBonus := some calculateBonus })
      = .ok result)
    (hid : (sellers.map (·.id)).Nodup) (hsku : (products.map (·.sku)).Nodup)
    (s : Seller) (hs : s ∈ sellers)
    (hknown : ∀ r ∈ purchase_records, r.seller_id = s.id →
      ∀ item ∈ r.items, item.sku ∈ products.map (·.sku)) :
    ∃ stats,
      accumulatedStats calculateSimpleRevenue sellers products purchase_records = .ok stats ∧
      (∃ st ∈ stats, st.id = s.id) ∧
      ∀ st ∈ stats, st.id = s.id →
        st.revenue =
          ((purchase_records.filter fun r => r.seller_id = s.id).map (·.total_amount)).sum ∧
        st.profit = some
          (((purchase_records.filter fun r => r.seller_id = s.id).map fun r =>
              (r.items.map lineItemRevenue).sum).sum -
           ((purchase_records.filter fun r => r.seller_id = s.id).map fun r =>
              (r.items.map (lineItemCost products)).sum).sum) ∧
        (st.profit = some (st.revenue -
            ((purchase_records.filter fun r => r.seller_id = s.id).map fun r =>
              (r.items.map (lineItemCost products)).sum).sum) ↔
          ((purchase_records.filter fun r => r.seller_id = s.id).map (·.total_amount)).sum =
            ((purchase_records.filter fun r => r.seller_id = s.id).map fun r =>
              (r.items.map lineItemRevenue).sum).sum) := by
  obtain ⟨_, _, _, hv⟩ := analyzeSalesData_eq_analyzeValid _ _ _ _ _ _ _ h
  obtain ⟨stats, hacc, _⟩ := analyzeValid_ok _ _ _ _ _ _ _ hv
  refine ⟨stats, hacc, ?_, ?_⟩
  · obtain ⟨j, hj⟩ := List.mem_iff_getElem?.mp hs
    have hst := accumulatedStats_getElem? _ _ _ _ _ hacc j
    rw [hj] at hst
    simp only [Option.map_some'] at hst
    exact ⟨_, List.mem_iff_getElem?.mpr ⟨j, hst⟩,
      (sellerFold_fields _ _ _ j purchase_records (seedStat s)).1⟩
  · intro st hst hsid
    obtain ⟨j, hj⟩ := List.mem_iff_getElem?.mp hst
    rw [accumulatedStats_getElem? _ _ _ _ _ hacc j] at hj
    cases hsj : sellers[j]? with
    | none => rw [hsj] at hj; simp at hj
    | some seller =>
      rw [hsj] at hj
      simp only [Option.map_some', Option.some.injEq] at hj
      obtain ⟨f1, _, _, f4⟩ := sellerFold_fields calculateSimpleRevenue
        (sellerIndex (sellerStats sellers)) (productIndex products) j purchase_records
        (seedStat seller)
      have hseller : seller.id = s.id := by
        rw [← hsid, ← hj]; exact f1.symm
      have hp := sellerFold_eq_foldl_filter calculateSimpleRevenue
        (sellerIndex (sellerStats sellers)) (productIndex products) j purchase_records
        (seedStat seller)
      rw [filter_own_eq sellers hid purchase_records j seller hsj, hseller] at hp f4
      have hmem : ∀ r ∈ purchase_records.filter (fun r => r.seller_id = s.id),
          ∀ item ∈ r.items, item.sku ∈ products.map (·.sku) := by
        intro r hr item hitem
        have hr' := List.mem_filter.mp hr
        exact hknown r hr'.1 (by simpa using hr'.2) item hitem
      have hprofit := foldl_addSale_profit calculateSimpleRevenue products hsku
        (purchase_records.filter fun r => r.seller_id = s.id) (seedStat seller) hmem
      rw [sum_lineItemProfit_default products _ hmem] at hprofit
      have hrev : st.revenue =
          ((purchase_records.filter fun r => r.seller_id = s.id).map (·.total_amount)).sum := by
        rw [← hj, f4]; simp [seedStat]
      have hpro : st.profit = some
          (((purchase_records.filter fun r => r.seller_id = s.id).map fun r =>
              (r.items.map lineItemRevenue).sum).sum -
           ((purchase_records.filter fun r => r.seller_id = s.id).map fun r =>
              (r.items.map (lineItemCost products)).sum).sum) := by
        rw [← hj, hp, hprofit]; simp [seedStat, jsAdd]
      refine ⟨hrev, hpro, ?_⟩
      rw [hpro, hrev]
      simp only [Option.some.injEq]
      constructor
      · intro e; linarith
      · intro e; rw [e]

/-- C16, amended, at the example of the specification and its seller C. -/
theorem accumulated_profit_of_seller_witness :
    analyzeSalesData codePointCompare (some exampleData) (some defaultOptions) =
      .ok exampleResult ∧
    (exampleSellers.map (·.id)).Nodup ∧ (exampleProducts.map (·.sku)).Nodup ∧
    ∃ stats,
      accumulatedStats calculateSimpleRevenue exampleSellers exampleProducts exampleRecords =
        .ok stats ∧
      (∃ st ∈ stats, st.id = "C") ∧
      ∀ st ∈ stats, st.id = "C" →
        st.revenue =
          ((exampleRecords.filter fun r => r.seller_id = "C").map (·.total_amount)).sum ∧
        st.profit = some
          (((exampleRecords.filter fun r => r.seller_id = "C").map fun r =>
              (r.items.map lineItemRevenue).sum).sum -
           ((exampleRecords.filter fun r => r.seller_id = "C").map fun r =>
              (r.items.map (lineItemCost exampleProducts)).sum).sum) ∧
        (st.profit = some (st.revenue -
            ((exampleRecords.filter fun r => r.seller_id = "C").map fun r =>
              (r.items.map (lineItemCost exampleProducts)).sum).sum) ↔
          ((exampleRecords.filter fun r => r.seller_id = "C").map (·.total_amount)).sum =
            ((exampleRecords.filter fun r => r.seller_id = "C").map fun r =>
              (r.items.map lineItemRevenue).sum).sum) :=
  ⟨by decide!, by decide, by decide,
   accumulated_profit_of_seller codePointCompare exampleSellers exampleProducts exampleRecords
     calculateBonusByProfit exampleResult (by decide!) (by decide) (by decide)
     { id := "C", first_name := "Seller", last_name := "C" } (by decide) (by decide)⟩

/-! ## Lemmas: rounding to 2 decimals -/

theorem toFixed2_multiple (x : ℚ) : ∃ n : ℤ, toFixed2 x = (n : ℚ) / 100 := by
  unfold toFixed2
  split
  · exact ⟨_, rfl⟩
  · exact ⟨-⌊-x * 100 + 1 / 2⌋, by push_cast; ring⟩

theorem toFixed2_near (x : ℚ) : |toFixed2 x - x| ≤ 1 / 200 := by
  unfold toFixed2
  split
  · have h1 := Int.floor_le (x * 100 + 1 / 2)
    have h2 := Int.lt_floor_add_one (x * 100 + 1 / 2)
    rw [abs_le]
    constructor <;> linarith
  · have h1 := Int.floor_le (-x * 100 + 1 / 2)
    have h2 := Int.lt_floor_add_one (-x * 100 + 1 / 2)
    rw [abs_le]
    constructor <;> linarith

theorem jsToFixed2_spec (v : JSNumber) :
    (∀ p, v = some p → ∃ q, jsToFixed2 v = some q ∧ (∃ n : ℤ, q = (n : ℚ) / 100) ∧
      |q - p| ≤ 1 / 200) ∧
    (v = none → jsToFixed2 v = none) := by
  constructor
  · intro p hp
    subst hp
    exact ⟨toFixed2 p, rfl, toFixed2_multiple p, toFixed2_near p⟩
  · intro hv
    subst hv
    rfl

theorem mem_topProductsArray (products : List (String × Product))
    (top_products : List (String × ℚ)) (t : TopProduct)
    (ht : t ∈ topProductsArray products top_products) :
    (t.sku, t.quantity) ∈ top_products := by
  unfold topProductsArray arraySort at ht
  have h1 := List.mem_of_mem_take ht
  rw [(List.perm_insertionSort _ _).mem_iff] at h1
  obtain ⟨entry, he, rfl⟩ := List.mem_map.mp h1
  exact he

/-! ## Lemmas: ties and `NaN` in the comparator -/

theorem compareSellers_nan (lc : String → String → ℤ) (a b : SellerStat)
    (h : a.profit = none ∨ b.profit = none) : compareSellers lc a b = none := by
  unfold compareSellers
  rcases h with h | h
  · rw [h]; cases b.profit <;> rfl
  · rw [h]; cases a.profit <;> rfl

theorem compareSellers_tie (lc : String → String → ℤ) (a b : SellerStat)
    (hp : a.profit = b.profit) (hr : a.revenue = b.revenue)
    (hc : a.sales_count = b.sales_count) (hn : lc a.name b.name = 0) :
    (compareSellers lc a b).getD 0 ≤ 0 := by
  cases hb : b.profit with
  | none => rw [compareSellers_nan lc a b (Or.inr hb)]; exact le_refl _
  | some q =>
    have ha : a.profit = some q := hp.trans hb
    simp [compareSellers, ha, hb, strictNotEqual, hr, hc, hn]

/-! ## Duplicate keys -/

theorem ownProperty_append_cons {α : Type} (pre post : List (String × α)) (key : String) (v : α)
    (hpost : key ∉ post.map Prod.fst) :
    ownProperty (pre ++ (key, v) :: post) key = some v := by
  induction pre with
  | nil =>
    simp only [List.nil_append, ownProperty, (ownProperty_eq_none post key).mpr hpost, if_true]
  | cons e rest ih =>
    obtain ⟨k, w⟩ := e
    show ownProperty ((k, w) :: (rest ++ (key, v) :: post)) key = some v
    rw [ownProperty, ih]

theorem ownProperty_shadowed {α : Type} (pre post : List (String × α)) (e : String × α)
    (he : e.1 ∈ post.map Prod.fst) (key : String) :
    ownProperty (pre ++ e :: post) key = ownProperty (pre ++ post) key := by
  induction pre with
  | nil =>
    obtain ⟨k, v⟩ := e
    simp only [List.nil_append, ownProperty]
    cases h : ownProperty post key with
    | some w => rfl
    | none =>
      have hn := (ownProperty_eq_none post key).mp h
      have hk : ¬ k = key := fun hk => hn (hk ▸ he)
      simp only [hk, if_false]
  | cons a rest ih =>
    obtain ⟨k, w⟩ := a
    show ownProperty ((k, w) :: (rest ++ e :: post)) key = ownProperty ((k, w) :: (rest ++ post)) key
    rw [ownProperty, ownProperty, ih]

theorem getElem?_append_cons_length {α : Type} (pre post : List α) (x : α) :
    (pre ++ x :: post)[pre.length]? = some x := by
  induction pre with
  | nil => simp
  | cons a rest ih => simpa using ih

theorem sellerEntries_append (n : ℕ) (l₁ l₂ : List SellerStat) :
    sellerEntries n (l₁ ++ l₂) = sellerEntries n l₁ ++ sellerEntries (n + l₁.length) l₂ := by
  induction l₁ generalizing n with
  | nil => rfl
  | cons a rest ih =>
    have hn : n + 1 + rest.length = n + (rest.length + 1) := by omega
    show sellerEntries n (a :: (rest ++ l₂)) = _
    rw [sellerEntries, ih, hn]
    rfl

/-- The id of the last seller with a given id resolves to that seller's position. -/
theorem sellerIndex_last (pre post : List Seller) (s : Seller)
    (hpost : s.id ∉ post.map (·.id)) :
    getProperty (sellerIndex (sellerStats (pre ++ s :: post))) s.id = .own pre.length := by
  rw [getProperty_own_iff]
  unfold sellerIndex sellerStats
  rw [List.map_append, sellerEntries_append, List.map_cons, sellerEntries]
  have h := ownProperty_append_cons (sellerEntries 0 (pre.map seedStat))
    (sellerEntries (0 + (pre.map seedStat).length + 1) (post.map seedStat)) s.id
    (0 + (pre.map seedStat).length)
    (by
      rw [map_fst_sellerEntries]
      simpa [Function.comp_def, seedStat] using hpost)
  simpa [seedStat] using h

/-- The last seller with a given id, when there is one. -/
theorem exists_last_seller (l : List Seller) (key : String) (h : key ∈ l.map (·.id)) :
    ∃ pre s post, l = pre ++ s :: post ∧ s.id = key ∧ key ∉ post.map (·.id) := by
  induction l with
  | nil => simp at h
  | cons a rest ih =>
    by_cases hr : key ∈ rest.map (·.id)
    · obtain ⟨pre, s, post, hl, hs, hp⟩ := ih hr
      exact ⟨a :: pre, s, post, by rw [hl]; rfl, hs, hp⟩
    · refine ⟨[], a, rest, rfl, ?_, hr⟩
      simp only [List.map_cons, List.mem_cons] at h
      rcases h with h | h
      · exact h.symm
      · exact absurd h hr

/-- No id resolves to the position of a seller whose id a later seller carries. -/
theorem sellerIndex_earlier (pre mid post : List Seller) (earlier later : Seller)
    (hid : earlier.id = later.id) (key : String) :
    getProperty (sellerIndex (sellerStats (pre ++ earlier :: (mid ++ later :: post)))) key ≠
      .own pre.length := by
  intro hown
  have hmem := mem_of_ownProperty _ _ _ ((getProperty_own_iff _ _ _).mp hown)
  rw [sellerIndex, mem_sellerEntries] at hmem
  have hkey : earlier.id = key := by
    have := hmem.2
    simp only [Nat.sub_zero, sellerStats, List.getElem?_map, getElem?_append_cons_length,
      Option.map_some', Option.some.injEq] at this
    exact this
  have hin : key ∈ (mid ++ later :: post).map (·.id) := by
    rw [← hkey, hid]
    simp
  obtain ⟨pre', s, post', hl, hs, hp⟩ := exists_last_seller _ key hin
  have hlast := sellerIndex_last (pre ++ earlier :: pre') post' s (by rw [hs]; exact hp)
  have hlist : pre ++ earlier :: (mid ++ later :: post) = (pre ++ earlier :: pre') ++ s :: post' := by
    rw [hl]; simp
  rw [hlist, ← hs, hlast] at hown
  simp only [Lookup.own.injEq, List.length_append, List.length_cons] at hown
  omega

/-- The records added to the last seller with a given id are those that carry
that id. -/
theorem filter_own_last (pre post : List Seller) (s : Seller)
    (hpost : s.id ∉ post.map (·.id)) (records : List PurchaseRecord) :
    (records.filter fun r =>
      getProperty (sellerIndex (sellerStats (pre ++ s :: post))) r.seller_id = .own pre.length) =
    records.filter fun r => r.seller_id = s.id := by
  apply List.filter_congr
  intro r _
  by_cases h : r.seller_id = s.id
  · have h1 := sellerIndex_last pre post s hpost
    rw [← h] at h1
    rw [decide_eq_true h1, decide_eq_true h]
  · have h' : ¬ getProperty (sellerIndex (sellerStats (pre ++ s :: post))) r.seller_id =
        .own pre.length := by
      intro hown
      have hmem := mem_of_ownProperty _ _ _ ((getProperty_own_iff _ _ _).mp hown)
      rw [sellerIndex, mem_sellerEntries] at hmem
      have := hmem.2
      simp only [Nat.sub_zero, sellerStats, List.getElem?_map, getElem?_append_cons_length,
        Option.map_some', Option.some.injEq] at this
      exact h this.symm
    rw [decide_eq_false h', decide_eq_false h]

theorem sellerFold_of_no_record (cr : PurchaseData → Product → ℚ)
    (sellers : List (String × ℕ)) (products : List (String × Product)) (j : ℕ)
    (records : List PurchaseRecord) (st : SellerStat)
    (h : ∀ key, getProperty sellers key ≠ .own j) :
    sellerFold cr sellers products j records st = st := by
  induction records with
  | nil => rfl
  | cons record rest ih => rw [sellerFold_cons, if_neg (h record.seller_id), ih]

theorem getProperty_shadowed {α : Type} (pre post : List (String × α)) (e : String × α)
    (he : e.1 ∈ post.map Prod.fst) (key : String) :
    getProperty (pre ++ e :: post) key = getProperty (pre ++ post) key := by
  unfold getProperty
  rw [ownProperty_shadowed pre post e he key]

theorem addItem_products_congr (cr : PurchaseData → Product → ℚ)
    (P P' : List (String × Product)) (hP : ∀ key, getProperty P key = getProperty P' key) :
    addItem cr P = addItem cr P' := by
  funext st item
  unfold addItem
  rw [hP item.sku]

theorem addSale_products_congr (cr : PurchaseData → Product → ℚ)
    (P P' : List (String × Product)) (hP : ∀ key, getProperty P key = getProperty P' key) :
    addSale cr P = addSale cr P' := by
  funext record st
  unfold addSale
  rw [addItem_products_congr cr P P' hP]

theorem addItemsInherited_products_congr
    (P P' : List (String × Product)) (hP : ∀ key, getProperty P key = getProperty P' key)
    (items : List LineItem) : addItemsInherited P items = addItemsInherited P' items := by
  induction items with
  | nil => rfl
  | cons item rest ih => simp only [addItemsInherited, hP, ih]

theorem processRecord_products_congr (cr : PurchaseData → Product → ℚ)
    (S : List (String × ℕ))
    (P P' : List (String × Product)) (hP : ∀ key, getProperty P key = getProperty P' key) :
    processRecord cr S P = processRecord cr S P' := by
  funext stats record
  unfold processRecord
  rw [addSale_products_congr cr P P' hP, addItemsInherited_products_congr P P' hP]

theorem accumulate_products_congr (cr : PurchaseData → Product → ℚ)
    (S : List (String × ℕ))
    (P P' : List (String × Product)) (hP : ∀ key, getProperty P key = getProperty P' key)
    (stats : List SellerStat) (records : List PurchaseRecord) :
    accumulate cr S P stats records = accumulate cr S P' stats records := by
  induction records generalizing stats with
  | nil => rfl
  | cons record rest ih =>
    simp only [accumulate, processRecord_products_congr cr S P P' hP]
    cases processRecord cr S P' stats record with
    | error e => rfl
    | ok stats1 => exact ih stats1

theorem resultsFrom_products_congr (cb : ℤ → ℤ → SellerStat → JSNumber)
    (P P' : List (String × Product)) (hP : ∀ key, getProperty P key = getProperty P' key)
    (total index : ℕ) (l : List SellerStat) :
    resultsFrom cb P total index l = resultsFrom cb P' total index l := by
  have hname : productName P = productName P' := by
    funext sku; unfold productName; rw [hP sku]
  have hcat : productCategory P = productCategory P' := by
    funext sku; unfold productCategory; rw [hP sku]
  have hrec : resultRecord cb P = resultRecord cb P' := by
    funext total index seller
    unfold resultRecord topProductsArray
    rw [hname, hcat]
  induction l generalizing index with
  | nil => rfl
  | cons st rest ih => simp only [resultsFrom, hrec, ih]

theorem analyzeValid_products_congr (lc : String → String → ℤ)
    (cr : PurchaseData → Product → ℚ) (cb : ℤ → ℤ → SellerStat → JSNumber)
    (sellers : List Seller) (products products' : List Product)
    (records : List PurchaseRecord)
    (hP : ∀ key, getProperty (productIndex products) key =
      getProperty (productIndex products') key) :
    analyzeValid lc cr cb sellers products records =
      analyzeValid lc cr cb sellers products' records := by
  unfold analyzeValid accumulatedStats
  rw [accumulate_products_congr cr _ _ _ hP]
  cases accumulate cr (sellerIndex (sellerStats sellers)) (productIndex products')
      (sellerStats sellers) records with
  | error e => rfl
  | ok stats => simp only [resultsFrom_products_congr cb _ _ hP]

/-- C15. On an accepted input none of whose records throws (C5), duplicate keys
raise no error: `analyzeSalesData` returns. When a seller `earlier` is followed
in `data.sellers` by a seller `later` with the same id, the stat of `earlier`
stays as seeded and is returned with `sales_count` 0, revenue 0, profit 0 and
empty `top_products`; and, `later` being the last seller with that id, its
stat is what the records with that id, in order, add up to, so its
`sales_count` is their number and its revenue the sum of their
`total_amount`.  When a product `earlier` is followed in `data.products` by a
product `later` with the same SKU, that SKU resolves to `later` when it is the
last one, and the call returns the same result as with `earlier` deleted from
the catalog. -/
theorem duplicate_keys_last_write_wins (localeCompare : String → String → ℤ)
    (sellers : List Seller) (products : List Product) (purchase_records : List PurchaseRecord)
    (calculateRevenue : PurchaseData → Product → ℚ)
    (calculateBonus : ℤ → ℤ → SellerStat → JSNumber)
    (hs : sellers ≠ []) (hp : products ≠ []) (hr : purchase_records ≠ [])
    (hsafe : ∀ record ∈ purchase_records,
      ¬ recordThrows (sellerIndex (sellerStats sellers)) (productIndex products) record) :
    ∃ stats result,
      accumulatedStats calculateRevenue sellers products purchase_records = .ok stats ∧
      analyzeSalesData localeCompare
        (some { sellers := some sellers, products := some products,
                purchase_records := some purchase_records })
        (some { calculateRevenue := some calculateRevenue,
                calculateBonus := some calculateBonus }) = .ok result ∧
      (∀ (pre : List Seller) (earlier : Seller) (mid : List Seller) (later : Seller)
          (post : List Seller),
        sellers = pre ++ earlier :: (mid ++ later :: post) → earlier.id = later.id →
        stats[pre.length]? = some (seedStat earlier) ∧
        (∃ x ∈ result, (∃ i, x = resultRecord calculateBonus (productIndex products)
              sellers.length i (seedStat earlier)) ∧
            x.seller_id = earlier.id ∧
            x.name = earlier.first_name ++ " " ++ earlier.last_name ∧
            x.sales_count = 0 ∧ x.revenue = 0 ∧ x.profit = some 0 ∧ x.top_products = []) ∧
        (later.id ∉ post.map (·.id) →
          ∃ st, stats[pre.length + 1 + mid.length]? = some st ∧
            st = (purchase_records.filter fun r => r.seller_id = later.id).foldl
              (fun st r => addSale calculateRevenue (productIndex products) r st)
              (seedStat later) ∧
            st.sales_count = (purchase_records.filter fun r => r.seller_id = later.id).length ∧
            st.revenue =
              ((purchase_records.filter fun r => r.seller_id = later.id).map
                (·.total_amount)).sum)) ∧
      (∀ (pre : List Product) (earlier : Product) (mid : List Product) (later : Product)
          (post : List Product),
        products = pre ++ earlier :: (mid ++ later :: post) → earlier.sku = later.sku →
        (later.sku ∉ post.map (·.sku) →
          getProperty (productIndex products) later.sku = .own later) ∧
        analyzeSalesData localeCompare
          (some { sellers := some sellers, products := some (pre ++ (mid ++ later :: post)),
                  purchase_records := some purchase_records })
          (some { calculateRevenue := some calculateRevenue,
                  calculateBonus := some calculateBonus }) = .ok result) := by
  obtain ⟨result, hres⟩ := (analyzeSalesData_returns_iff localeCompare _ _).mpr
    ⟨sellers, products, purchase_records, calculateRevenue, calculateBonus, rfl, rfl, hs, hp, hr,
      hsafe⟩
  obtain ⟨_, _, _, hv⟩ := analyzeSalesData_eq_analyzeValid _ _ _ _ _ _ _ hres
  obtain ⟨stats, hacc, _⟩ := analyzeValid_ok _ _ _ _ _ _ _ hv
  refine ⟨stats, result, hacc, hres, ?_, ?_⟩
  · intro pre earlier mid later post hsel hid
    have hget : sellers[pre.length]? = some earlier := by
      rw [hsel]; exact getElem?_append_cons_length _ _ _
    have hnone : ∀ key, getProperty (sellerIndex (sellerStats sellers)) key ≠ .own pre.length := by
      rw [hsel]; exact sellerIndex_earlier pre mid post earlier later hid
    have hfold := sellerFold_of_no_record calculateRevenue (sellerIndex (sellerStats sellers))
      (productIndex products) pre.length purchase_records (seedStat earlier) hnone
    refine ⟨?_, ?_, ?_⟩
    · rw [accumulatedStats_getElem? _ _ _ _ _ hacc, hget, Option.map_some', hfold]
    · obtain ⟨x, hx, i, hi⟩ := (result_stats _ _ _ _ _ _ _ hv).2 pre.length earlier hget
      rw [hfold] at hi
      refine ⟨x, hx, ⟨i, hi⟩, ?_⟩
      subst hi
      have hzero : toFixed2 0 = 0 := by norm_num [toFixed2]
      refine ⟨rfl, rfl, rfl, ?_, ?_, rfl⟩
      · exact hzero
      · exact congrArg some hzero
    · intro hpost
      have hsel' : sellers = (pre ++ earlier :: mid) ++ later :: post := by
        rw [hsel]; simp
      have hlen : pre.length + 1 + mid.length = (pre ++ earlier :: mid).length := by
        simp; omega
      have hget2 : sellers[pre.length + 1 + mid.length]? = some later := by
        rw [hsel', hlen]; exact getElem?_append_cons_length _ _ _
      have hfilter : (purchase_records.filter fun r =>
          getProperty (sellerIndex (sellerStats sellers)) r.seller_id =
            .own (pre.length + 1 + mid.length)) =
          purchase_records.filter fun r => r.seller_id = later.id := by
        rw [hsel', hlen]; exact filter_own_last _ _ _ hpost _
      obtain ⟨_, _, f3, f4⟩ := sellerFold_fields calculateRevenue
        (sellerIndex (sellerStats sellers)) (productIndex products)
        (pre.length + 1 + mid.length) purchase_records (seedStat later)
      have hfold2 := sellerFold_eq_foldl_filter calculateRevenue
        (sellerIndex (sellerStats sellers)) (productIndex products)
        (pre.length + 1 + mid.length) purchase_records (seedStat later)
      rw [hfilter] at f3 f4 hfold2
      refine ⟨_, ?_, hfold2, ?_, ?_⟩
      · rw [accumulatedStats_getElem? _ _ _ _ _ hacc, hget2, Option.map_some']
      · rw [f3]; simp [seedStat]
      · rw [f4]; simp [seedStat]
  · intro pre earlier mid later post hprod hsku
    constructor
    · intro hpost
      rw [getProperty_own_iff]
      have hprod' : productIndex products =
          productIndex (pre ++ earlier :: mid) ++ (later.sku, later) :: productIndex post := by
        rw [hprod]; simp [productIndex]
      rw [hprod']
      apply ownProperty_append_cons
      rw [map_fst_productIndex]
      exact hpost
    · have hP : ∀ key, getProperty (productIndex (pre ++ (mid ++ later :: post))) key =
          getProperty (productIndex products) key := by
        intro key
        have h1 : productIndex products =
            productIndex pre ++ (earlier.sku, earlier) :: productIndex (mid ++ later :: post) := by
          rw [hprod]; simp [productIndex]
        have h2 : productIndex (pre ++ (mid ++ later :: post)) =
            productIndex pre ++ productIndex (mid ++ later :: post) := by
          simp [productIndex]
        rw [h1, h2]
        symm
        apply getProperty_shadowed
        rw [map_fst_productIndex, hsku]
        simp
      have hne : ¬ (sellers.length = 0 ∨ (pre ++ (mid ++ later :: post)).length = 0 ∨
          purchase_records.length = 0) := by
        simp only [not_or, List.length_eq_zero]
        exact ⟨hs, by simp, hr⟩
      simp only [analyzeSalesData, if_neg hne]
      rw [analyzeValid_products_congr localeCompare calculateRevenue calculateBonus sellers _
        products purchase_records hP]
      exact hv

/-- C15 at the input `duplicateData`, which returns `duplicateResult`. -/
theorem duplicate_keys_last_write_wins_witness :
    analyzeSalesData codePointCompare (some duplicateData) (some defaultOptions) =
      .ok duplicateResult ∧
    ∃ stats result,
      accumulatedStats calculateSimpleRevenue duplicateSellers duplicateProducts [plainRecord] =
        .ok stats ∧
      analyzeSalesData codePointCompare
        (some { sellers := some duplicateSellers, products := some duplicateProducts,
                purchase_records := some [plainRecord] })
        (some { calculateRevenue := some calculateSimpleRevenue,
                calculateBonus := some calculateBonusByProfit }) = .ok result ∧
      (∀ (pre : List Seller) (earlier : Seller) (mid : List Seller) (later : Seller)
          (post : List Seller),
        duplicateSellers = pre ++ earlier :: (mid ++ later :: post) → earlier.id = later.id →
        stats[pre.length]? = some (seedStat earlier) ∧
        (∃ x ∈ result, (∃ i, x = resultRecord calculateBonusByProfit
              (productIndex duplicateProducts) duplicateSellers.length i (seedStat earlier)) ∧
            x.seller_id = earlier.id ∧
            x.name = earlier.first_name ++ " " ++ earlier.last_name ∧
            x.sales_count = 0 ∧ x.revenue = 0 ∧ x.profit = some 0 ∧ x.top_products = []) ∧
        (later.id ∉ post.map (·.id) →
          ∃ st, stats[pre.length + 1 + mid.length]? = some st ∧
            st = ([plainRecord].filter fun r => r.seller_id = later.id).foldl
              (fun st r => addSale calculateSimpleRevenue (productIndex duplicateProducts) r st)
              (seedStat later) ∧
            st.sales_count = ([plainRecord].filter fun r => r.seller_id = later.id).length ∧
            st.revenue =
              (([plainRecord].filter fun r => r.seller_id = later.id).map
                (·.total_amount)).sum)) ∧
      (∀ (pre : List Product) (earlier : Product) (mid : List Product) (later : Product)
          (post : List Product),
        duplicateProducts = pre ++ earlier :: (mid ++ later :: post) →
        earlier.sku = later.sku →
        (later.sku ∉ post.map (·.sku) →
          getProperty (productIndex duplicateProducts) later.sku = .own later) ∧
        analyzeSalesData codePointCompare
          (some { sellers := some duplicateSellers,
                  products := some (pre ++ (mid ++ later :: post)),
                  purchase_records := some [plainRecord] })
          (some { calculateRevenue := some calculateSimpleRevenue,
                  calculateBonus := some calculateBonusByProfit }) = .ok result) :=
  ⟨by decide!,
   duplicate_keys_last_write_wins codePointCompare duplicateSellers duplicateProducts
     [plainRecord] calculateSimpleRevenue calculateBonusByProfit
     (List.cons_ne_nil _ _) (List.cons_ne_nil _ _) (List.cons_ne_nil _ _)
     (by unfold recordThrows; decide)⟩

/-! ## The top products of a seller -/

theorem mem_firstOccurrences (l : List String) (key : String) :
    key ∈ firstOccurrences l ↔ key ∈ l := by
  induction l with
  | nil => simp [firstOccurrences]
  | cons a rest ih =>
    simp only [firstOccurrences, List.mem_cons, List.mem_filter, ih, decide_eq_true_eq]
    by_cases h : key = a
    · simp [h]
    · simp [h]

theorem nodup_firstOccurrences (l : List String) : (firstOccurrences l).Nodup := by
  induction l with
  | nil => simp [firstOccurrences]
  | cons a rest ih =>
    simp only [firstOccurrences, List.nodup_cons, List.mem_filter, decide_eq_true_eq]
    exact ⟨fun h => h.2 rfl, ih.filter _⟩

theorem firstOccurrences_concat (l : List String) (key : String) :
    firstOccurrences (l ++ [key]) =
      if key ∈ l then firstOccurrences l else firstOccurrences l ++ [key] := by
  induction l with
  | nil => simp [firstOccurrences]
  | cons a rest ih =>
    rw [List.cons_append, firstOccurrences, ih]
    by_cases hr : key ∈ rest
    · simp [hr, firstOccurrences]
    · by_cases ha : key = a
      · subst ha
        simp [hr, List.filter_append, firstOccurrences]
      · simp [hr, ha, List.filter_append, firstOccurrences]

theorem mapGet_map (f : String → ℚ) (l : List String) (key : String) :
    mapGet (l.map fun k => (k, f k)) key = if key ∈ l then some (f key) else none := by
  induction l with
  | nil => simp [mapGet]
  | cons a rest ih =>
    simp only [List.map_cons, mapGet, ih, List.mem_cons]
    by_cases ha : a = key
    · simp [ha]
    · simp [ha, Ne.symm ha]

theorem mapSet_map_of_not_mem (f : String → ℚ) (l : List String) (key : String) (v : ℚ)
    (h : key ∉ l) :
    mapSet (l.map fun k => (k, f k)) key v = (l.map fun k => (k, f k)) ++ [(key, v)] := by
  induction l with
  | nil => simp [mapSet]
  | cons a rest ih =>
    simp only [List.mem_cons, not_or] at h
    simp only [List.map_cons, mapSet, if_neg (Ne.symm h.1), ih h.2, List.cons_append]

theorem mapSet_map_of_mem (f g : String → ℚ) (l : List String) (key : String) (v : ℚ)
    (hl : l.Nodup) (h : key ∈ l) (hkey : g key = v) (hother : ∀ k, k ≠ key → g k = f k) :
    mapSet (l.map fun k => (k, f k)) key v = l.map fun k => (k, g k) := by
  induction l with
  | nil => simp at h
  | cons a rest ih =>
    simp only [List.nodup_cons] at hl
    simp only [List.map_cons, mapSet]
    by_cases ha : a = key
    · subst ha
      simp only [if_true, hkey, List.cons.injEq, true_and]
      apply List.map_congr_left
      intro k hk
      have hne : k ≠ a := fun e => hl.1 (e ▸ hk)
      rw [hother k hne]
    · have hmem : key ∈ rest := by
        rcases List.mem_cons.mp h with h | h
        · exact absurd h.symm ha
        · exact h
      simp only [if_neg ha, ih hl.2 hmem, hother a ha]

theorem soldQuantity_concat (items : List LineItem) (x : LineItem) (sku : String) :
    soldQuantity (items ++ [x]) sku =
      soldQuantity items sku + if x.sku = sku then x.quantity else 0 := by
  unfold soldQuantity
  by_cases h : x.sku = sku
  · simp [List.filter_append, h]
  · simp [List.filter_append, h]

theorem soldQuantity_of_not_mem (items : List LineItem) (sku : String)
    (h : sku ∉ items.map (·.sku)) : soldQuantity items sku = 0 := by
  unfold soldQuantity
  have : (items.filter fun item => item.sku = sku) = [] := by
    rw [List.filter_eq_nil_iff]
    intro item hitem
    simp only [decide_eq_true_eq]
    intro e
    exact h (List.mem_map.mpr ⟨item, hitem, e⟩)
  rw [this]; rfl

theorem soldPairs_concat (items : List LineItem) (x : LineItem) :
    soldPairs (items ++ [x]) = countProduct (soldPairs items) x := by
  unfold soldPairs countProduct
  rw [List.map_append, List.map_singleton, firstOccurrences_concat, mapGet_map]
  simp only [mem_firstOccurrences]
  by_cases h : x.sku ∈ items.map (·.sku)
  · rw [if_pos h, if_pos h]
    symm
    apply mapSet_map_of_mem _ _ _ _ _ (nodup_firstOccurrences _)
      ((mem_firstOccurrences _ _).mpr h)
    · rw [soldQuantity_concat]; simp
    · intro k hk
      rw [soldQuantity_concat, if_neg (Ne.symm hk), add_zero]
  · rw [if_neg h, if_neg h, mapSet_map_of_not_mem _ _ _ _
      (fun hm => h ((mem_firstOccurrences _ _).mp hm)), List.map_append, List.map_singleton]
    congr 1
    · apply List.map_congr_left
      intro k hk
      have hne : ¬ x.sku = k := fun e => h (e ▸ (mem_firstOccurrences _ _).mp hk)
      rw [soldQuantity_concat, if_neg hne, add_zero]
    · rw [soldQuantity_concat, soldQuantity_of_not_mem items x.sku h]
      simp

/-- The `Map` of a seller holds the pairs of SKU and cumulative quantity, in
the order of each SKU's first counted line item. -/
theorem foldl_countProduct (items : List LineItem) :
    items.foldl countProduct [] = soldPairs items := by
  induction items using List.reverseRecOn with
  | nil => rfl
  | append_singleton rest x ih => rw [List.foldl_append, ih, soldPairs_concat]; rfl

theorem addItem_top_products (cr : PurchaseData → Product → ℚ)
    (products : List (String × Product)) (st : SellerStat) (item : LineItem) :
    (addItem cr products st item).top_products =
      if getProperty products item.sku ≠ .absent then countProduct st.top_products item
      else st.top_products := by
  unfold addItem
  cases getProperty products item.sku <;> simp

theorem foldl_addItem_top_products (cr : PurchaseData → Product → ℚ)
    (products : List (String × Product)) (items : List LineItem) (st : SellerStat) :
    (items.foldl (addItem cr products) st).top_products =
      (items.filter fun item => getProperty products item.sku ≠ .absent).foldl countProduct
        st.top_products := by
  induction items generalizing st with
  | nil => rfl
  | cons item rest ih =>
    rw [List.foldl_cons, ih, addItem_top_products]
    by_cases h : getProperty products item.sku = .absent
    · simp [h, List.filter_cons]
    · simp [h, List.filter_cons]

theorem foldl_addSale_top_products (cr : PurchaseData → Product → ℚ)
    (products : List (String × Product)) (records : List PurchaseRecord) (st : SellerStat) :
    (records.foldl (fun st r => addSale cr products r st) st).top_products =
      ((records.flatMap (·.items)).filter fun item =>
        getProperty products item.sku ≠ .absent).foldl countProduct st.top_products := by
  induction records generalizing st with
  | nil => rfl
  | cons record rest ih =>
    rw [List.foldl_cons, ih]
    unfold addSale
    rw [foldl_addItem_top_products, List.flatMap_cons, List.filter_append, List.foldl_append]

theorem sellerFold_top_products (cr : PurchaseData → Product → ℚ)
    (sellers : List (String × ℕ)) (products : List (String × Product)) (j : ℕ)
    (records : List PurchaseRecord) (seller : Seller) :
    (sellerFold cr sellers products j records (seedStat seller)).top_products =
      soldPairs (soldItems sellers products j records) := by
  rw [sellerFold_eq_foldl_filter, foldl_addSale_top_products, ← foldl_countProduct]
  rfl

theorem pair_sublist_take {α : Type} (l : List α) (hl : l.Nodup) (n : ℕ) (a b : α)
    (h : List.Sublist [a, b] l) (hb : b ∈ l.take n) : List.Sublist [a, b] (l.take n) := by
  induction l generalizing n with
  | nil => simp at h
  | cons c rest ih =>
    cases n with
    | zero => simp at hb
    | succ n =>
      rw [List.nodup_cons] at hl
      rw [List.take_succ_cons] at hb ⊢
      cases h with
      | cons _ h' =>
        have hbr : b ∈ rest := h'.subset (by simp)
        rcases List.mem_cons.mp hb with hbc | hbt
        · exact absurd (hbc ▸ hbr) hl.1
        · exact (ih hl.2 n h' hbt).cons c
      | cons₂ _ h' =>
        have hbr : b ∈ rest := h'.subset (by simp)
        rcases List.mem_cons.mp hb with hbc | hbt
        · exact absurd (hbc ▸ hbr) hl.1
        · exact (List.singleton_sublist.mpr hbt).cons₂ _

/-- What lines 168-178 make of a `Map` whose keys are pairwise distinct. -/
theorem stableTopTen_topProductsArray (products : List (String × Product))
    (entries : List (String × ℚ)) (hkeys : (entries.map Prod.fst).Nodup) :
    stableTopTen (entries.map (topProductOf products)) (topProductsArray products entries) := by
  have hr : ∀ a b : TopProduct,
      (some (b.quantity - a.quantity) : JSNumber).getD 0 ≤ 0 ↔ b.quantity ≤ a.quantity := by
    intro a b
    simp only [Option.getD_some, sub_nonpos]
  haveI : IsTotal TopProduct
      (fun a b => (some (b.quantity - a.quantity) : JSNumber).getD 0 ≤ 0) :=
    ⟨fun a b => by rw [hr, hr]; exact le_total _ _⟩
  haveI : IsTrans TopProduct
      (fun a b => (some (b.quantity - a.quantity) : JSNumber).getD 0 ≤ 0) :=
    ⟨fun a b c hab hbc => by rw [hr] at *; exact le_trans hbc hab⟩
  have htop : topProductsArray products entries =
      ((entries.map (topProductOf products)).insertionSort
        (fun a b => (some (b.quantity - a.quantity) : JSNumber).getD 0 ≤ 0)).take 10 := rfl
  have hperm := List.perm_insertionSort
    (fun a b : TopProduct => (some (b.quantity - a.quantity) : JSNumber).getD 0 ≤ 0)
    (entries.map (topProductOf products))
  have hsorted := List.sorted_insertionSort
    (fun a b : TopProduct => (some (b.quantity - a.quantity) : JSNumber).getD 0 ≤ 0)
    (entries.map (topProductOf products))
  have hpair : ((entries.map (topProductOf products)).insertionSort
      (fun a b => (some (b.quantity - a.quantity) : JSNumber).getD 0 ≤ 0)).Pairwise
      (fun a b => b.quantity ≤ a.quantity) :=
    List.Pairwise.imp (fun {a b} hab => (hr a b).mp hab) hsorted
  have hstable : ∀ a b, List.Sublist [a, b] (entries.map (topProductOf products)) →
      a.quantity = b.quantity →
      List.Sublist [a, b] ((entries.map (topProductOf products)).insertionSort
        (fun a b => (some (b.quantity - a.quantity) : JSNumber).getD 0 ≤ 0)) := by
    intro a b hsub hq
    exact List.pair_sublist_insertionSort ((hr a b).mpr (le_of_eq hq.symm)) hsub
  have hsku : ((entries.map (topProductOf products)).map (·.sku)).Nodup := by
    rw [List.map_map]
    exact hkeys
  have hnodup : ((entries.map (topProductOf products)).insertionSort
      (fun a b => (some (b.quantity - a.quantity) : JSNumber).getD 0 ≤ 0)).Nodup :=
    hperm.nodup_iff.mpr (List.Nodup.of_map _ hsku)
  refine ⟨⟨_, hperm, hpair, hstable, htop⟩, ?_, ?_, ?_, ?_⟩
  · rw [htop]; exact List.length_take_le _ _
  · rw [htop]
    exact List.Nodup.sublist ((List.take_sublist _ _).map _)
      ((hperm.map _).nodup_iff.mpr hsku)
  · rw [htop]; exact hpair.sublist (List.take_sublist _ _)
  · intro a b hsub hq hb
    rw [htop] at hb ⊢
    exact pair_sublist_take _ hnodup 10 a b (hstable a b hsub hq) hb

theorem nodup_keys_soldPairs (items : List LineItem) :
    ((soldPairs items).map Prod.fst).Nodup := by
  unfold soldPairs
  rw [List.map_map]
  have hid : (Prod.fst ∘ fun sku => (sku, soldQuantity items sku)) = id := rfl
  rw [hid, List.map_id]
  exact nodup_firstOccurrences _

theorem resultRecord_top_products (cr : PurchaseData → Product → ℚ)
    (cb : ℤ → ℤ → SellerStat → JSNumber) (sellers : List (String × ℕ))
    (products : List (String × Product)) (j : ℕ) (records : List PurchaseRecord)
    (seller : Seller) (total i : ℕ) (x : SellerResult)
    (hx : x = resultRecord cb products total i
      (sellerFold cr sellers products j records (seedStat seller))) :
    x.seller_id = seller.id ∧
    x.top_products = topProductsArray products (soldPairs (soldItems sellers products j records)) ∧
    stableTopTen
      ((soldPairs (soldItems sellers products j records)).map (topProductOf products))
      x.top_products := by
  have htop : x.top_products =
      topProductsArray products (soldPairs (soldItems sellers products j records)) := by
    rw [hx, ← sellerFold_top_products cr sellers products j records seller]
    rfl
  refine ⟨?_, htop, ?_⟩
  · rw [hx]
    exact (sellerFold_fields cr sellers products j records (seedStat seller)).1
  · rw [htop]
    exact stableTopTen_topProductsArray products _ (nodup_keys_soldPairs _)

/-- Whenever `analyzeSalesData` accepts its input and returns, the
`top_products` of every result entry, and of every seller, is the first 10
entries of the stable descending-by-quantity sort of the pairs of SKU and
cumulative quantity of the line items that lines 139-140 counted for the
seller, taken in the order of each SKU's first counted line item.  The line
items counted are those of the records that resolve to the seller, with
distinct seller ids the records that carry its id, for which line 108 finds a
product, a member of `Object.prototype` included. -/
theorem top_products_of_seller (localeCompare : String → String → ℤ)
    (sellers : List Seller) (products : List Product) (purchase_records : List PurchaseRecord)
    (calculateRevenue : PurchaseData → Product → ℚ)
    (calculateBonus : ℤ → ℤ → SellerStat → JSNumber) (result : List SellerResult)
    (h : analyzeSalesData localeCompare
      (some { sellers := some sellers, products := some products,
              purchase_records := some purchase_records })
      (some { calculateRevenue := some calculateRevenue,
              calculateBonus := some calculateBonus })
      = .ok result) :
    (∀ x ∈ result, ∃ j seller, sellers[j]? = some seller ∧ x.seller_id = seller.id ∧
      stableTopTen
        ((soldPairs (soldItems (sellerIndex (sellerStats sellers)) (productIndex products) j
          purchase_records)).map (topProductOf (productIndex products)))
        x.top_products) ∧
    (∀ j seller, sellers[j]? = some seller → ∃ x ∈ result, x.seller_id = seller.id ∧
      stableTopTen
        ((soldPairs (soldItems (sellerIndex (sellerStats sellers)) (productIndex products) j
          purchase_records)).map (topProductOf (productIndex products)))
        x.top_products) ∧
    (∀ j seller, sellers[j]? = some seller → (sellers.map (·.id)).Nodup →
      soldItems (sellerIndex (sellerStats sellers)) (productIndex products) j purchase_records =
        ((purchase_records.filter fun r => r.seller_id = seller.id).flatMap (·.items)).filter
          fun item => getProperty (productIndex products) item.sku ≠ .absent) := by
  obtain ⟨_, _, _, hv⟩ := analyzeSalesData_eq_analyzeValid _ _ _ _ _ _ _ h
  obtain ⟨h1, h2⟩ := result_stats _ _ _ _ _ _ _ hv
  refine ⟨?_, ?_, ?_⟩
  · intro x hx
    obtain ⟨j, seller, i, hs, hi⟩ := h1 x hx
    obtain ⟨hid, _, htop⟩ := resultRecord_top_products _ _ _ _ _ _ _ _ _ x hi
    exact ⟨j, seller, hs, hid, htop⟩
  · intro j seller hs
    obtain ⟨x, hx, i, hi⟩ := h2 j seller hs
    obtain ⟨hid, _, htop⟩ := resultRecord_top_products _ _ _ _ _ _ _ _ _ x hi
    exact ⟨x, hx, hid, htop⟩
  · intro j seller hs hnd
    unfold soldItems
    rw [filter_own_eq sellers hnd purchase_records j seller hs]

/-! ## The quantities of the top products -/

theorem sum_values_mapSet (m : List (String × ℚ)) (key : String) (v : ℚ) :
    ((mapSet m key v).map Prod.snd).sum =
      (m.map Prod.snd).sum - (mapGet m key).getD 0 + v := by
  induction m with
  | nil => simp [mapSet, mapGet]
  | cons e rest ih =>
    obtain ⟨k, w⟩ := e
    by_cases hk : k = key
    · simp [mapSet, mapGet, hk]
      ring
    · simp only [mapSet, mapGet, if_neg hk, List.map_cons, List.sum_cons, ih]
      ring

theorem sum_values_foldl_countProduct (items : List LineItem) (m : List (String × ℚ)) :
    ((items.foldl countProduct m).map Prod.snd).sum =
      (m.map Prod.snd).sum + (items.map (·.quantity)).sum := by
  induction items generalizing m with
  | nil => simp
  | cons item rest ih =>
    rw [List.foldl_cons, ih]
    unfold countProduct
    rw [sum_values_mapSet]
    simp only [List.map_cons, List.sum_cons]
    ring

theorem sum_values_soldPairs (items : List LineItem) :
    ((soldPairs items).map Prod.snd).sum = (items.map (·.quantity)).sum := by
  rw [← foldl_countProduct, sum_values_foldl_countProduct]
  simp

theorem soldPairs_nonneg (items : List LineItem) (hq : ∀ item ∈ items, 0 ≤ item.quantity) :
    ∀ e ∈ soldPairs items, 0 ≤ e.2 := by
  intro e he
  unfold soldPairs at he
  obtain ⟨sku, _, rfl⟩ := List.mem_map.mp he
  unfold soldQuantity
  apply List.sum_nonneg
  intro q hq'
  obtain ⟨item, hitem, rfl⟩ := List.mem_map.mp hq'
  exact hq item (List.mem_filter.mp hitem).1

/-- The quantities of the first 10 entries add up to at most the quantities
of the `Map`, none of which is negative, and to as much when the `Map` has at
most 10 entries. -/
theorem sum_quantity_topProductsArray (products : List (String × Product))
    (entries : List (String × ℚ)) (hq : ∀ e ∈ entries, 0 ≤ e.2) :
    ((topProductsArray products entries).map (·.quantity)).sum ≤
      (entries.map Prod.snd).sum ∧
    (entries.length ≤ 10 →
      ((topProductsArray products entries).map (·.quantity)).sum =
        (entries.map Prod.snd).sum) := by
  have htop : topProductsArray products entries =
      ((entries.map (topProductOf products)).insertionSort
        (fun a b => (some (b.quantity - a.quantity) : JSNumber).getD 0 ≤ 0)).take 10 := rfl
  have hperm := List.perm_insertionSort
    (fun a b : TopProduct => (some (b.quantity - a.quantity) : JSNumber).getD 0 ≤ 0)
    (entries.map (topProductOf products))
  have hsum : ((((entries.map (topProductOf products)).insertionSort
      (fun a b => (some (b.quantity - a.quantity) : JSNumber).getD 0 ≤ 0))).map
        (·.quantity)).sum = (entries.map Prod.snd).sum := by
    rw [(hperm.map _).sum_eq, List.map_map]
    rfl
  have hsplit := List.take_append_drop 10 ((entries.map (topProductOf products)).insertionSort
      (fun a b => (some (b.quantity - a.quantity) : JSNumber).getD 0 ≤ 0))
  rw [← hsplit, List.map_append, List.sum_append] at hsum
  have hdrop : 0 ≤ (((((entries.map (topProductOf products)).insertionSort
      (fun a b => (some (b.quantity - a.quantity) : JSNumber).getD 0 ≤ 0))).drop 10).map
        (·.quantity)).sum := by
    apply List.sum_nonneg
    intro q hq'
    obtain ⟨t, ht, rfl⟩ := List.mem_map.mp hq'
    have ht' := hperm.mem_iff.mp (List.mem_of_mem_drop ht)
    obtain ⟨e, he, rfl⟩ := List.mem_map.mp ht'
    exact hq e he
  rw [htop]
  constructor
  · linarith
  · intro hlen
    have hnil : ((entries.map (topProductOf products)).insertionSort
        (fun a b => (some (b.quantity - a.quantity) : JSNumber).getD 0 ≤ 0)).drop 10 = [] := by
      apply List.drop_eq_nil_of_le
      rw [hperm.length_eq, List.length_map]
      exact hlen
    rw [hnil] at hsum
    simpa using hsum

/-- Line 108 finds a product for a SKU that is no property name of
`Object.prototype` exactly when the SKU is a catalog product's. -/
theorem getProperty_productIndex_ne_absent (products : List Product) (sku : String)
    (hplain : sku ∉ objectPrototypeKeys ∨ sku ∈ products.map (·.sku)) :
    getProperty (productIndex products) sku ≠ .absent ↔ sku ∈ products.map (·.sku) := by
  rw [Ne, getProperty_absent_iff, map_fst_productIndex]
  constructor
  · intro h
    by_contra hn
    rcases hplain with hp | hp
    · exact h ⟨hn, hp⟩
    · exact hn hp
  · intro h hn
    exact hn.1 h

/-- With distinct seller ids, non-negative quantities and no SKU outside the
catalog that is a property name of `Object.prototype`, the quantities of
`top_products` add up to at most the quantity the seller sold of catalog
products, and to as much when the seller sold at most 10 distinct catalog SKUs. -/
theorem top_products_quantity_of_plain_skus (localeCompare : String → String → ℤ)
    (sellers : List Seller) (products : List Product) (purchase_records : List PurchaseRecord)
    (calculateRevenue : PurchaseData → Product → ℚ)
    (calculateBonus : ℤ → ℤ → SellerStat → JSNumber) (result : List SellerResult)
    (h : analyzeSalesData localeCompare
      (some { sellers := some sellers, products := some products,
              purchase_records := some purchase_records })
      (some { calculateRevenue := some calculateRevenue,
              calculateBonus := some calculateBonus })
      = .ok result)
    (hid : (sellers.map (·.id)).Nodup)
    (hq : ∀ r ∈ purchase_records, ∀ item ∈ r.items, 0 ≤ item.quantity)
    (hplain : ∀ r ∈ purchase_records, ∀ item ∈ r.items,
      item.sku ∉ objectPrototypeKeys ∨ item.sku ∈ products.map (·.sku)) :
    ∀ x ∈ result,
      (x.top_products.map (·.quantity)).sum ≤
        catalogQuantity products purchase_records x.seller_id ∧
      ((firstOccurrences ((catalogItems products purchase_records x.seller_id).map
          (·.sku))).length ≤ 10 →
        (x.top_products.map (·.quantity)).sum =
          catalogQuantity products purchase_records x.seller_id) := by
  obtain ⟨_, _, _, hv⟩ := analyzeSalesData_eq_analyzeValid _ _ _ _ _ _ _ h
  obtain ⟨h1, _⟩ := result_stats _ _ _ _ _ _ _ hv
  intro x hx
  obtain ⟨j, seller, i, hs, hi⟩ := h1 x hx
  obtain ⟨hxid, htop, _⟩ := resultRecord_top_products _ _ _ _ _ _ _ _ _ x hi
  have hitems : soldItems (sellerIndex (sellerStats sellers)) (productIndex products) j
      purchase_records = catalogItems products purchase_records x.seller_id := by
    unfold soldItems catalogItems
    rw [filter_own_eq sellers hid purchase_records j seller hs, hxid]
    apply List.filter_congr
    intro item hitem
    obtain ⟨r, hr, hir⟩ := List.mem_flatMap.mp hitem
    have hiff := getProperty_productIndex_ne_absent products item.sku
      (hplain r (List.mem_filter.mp hr).1 item hir)
    by_cases hm : item.sku ∈ products.map (·.sku)
    · rw [decide_eq_true (hiff.mpr hm), decide_eq_true hm]
    · rw [decide_eq_false (fun hne => hm (hiff.mp hne)), decide_eq_false hm]
  rw [hitems] at htop
  have hnonneg : ∀ item ∈ catalogItems products purchase_records x.seller_id,
      0 ≤ item.quantity := by
    intro item hitem
    unfold catalogItems at hitem
    obtain ⟨r, hr, hir⟩ := List.mem_flatMap.mp (List.mem_filter.mp hitem).1
    exact hq r (List.mem_filter.mp hr).1 item hir
  obtain ⟨hle, heq⟩ := sum_quantity_topProductsArray (productIndex products)
    (soldPairs (catalogItems products purchase_records x.seller_id))
    (soldPairs_nonneg _ hnonneg)
  rw [sum_values_soldPairs] at hle heq
  rw [htop]
  refine ⟨hle, ?_⟩
  intro hlen
  apply heq
  unfold soldPairs
  rw [List.length_map]
  exact hlen

/-- C13 fails on the input `loneData [mixedRecord]`, with one seller and
non-negative quantities: the line item with the SKU `constructor`, which is in
no product, is counted, so the quantities of `top_products` add up to 2, while
the seller sold a quantity of 1 of catalog products. -/
theorem top_products_quantity_exceeds_catalog :
    analyzeSalesData codePointCompare (some (loneData [mixedRecord])) (some defaultOptions) =
      .ok mixedResult ∧
    (loneSeller.map (·.id)).Nodup ∧
    (∀ item ∈ mixedRecord.items, 0 ≤ item.quantity) ∧
    ∃ x ∈ mixedResult, x.seller_id = "seller_1" ∧
      (x.top_products.map (·.quantity)).sum = 2 ∧
      catalogQuantity loneProduct [mixedRecord] x.seller_id = 1 ∧
      ¬ (x.top_products.map (·.quantity)).sum ≤
        catalogQuantity loneProduct [mixedRecord] x.seller_id := by
  refine ⟨by decide!, by decide, by decide!, mixedResult.get ⟨0, by decide⟩, by decide, rfl,
    by decide!, by decide!, by decide!⟩

/-! ## The SKUs of the top products -/

theorem mem_soldPairs (items : List LineItem) (e : String × ℚ) (he : e ∈ soldPairs items) :
    ∃ item ∈ items, item.sku = e.1 := by
  unfold soldPairs at he
  obtain ⟨sku, hsku, rfl⟩ := List.mem_map.mp he
  obtain ⟨item, hitem, hk⟩ := List.mem_map.mp ((mem_firstOccurrences _ _).mp hsku)
  exact ⟨item, hitem, hk⟩

theorem mem_topProductsArray_eq (products : List (String × Product))
    (entries : List (String × ℚ)) (t : TopProduct)
    (ht : t ∈ topProductsArray products entries) :
    ∃ e ∈ entries, t = topProductOf products e := by
  unfold topProductsArray arraySort at ht
  have h1 := List.mem_of_mem_take ht
  rw [(List.perm_insertionSort _ _).mem_iff] at h1
  obtain ⟨entry, he, rfl⟩ := List.mem_map.mp h1
  exact ⟨entry, he, rfl⟩

/-- Every entry of `top_products` has a SKU for which line 108 found a
product: a catalog product, whose name and category are reported, the SKU and
the placeholder standing in for an empty one, or a member of
`Object.prototype`, reported under the placeholder category. -/
theorem top_products_sku_resolves (localeCompare : String → String → ℤ)
    (sellers : List Seller) (products : List Product) (purchase_records : List PurchaseRecord)
    (calculateRevenue : PurchaseData → Product → ℚ)
    (calculateBonus : ℤ → ℤ → SellerStat → JSNumber) (result : List SellerResult)
    (h : analyzeSalesData localeCompare
      (some { sellers := some sellers, products := some products,
              purchase_records := some purchase_records })
      (some { calculateRevenue := some calculateRevenue,
              calculateBonus := some calculateBonus })
      = .ok result) :
    ∀ x ∈ result, ∀ t ∈ x.top_products,
      (∃ product ∈ products, product.sku = t.sku ∧
        getProperty (productIndex products) t.sku = .own product ∧
        t.product_name = (if product.name = "" then t.sku else product.name) ∧
        t.category = (if product.category = "" then "Неизвестно" else product.category)) ∨
      (t.sku ∉ products.map (·.sku) ∧ t.sku ∈ objectPrototypeKeys ∧
        t.category = "Неизвестно") := by
  obtain ⟨_, _, _, hv⟩ := analyzeSalesData_eq_analyzeValid _ _ _ _ _ _ _ h
  obtain ⟨h1, _⟩ := result_stats _ _ _ _ _ _ _ hv
  intro x hx t ht
  obtain ⟨j, seller, i, hs, hi⟩ := h1 x hx
  obtain ⟨_, htop, _⟩ := resultRecord_top_products _ _ _ _ _ _ _ _ _ x hi
  rw [htop] at ht
  obtain ⟨e, he, rfl⟩ := mem_topProductsArray_eq _ _ t ht
  obtain ⟨item, hitem, hk⟩ := mem_soldPairs _ e he
  have hfound : getProperty (productIndex products) e.1 ≠ .absent := by
    rw [← hk]
    unfold soldItems at hitem
    simpa using (List.mem_filter.mp hitem).2
  cases hget : getProperty (productIndex products) e.1 with
  | absent => exact absurd hget hfound
  | own product =>
    left
    have hmem := mem_of_ownProperty _ _ _ ((getProperty_own_iff _ _ _).mp hget)
    unfold productIndex at hmem
    obtain ⟨p, hp, hpe⟩ := List.mem_map.mp hmem
    simp only [Prod.mk.injEq] at hpe
    obtain ⟨hsku, hpp⟩ := hpe
    subst hpp
    refine ⟨p, hp, hsku, hget, ?_, ?_⟩
    · simp only [topProductOf, productName, hget]
    · simp only [topProductOf, productCategory, hget]
  | inherited =>
    right
    have hown : ownProperty (productIndex products) e.1 = none := by
      cases ho : ownProperty (productIndex products) e.1 with
      | none => rfl
      | some v =>
        have := (getProperty_own_iff _ _ v).mpr ho
        rw [hget] at this
        cases this
    have hnot : e.1 ∉ products.map (·.sku) := by
      rw [← map_fst_productIndex]
      exact (ownProperty_eq_none _ _).mp hown
    refine ⟨hnot, ?_, ?_⟩
    · unfold getProperty at hget
      rw [hown] at hget
      by_contra hn
      have hn' : e.1 ∉ objectPrototypeKeys := hn
      rw [if_neg hn'] at hget
      cases hget
    · simp only [topProductOf, productCategory, hget]

/-- C19 fails on the input `loneData [mixedRecord]`: the second entry of the
seller's `top_products` has the SKU `constructor`, which is the SKU of no
product of `data.products`; it is reported with the name `Object` and the
placeholder category. -/
theorem top_products_sku_outside_catalog :
    analyzeSalesData codePointCompare (some (loneData [mixedRecord])) (some defaultOptions) =
      .ok mixedResult ∧
    ∃ x ∈ mixedResult, ∃ t ∈ x.top_products,
      t.sku = "constructor" ∧ t.sku ∉ loneProduct.map (·.sku) ∧
      t.product_name = "Object" ∧ t.category = "Неизвестно" := by
  refine ⟨by decide!, mixedResult.get ⟨0, by decide⟩, by decide,
    { sku := "constructor", quantity := 1, product_name := "Object", category := "Неизвестно" },
    by decide!, rfl, by decide, rfl, rfl⟩

/-! ## Lemmas: stats that agree up to the order of the `Map` entries -/

theorem soldQuantity_perm (items' items : List LineItem) (hperm : items'.Perm items)
    (sku : String) : soldQuantity items' sku = soldQuantity items sku := by
  unfold soldQuantity
  exact ((hperm.filter _).map _).sum_eq

theorem soldPairs_perm (items' items : List LineItem) (hperm : items'.Perm items) :
    (soldPairs items').Perm (soldPairs items) := by
  unfold soldPairs
  have hfun : (fun sku => (sku, soldQuantity items' sku)) =
      fun sku => (sku, soldQuantity items sku) := by
    funext sku
    rw [soldQuantity_perm items' items hperm]
  rw [hfun]
  apply List.Perm.map
  rw [List.perm_ext_iff_of_nodup (nodup_firstOccurrences _) (nodup_firstOccurrences _)]
  intro key
  rw [mem_firstOccurrences, mem_firstOccurrences]
  exact (hperm.map _).mem_iff

theorem soldItems_perm (sellers : List (String × ℕ)) (products : List (String × Product))
    (j : ℕ) (records' records : List PurchaseRecord) (hperm : records'.Perm records) :
    (soldItems sellers products j records').Perm (soldItems sellers products j records) := by
  unfold soldItems
  exact ((hperm.filter _).flatMap_right _).filter _

theorem compareSellers_congr (lc : String → String → ℤ) (a' a b' b : SellerStat)
    (ha : sameUpToMapOrder a' a) (hb : sameUpToMapOrder b' b) :
    compareSellers lc a' b' = compareSellers lc a b := by
  obtain ⟨_, a2, a3, a4, a5, _, _⟩ := ha
  obtain ⟨_, b2, b3, b4, b5, _, _⟩ := hb
  unfold compareSellers
  rw [a2, a3, a4, a5, b2, b3, b4, b5]

theorem forall₂_orderedInsert {α : Type} (R : α → α → Prop) (r : α → α → Prop)
    [DecidableRel r] (hr : ∀ a' a b' b, R a' a → R b' b → (r a' b' ↔ r a b))
    (a' a : α) (ha : R a' a) (l' l : List α) (hl : List.Forall₂ R l' l) :
    List.Forall₂ R (l'.orderedInsert r a') (l.orderedInsert r a) := by
  induction hl with
  | nil => exact List.Forall₂.cons ha List.Forall₂.nil
  | @cons b' b l' l hb hl ih =>
    simp only [List.orderedInsert]
    by_cases hab : r a b
    · rw [if_pos hab, if_pos ((hr a' a b' b ha hb).mpr hab)]
      exact List.Forall₂.cons ha (List.Forall₂.cons hb hl)
    · rw [if_neg hab, if_neg (fun h => hab ((hr a' a b' b ha hb).mp h))]
      exact List.Forall₂.cons hb ih

theorem forall₂_insertionSort {α : Type} (R : α → α → Prop) (r : α → α → Prop)
    [DecidableRel r] (hr : ∀ a' a b' b, R a' a → R b' b → (r a' b' ↔ r a b))
    (l' l : List α) (hl : List.Forall₂ R l' l) :
    List.Forall₂ R (l'.insertionSort r) (l.insertionSort r) := by
  induction hl with
  | nil => exact List.Forall₂.nil
  | @cons a' a l' l ha _ ih =>
    exact forall₂_orderedInsert R r hr a' a ha _ _ ih

theorem rankedStats_congr (lc : String → String → ℤ) (stats' stats : List SellerStat)
    (h : List.Forall₂ sameUpToMapOrder stats' stats) :
    List.Forall₂ sameUpToMapOrder (rankedStats lc stats') (rankedStats lc stats) := by
  unfold rankedStats arraySort
  apply forall₂_insertionSort _ _ _ _ _ h
  intro a' a b' b ha hb
  rw [compareSellers_congr lc a' a b' b ha hb]

/-- The quantities listed by lines 168-178 depend on the quantities of the
`Map` only, not on the order of its entries. -/
theorem topProductsArray_quantity_perm (products : List (String × Product))
    (m' m : List (String × ℚ)) (hperm : m'.Perm m) :
    (topProductsArray products m').map (·.quantity) =
      (topProductsArray products m).map (·.quantity) := by
  have hsort : ∀ entries : List (String × ℚ),
      (topProductsArray products entries).map (·.quantity) =
        ((entries.map Prod.snd).insertionSort (fun a b : ℚ => a ≥ b)).take 10 := by
    intro entries
    have htop : topProductsArray products entries =
        ((entries.map (topProductOf products)).insertionSort
          (fun a b => (some (b.quantity - a.quantity) : JSNumber).getD 0 ≤ 0)).take 10 := rfl
    rw [htop, List.map_take]
    have hmap := List.map_insertionSort
      (r := fun a b : TopProduct => (some (b.quantity - a.quantity) : JSNumber).getD 0 ≤ 0)
      (s := fun a b : ℚ => a ≥ b) (fun t : TopProduct => t.quantity)
      (entries.map (topProductOf products))
      (fun a _ b _ => by simp only [Option.getD_some, sub_nonpos, ge_iff_le])
    rw [hmap, List.map_map]
    rfl
  rw [hsort, hsort]
  congr 1
  apply List.eq_of_perm_of_sorted (r := fun a b : ℚ => a ≥ b)
  · exact (List.perm_insertionSort _ _).trans
      ((hperm.map _).trans (List.perm_insertionSort _ _).symm)
  · exact List.sorted_insertionSort _ _
  · exact List.sorted_insertionSort _ _

theorem topProductsArray_sorted (products : List (String × Product))
    (entries : List (String × ℚ)) :
    ∃ sorted : List TopProduct, sorted.Perm (entries.map (topProductOf products)) ∧
      sorted.Pairwise (fun a b => b.quantity ≤ a.quantity) ∧
      topProductsArray products entries = sorted.take 10 := by
  have hr : ∀ a b : TopProduct,
      (some (b.quantity - a.quantity) : JSNumber).getD 0 ≤ 0 ↔ b.quantity ≤ a.quantity := by
    intro a b
    simp only [Option.getD_some, sub_nonpos]
  haveI : IsTotal TopProduct
      (fun a b => (some (b.quantity - a.quantity) : JSNumber).getD 0 ≤ 0) :=
    ⟨fun a b => by rw [hr, hr]; exact le_total _ _⟩
  haveI : IsTrans TopProduct
      (fun a b => (some (b.quantity - a.quantity) : JSNumber).getD 0 ≤ 0) :=
    ⟨fun a b c hab hbc => by rw [hr] at *; exact le_trans hbc hab⟩
  refine ⟨(entries.map (topProductOf products)).insertionSort
    (fun a b => (some (b.quantity - a.quantity) : JSNumber).getD 0 ≤ 0),
    List.perm_insertionSort _ _, ?_, rfl⟩
  exact List.Pairwise.imp (fun {a b} hab => (hr a b).mp hab)
    (List.sorted_insertionSort
      (fun a b : TopProduct => (some (b.quantity - a.quantity) : JSNumber).getD 0 ≤ 0)
      (entries.map (topProductOf products)))

theorem resultsFrom_congr (cb : ℤ → ℤ → SellerStat → JSNumber)
    (hcb : ∀ (index total : ℤ) (st : SellerStat) (m : List (String × ℚ)),
      m.Perm st.top_products → cb index total { st with top_products := m } = cb index total st)
    (products : List (String × Product)) (total index : ℕ) (l' l : List SellerStat)
    (h : List.Forall₂ sameUpToMapOrder l' l) :
    List.Forall₂ sameRanking (resultsFrom cb products total index l')
      (resultsFrom cb products total index l) := by
  induction h generalizing index with
  | nil => exact List.Forall₂.nil
  | @cons a' a l' l ha _ ih =>
    simp only [resultsFrom]
    refine List.Forall₂.cons ?_ (ih (index + 1))
    obtain ⟨h1, h2, h3, h4, h5, h6, h7⟩ := ha
    have hst : a' = { a with top_products := a'.top_products } := by
      cases a'; cases a
      simp only [SellerStat.mk.injEq] at *
      exact ⟨h1, h2, h3, h4, h5, trivial, h6⟩
    have hbonus : cb index total a' = cb index total a := by
      rw [hst]
      exact hcb index total a _ h7
    unfold sameRanking resultRecord
    simp only [hbonus]
    obtain ⟨sorted', hp', hs', ht'⟩ := topProductsArray_sorted products a'.top_products
    obtain ⟨sorted, hp, hs, ht⟩ := topProductsArray_sorted products a.top_products
    exact ⟨h1, h2, by rw [h3], by rw [h4], h5, trivial,
      topProductsArray_quantity_perm products _ _ h7,
      sorted', sorted, hp'.trans ((h7.map _).trans hp.symm), hs', hs, ht', ht⟩

/-! ## The top products and the catalog -/

/-- With distinct seller ids, the line items counted for a seller are its line
items with a catalog SKU when no line item has a SKU that is outside the
catalog and a property name of `Object.prototype`. -/
theorem soldItems_eq_catalogItems (sellers : List Seller) (products : List Product)
    (purchase_records : List PurchaseRecord) (hid : (sellers.map (·.id)).Nodup)
    (hplain : ∀ r ∈ purchase_records, ∀ item ∈ r.items,
      item.sku ∉ objectPrototypeKeys ∨ item.sku ∈ products.map (·.sku))
    (j : ℕ) (seller : Seller) (hs : sellers[j]? = some seller) :
    soldItems (sellerIndex (sellerStats sellers)) (productIndex products) j purchase_records =
      catalogItems products purchase_records seller.id := by
  unfold soldItems catalogItems
  rw [filter_own_eq sellers hid purchase_records j seller hs]
  apply List.filter_congr
  intro item hitem
  obtain ⟨r, hr, hir⟩ := List.mem_flatMap.mp hitem
  have hiff := getProperty_productIndex_ne_absent products item.sku
    (hplain r (List.mem_filter.mp hr).1 item hir)
  by_cases hm : item.sku ∈ products.map (·.sku)
  · rw [decide_eq_true (hiff.mpr hm), decide_eq_true hm]
  · rw [decide_eq_false (fun hne => hm (hiff.mp hne)), decide_eq_false hm]

/-- With distinct seller ids and no SKU outside the catalog that is a property
name of `Object.prototype`, `top_products` is what the specification says: the
first 10 entries of the stable descending-by-quantity sort of the seller's
pairs of SKU and cumulative quantity, over its line items with a catalog SKU,
in the order of each SKU's first such line item; it has at most 10 entries, no
SKU twice, non-increasing quantities, and entries of equal quantity keep their
first-sale order. -/
theorem top_products_of_plain_skus (localeCompare : String → String → ℤ)
    (sellers : List Seller) (products : List Product) (purchase_records : List PurchaseRecord)
    (calculateRevenue : PurchaseData → Product → ℚ)
    (calculateBonus : ℤ → ℤ → SellerStat → JSNumber) (result : List SellerResult)
    (h : analyzeSalesData localeCompare
      (some { sellers := some sellers, products := some products,
              purchase_records := some purchase_records })
      (some { calculateRevenue := some calculateRevenue,
              calculateBonus := some calculateBonus })
      = .ok result)
    (hid : (sellers.map (·.id)).Nodup)
    (hplain : ∀ r ∈ purchase_records, ∀ item ∈ r.items,
      item.sku ∉ objectPrototypeKeys ∨ item.sku ∈ products.map (·.sku)) :
    (∀ x ∈ result,
      stableTopTen
        ((soldPairs (catalogItems products purchase_records x.seller_id)).map
          (topProductOf (productIndex products)))
        x.top_products) ∧
    (∀ s ∈ sellers, ∃ x ∈ result, x.seller_id = s.id) := by
  obtain ⟨hall, hex, _⟩ := top_products_of_seller localeCompare sellers products
    purchase_records calculateRevenue calculateBonus result h
  constructor
  · intro x hx
    obtain ⟨j, seller, hs, hxid, htop⟩ := hall x hx
    rw [soldItems_eq_catalogItems sellers products purchase_records hid hplain j seller hs,
      ← hxid] at htop
    exact htop
  · intro s hs
    obtain ⟨j, hj⟩ := List.mem_iff_getElem?.mp hs
    obtain ⟨x, hx, hxid, _⟩ := hex j s hj
    exact ⟨x, hx, hxid⟩

/-- C12 fails on the input `loneData [mixedRecord]`: the seller's only valid
sale is one unit of `SKU_001`, so the pairs of SKU and cumulative quantity are
`[(SKU_001, 1)]`, but `top_products`, in exact and in double arithmetic alike,
lists the SKUs `SKU_001` and `constructor`; it is not the first 10 entries of a
sort of those pairs. -/
theorem top_products_counts_inherited_key :
    analyzeSalesData codePointCompare (some (loneData [mixedRecord])) (some defaultOptions) =
      .ok mixedResult ∧
    analyzeSalesDataRounded roundToDouble codePointCompare (some (loneData [mixedRecord]))
      (some (defaultOptionsRounded roundToDouble)) = .ok mixedResult ∧
    ∃ x ∈ mixedResult, x.seller_id = "seller_1" ∧
      soldPairs (catalogItems loneProduct [mixedRecord] x.seller_id) = [("SKU_001", 1)] ∧
      x.top_products.map (·.sku) = ["SKU_001", "constructor"] ∧
      ¬ stableTopTen
        ((soldPairs (catalogItems loneProduct [mixedRecord] x.seller_id)).map
          (topProductOf (productIndex loneProduct)))
        x.top_products := by
  have hpairs : soldPairs (catalogItems loneProduct [mixedRecord] "seller_1") =
      [("SKU_001", 1)] := by decide!
  refine ⟨by decide!, by decide!, mixedResult.get ⟨0, by decide⟩, by decide, rfl, hpairs, rfl,
    ?_⟩
  rintro ⟨⟨sorted, hperm, _, _, htop⟩, _⟩
  have hlen := congrArg List.length htop
  have hsorted : sorted.length = 1 := by
    rw [hperm.length_eq, List.length_map]
    exact congrArg List.length hpairs
  rw [List.length_take, hsorted] at hlen
  exact absurd hlen (by decide)

/-! ## Double arithmetic: lemmas -/

theorem addItemRounded_fields (round : ℚ → ℚ) (cr : PurchaseData → Product → ℚ)
    (products : List (String × Product)) (st : SellerStat) (item : LineItem) :
    (addItemRounded round cr products st item).id = st.id ∧
    (addItemRounded round cr products st item).name = st.name ∧
    (addItemRounded round cr products st item).revenue = st.revenue ∧
    (addItemRounded round cr products st item).sales_count = st.sales_count ∧
    (addItemRounded round cr products st item).bonus = st.bonus := by
  unfold addItemRounded
  cases getProperty products item.sku <;> simp

theorem foldl_addItemRounded_fields (round : ℚ → ℚ) (cr : PurchaseData → Product → ℚ)
    (products : List (String × Product)) (items : List LineItem) (st : SellerStat) :
    (items.foldl (addItemRounded round cr products) st).id = st.id ∧
    (items.foldl (addItemRounded round cr products) st).name = st.name ∧
    (items.foldl (addItemRounded round cr products) st).revenue = st.revenue ∧
    (items.foldl (addItemRounded round cr products) st).sales_count = st.sales_count ∧
    (items.foldl (addItemRounded round cr products) st).bonus = st.bonus := by
  induction items generalizing st with
  | nil => simp
  | cons item rest ih =>
    obtain ⟨h1, h2, h3, h4, h5⟩ := addItemRounded_fields round cr products st item
    obtain ⟨i1, i2, i3, i4, i5⟩ := ih (addItemRounded round cr products st item)
    simp only [List.foldl_cons]
    exact ⟨i1.trans h1, i2.trans h2, i3.trans h3, i4.trans h4, i5.trans h5⟩

theorem addSaleRounded_fields (round : ℚ → ℚ) (cr : PurchaseData → Product → ℚ)
    (products : List (String × Product)) (record : PurchaseRecord) (st : SellerStat) :
    (addSaleRounded round cr products record st).id = st.id ∧
    (addSaleRounded round cr products record st).name = st.name ∧
    (addSaleRounded round cr products record st).revenue =
      round (st.revenue + record.total_amount) ∧
    (addSaleRounded round cr products record st).sales_count = st.sales_count + 1 ∧
    (addSaleRounded round cr products record st).bonus = st.bonus := by
  unfold addSaleRounded
  obtain ⟨h1, h2, h3, h4, h5⟩ := foldl_addItemRounded_fields round cr products record.items
    { st with sales_count := st.sales_count + 1,
              revenue := round (st.revenue + record.total_amount) }
  exact ⟨h1, h2, h3, h4, h5⟩

theorem processRecordRounded_ok (round : ℚ → ℚ) (cr : PurchaseData → Product → ℚ)
    (sellers : List (String × ℕ)) (products : List (String × Product))
    (stats stats' : List SellerStat) (record : PurchaseRecord)
    (h : processRecordRounded round cr sellers products stats record = .ok stats') :
    stats' = match getProperty sellers record.seller_id with
      | .own seller => modifyAt (addSaleRounded round cr products record) seller stats
      | _ => stats := by
  unfold processRecordRounded at h
  cases hl : getProperty sellers record.seller_id with
  | own seller => rw [hl] at h; simp only [Except.ok.injEq] at h; simp [h]
  | absent => rw [hl] at h; simp only [Except.ok.injEq] at h; simp [h]
  | inherited =>
    rw [hl] at h
    cases hi : addItemsInherited products record.items with
    | ok u => rw [hi] at h; simp only [Except.ok.injEq] at h; simp [h]
    | error e => rw [hi] at h; simp at h

theorem sellerFoldRounded_cons (round : ℚ → ℚ) (cr : PurchaseData → Product → ℚ)
    (sellers : List (String × ℕ)) (products : List (String × Product)) (j : ℕ)
    (record : PurchaseRecord) (rest : List PurchaseRecord) (st : SellerStat) :
    sellerFoldRounded round cr sellers products j (record :: rest) st =
      sellerFoldRounded round cr sellers products j rest
        (if getProperty sellers record.seller_id = .own j then
          addSaleRounded round cr products record st else st) := rfl

theorem accumulateRounded_getElem? (round : ℚ → ℚ) (cr : PurchaseData → Product → ℚ)
    (sellers : List (String × ℕ)) (products : List (String × Product))
    (records : List PurchaseRecord) (stats stats' : List SellerStat)
    (h : accumulateRounded round cr sellers products stats records = .ok stats') (j : ℕ) :
    stats'[j]? = (stats[j]?).map (sellerFoldRounded round cr sellers products j records) := by
  induction records generalizing stats with
  | nil =>
    simp only [accumulateRounded, Except.ok.injEq] at h
    subst h
    cases stats[j]? <;> simp [sellerFoldRounded]
  | cons record rest ih =>
    simp only [accumulateRounded] at h
    cases hp : processRecordRounded round cr sellers products stats record with
    | error e => rw [hp] at h; simp at h
    | ok stats1 =>
      rw [hp] at h
      have h1 := processRecordRounded_ok round cr sellers products stats stats1 record hp
      rw [ih stats1 h, h1]
      cases hl : getProperty sellers record.seller_id with
      | own seller =>
        simp only
        rw [getElem?_modifyAt]
        by_cases hj : j = seller
        · subst hj
          simp only [if_true, Option.map_map]
          congr 1
          funext st
          simp [sellerFoldRounded_cons, hl]
        · have hne : (Lookup.own seller : Lookup ℕ) ≠ Lookup.own j := by
            intro he; injection he with he; exact hj he.symm
          simp only [if_neg hj]
          congr 1
          funext st
          simp [sellerFoldRounded_cons, hl, hne]
      | absent =>
        simp only
        congr 1
        funext st
        simp [sellerFoldRounded_cons, hl]
      | inherited =>
        simp only
        congr 1
        funext st
        simp [sellerFoldRounded_cons, hl]

theorem sellerFoldRounded_eq_foldl_filter (round : ℚ → ℚ) (cr : PurchaseData → Product → ℚ)
    (sellers : List (String × ℕ)) (products : List (String × Product)) (j : ℕ)
    (records : List PurchaseRecord) (st : SellerStat) :
    sellerFoldRounded round cr sellers products j records st =
      (records.filter fun r => getProperty sellers r.seller_id = .own j).foldl
        (fun st r => addSaleRounded round cr products r st) st := by
  induction records generalizing st with
  | nil => rfl
  | cons record rest ih =>
    rw [sellerFoldRounded_cons, ih]
    by_cases hl : getProperty sellers record.seller_id = .own j
    · simp [hl, List.filter_cons]
    · simp [hl, List.filter_cons]

/-- What the records of a seller add up to in rounded arithmetic: the
`sales_count` grows by their number, the revenue is their `total_amount`s added
one by one, in order, each sum rounded. -/
theorem foldl_addSaleRounded_fields (round : ℚ → ℚ) (cr : PurchaseData → Product → ℚ)
    (products : List (String × Product)) (records : List PurchaseRecord) (st : SellerStat) :
    (records.foldl (fun st r => addSaleRounded round cr products r st) st).id = st.id ∧
    (records.foldl (fun st r => addSaleRounded round cr products r st) st).name = st.name ∧
    (records.foldl (fun st r => addSaleRounded round cr products r st) st).sales_count =
      st.sales_count + records.length ∧
    (records.foldl (fun st r => addSaleRounded round cr products r st) st).revenue =
      (records.map (·.total_amount)).foldl (fun sum amount => round (sum + amount))
        st.revenue := by
  induction records generalizing st with
  | nil => simp
  | cons record rest ih =>
    obtain ⟨h1, h2, h3, h4, _⟩ := addSaleRounded_fields round cr products record st
    obtain ⟨i1, i2, i3, i4⟩ := ih (addSaleRounded round cr products record st)
    simp only [List.foldl_cons, List.map_cons, List.length_cons]
    refine ⟨i1.trans h1, i2.trans h2, ?_, ?_⟩
    · rw [i3, h4]; omega
    · rw [i4, h3]

theorem analyzeSalesDataRounded_eq_analyzeValid (round : ℚ → ℚ) (lc : String → String → ℤ)
    (sellers : List Seller) (products : List Product) (records : List PurchaseRecord)
    (cr : PurchaseData → Product → ℚ) (cb : ℤ → ℤ → SellerStat → JSNumber)
    (result : List SellerResult)
    (h : analyzeSalesDataRounded round lc
      (some { sellers := some sellers, products := some products,
              purchase_records := some records })
      (some { calculateRevenue := some cr, calculateBonus := some cb }) = .ok result) :
    sellers ≠ [] ∧ products ≠ [] ∧ records ≠ [] ∧
    analyzeValidRounded round lc cr cb sellers products records = .ok result := by
  simp only [analyzeSalesDataRounded] at h
  split at h
  · simp at h
  · rename_i hne
    simp only [not_or, List.length_eq_zero] at hne
    exact ⟨hne.1, hne.2.1, hne.2.2, h⟩

theorem analyzeValidRounded_ok (round : ℚ → ℚ) (lc : String → String → ℤ)
    (cr : PurchaseData → Product → ℚ) (cb : ℤ → ℤ → SellerStat → JSNumber)
    (sellers : List Seller) (products : List Product) (records : List PurchaseRecord)
    (result : List SellerResult)
    (h : analyzeValidRounded round lc cr cb sellers products records = .ok result) :
    ∃ stats, accumulatedStatsRounded round cr sellers products records = .ok stats ∧
      result = resultsFrom cb (productIndex products) (rankedStats lc stats).length 0
        (rankedStats lc stats) := by
  unfold analyzeValidRounded at h
  cases ha : accumulatedStatsRounded round cr sellers products records with
  | error e => rw [ha] at h; simp at h
  | ok stats =>
    rw [ha] at h
    simp only [Except.ok.injEq] at h
    exact ⟨stats, rfl, h.symm⟩

theorem accumulatedStatsRounded_getElem? (round : ℚ → ℚ) (cr : PurchaseData → Product → ℚ)
    (sellers : List Seller) (products : List Product) (records : List PurchaseRecord)
    (stats : List SellerStat)
    (h : accumulatedStatsRounded round cr sellers products records = .ok stats) (j : ℕ) :
    stats[j]? = (sellers[j]?).map fun seller =>
      sellerFoldRounded round cr (sellerIndex (sellerStats sellers)) (productIndex products) j
        records (seedStat seller) := by
  unfold accumulatedStatsRounded at h
  rw [accumulateRounded_getElem? round cr _ _ records _ stats h j]
  simp [sellerStats, Function.comp_def]

/-- The accumulated stat, in rounded arithmetic, of every returned record and
of every seller. -/
theorem result_stats_rounded (round : ℚ → ℚ) (lc : String → String → ℤ)
    (cr : PurchaseData → Product → ℚ) (cb : ℤ → ℤ → SellerStat → JSNumber)
    (sellers : List Seller) (products : List Product) (records : List PurchaseRecord)
    (result : List SellerResult)
    (h : analyzeValidRounded round lc cr cb sellers products records = .ok result) :
    (∀ x ∈ result, ∃ j seller i total, sellers[j]? = some seller ∧
      x = resultRecord cb (productIndex products) total i
        (sellerFoldRounded round cr (sellerIndex (sellerStats sellers)) (productIndex products)
          j records (seedStat seller))) ∧
    (∀ j seller, sellers[j]? = some seller → ∃ x ∈ result, ∃ i total,
      x = resultRecord cb (productIndex products) total i
        (sellerFoldRounded round cr (sellerIndex (sellerStats sellers)) (productIndex products)
          j records (seedStat seller))) := by
  obtain ⟨stats, hacc, hres⟩ := analyzeValidRounded_ok round lc cr cb sellers products records
    result h
  constructor
  · intro x hx
    rw [hres] at hx
    obtain ⟨st, hst, i, hi⟩ := mem_resultsFrom cb _ _ _ _ x hx
    have hst' : st ∈ stats := (rankedStats_perm lc stats).mem_iff.mp hst
    obtain ⟨j, hj⟩ := List.mem_iff_getElem?.mp hst'
    rw [accumulatedStatsRounded_getElem? round cr _ _ _ _ hacc j] at hj
    cases hs : sellers[j]? with
    | none => rw [hs] at hj; simp at hj
    | some seller =>
      rw [hs] at hj
      simp only [Option.map_some', Option.some.injEq] at hj
      exact ⟨j, seller, i, _, hs, by rw [hi, ← hj]⟩
  · intro j seller hs
    have hj := accumulatedStatsRounded_getElem? round cr _ _ _ _ hacc j
    rw [hs] at hj
    simp only [Option.map_some'] at hj
    have hst : _ ∈ stats := List.mem_iff_getElem?.mpr ⟨j, hj⟩
    have hst' := (rankedStats_perm lc stats).mem_iff.mpr hst
    obtain ⟨x, hx, i, hi⟩ := exists_resultsFrom cb (productIndex products)
      (rankedStats lc stats).length 0 _ _ hst'
    exact ⟨x, by rw [hres]; exact hx, i, _, hi⟩

theorem addItemRounded_profit_own (round : ℚ → ℚ) (cr : PurchaseData → Product → ℚ)
    (products : List Product) (hsku : (products.map (·.sku)).Nodup) (st : SellerStat)
    (item : LineItem) (hm : item.sku ∈ products.map (·.sku)) (p : ℚ)
    (hp : st.profit = some p) :
    (addItemRounded round cr (productIndex products) st item).profit =
      some (round (p + lineItemProfitRounded round cr products item)) := by
  obtain ⟨product, hget, hfind⟩ := productIndex_own_of_mem products hsku item.sku hm
  simp [addItemRounded, hget, lineItemProfitRounded, hfind, hp, jsAdd]

theorem foldl_addItemRounded_profit (round : ℚ → ℚ) (cr : PurchaseData → Product → ℚ)
    (products : List Product) (hsku : (products.map (·.sku)).Nodup) (items : List LineItem)
    (st : SellerStat) (hm : ∀ item ∈ items, item.sku ∈ products.map (·.sku)) (p : ℚ)
    (hp : st.profit = some p) :
    (items.foldl (addItemRounded round cr (productIndex products)) st).profit =
      some (items.foldl
        (fun sum item => round (sum + lineItemProfitRounded round cr products item)) p) := by
  induction items generalizing st p with
  | nil => exact hp
  | cons item rest ih =>
    simp only [List.foldl_cons]
    exact ih _ (fun it hit => hm it (List.mem_cons_of_mem _ hit)) _
      (addItemRounded_profit_own round cr products hsku st item
        (hm item (List.mem_cons_self _ _)) p hp)

/-- What the line items of a seller's records add up to in rounded arithmetic
when each has a catalog SKU: the profits of the items are added one by one, in
the order of the records and of the items, each sum rounded. -/
theorem foldl_addSaleRounded_profit (round : ℚ → ℚ) (cr : PurchaseData → Product → ℚ)
    (products : List Product) (hsku : (products.map (·.sku)).Nodup)
    (records : List PurchaseRecord) (st : SellerStat)
    (hm : ∀ r ∈ records, ∀ item ∈ r.items, item.sku ∈ products.map (·.sku)) (p : ℚ)
    (hp : st.profit = some p) :
    (records.foldl (fun st r => addSaleRounded round cr (productIndex products) r st)
      st).profit =
      some ((records.flatMap (·.items)).foldl
        (fun sum item => round (sum + lineItemProfitRounded round cr products item)) p) := by
  induction records generalizing st p with
  | nil => exact hp
  | cons record rest ih =>
    simp only [List.foldl_cons, List.flatMap_cons, List.foldl_append]
    apply ih _ (fun r hr => hm r (List.mem_cons_of_mem _ hr))
    unfold addSaleRounded
    exact foldl_addItemRounded_profit round cr products hsku record.items _
      (hm record (List.mem_cons_self _ _)) p hp

/-! ## Sales count, revenue and profit of a seller -/

/-- C3, as stated, fails: the code adds doubles.  On two records of one seller
whose `total_amount`s are the doubles that `0.12` and `0.005` denote, the
revenue returned is 0.13, while their sum is below 0.125 and is 0.12 when
rounded to 2 decimals; on the `total_amount`s `2 ^ 53` and 1 the revenue
returned is `2 ^ 53`, not their sum. -/
theorem revenue_is_not_the_sum_counterexample :
    analyzeSalesDataRounded roundToDouble codePointCompare (some (loneData centRecords))
      (some (defaultOptionsRounded roundToDouble)) = .ok centResult ∧
    centResult.map (·.revenue) = [13 / 100] ∧
    toFixed2 ((centRecords.filter fun r => r.seller_id = "seller_1").map
      (·.total_amount)).sum = 12 / 100 ∧
    analyzeSalesDataRounded roundToDouble codePointCompare (some (loneData largeRecords))
      (some (defaultOptionsRounded roundToDouble)) = .ok largeResult ∧
    largeResult.map (·.revenue) = [9007199254740992] ∧
    toFixed2 ((largeRecords.filter fun r => r.seller_id = "seller_1").map
      (·.total_amount)).sum = 9007199254740993 := by
  refine ⟨by decide!, rfl, by decide!, by decide!, rfl, by decide!⟩

/-- C3, amended. In the arithmetic of the code, where every sum is rounded
(to the nearest double): whenever `analyzeSalesData` accepts its input and
returns, and the seller ids are pairwise distinct, every seller `s` has an
entry, and the entry of `s` has as `sales_count` the number of purchase records
with `seller_id = s.id` and as `revenue`, rounded to 2 decimals, what their
`total_amount`s add up to when they are added to 0 one by one, in the order of
`data.purchase_records`, each sum rounded; the line items of the records play
no part.  Over exact arithmetic (`round` the identity) this is their sum. -/
theorem sales_count_and_revenue_of_seller (round : ℚ → ℚ)
    (localeCompare : String → String → ℤ)
    (sellers : List Seller) (products : List Product) (purchase_records : List PurchaseRecord)
    (calculateRevenue : PurchaseData → Product → ℚ)
    (calculateBonus : ℤ → ℤ → SellerStat → JSNumber) (result : List SellerResult)
    (h : analyzeSalesDataRounded round localeCompare
      (some { sellers := some sellers, products := some products,
              purchase_records := some purchase_records })
      (some { calculateRevenue := some calculateRevenue, calculateBonus := some calculateBonus })
      = .ok result)
    (hid : (sellers.map (·.id)).Nodup) (s : Seller) (hs : s ∈ sellers) :
    (∃ x ∈ result, x.seller_id = s.id) ∧
    ∀ x ∈ result, x.seller_id = s.id →
      x.sales_count = (purchase_records.filter fun r => r.seller_id = s.id).length ∧
      x.revenue =
        toFixed2 (((purchase_records.filter fun r => r.seller_id = s.id).map
          (·.total_amount)).foldl (fun sum amount => round (sum + amount)) 0) := by
  obtain ⟨_, _, _, hv⟩ := analyzeSalesDataRounded_eq_analyzeValid _ _ _ _ _ _ _ _ h
  obtain ⟨hall, hex⟩ := result_stats_rounded _ _ _ _ _ _ _ _ hv
  constructor
  · obtain ⟨j, hj⟩ := List.mem_iff_getElem?.mp hs
    obtain ⟨x, hx, i, total, hi⟩ := hex j s hj
    refine ⟨x, hx, ?_⟩
    rw [hi, sellerFoldRounded_eq_foldl_filter]
    exact (foldl_addSaleRounded_fields round _ _ _ (seedStat s)).1
  · intro x hx hxs
    obtain ⟨j, seller, i, total, hj, hi⟩ := hall x hx
    rw [sellerFoldRounded_eq_foldl_filter,
      filter_own_eq sellers hid purchase_records j seller hj] at hi
    obtain ⟨f1, _, f3, f4⟩ := foldl_addSaleRounded_fields round calculateRevenue
      (productIndex products) (purchase_records.filter fun r => r.seller_id = seller.id)
      (seedStat seller)
    have hsid : seller.id = s.id := by
      rw [← hxs, hi]
      exact f1.symm
    rw [hsid] at hi f3 f4
    rw [hi]
    constructor
    · show (List.foldl _ (seedStat seller) _).sales_count = _
      rw [f3]; simp [seedStat]
    · show toFixed2 (List.foldl _ (seedStat seller) _).revenue = _
      rw [f4]; rfl

/-- C3, amended, in double arithmetic at the two records with the
`total_amount`s `0.12` and `0.005`, which add up to the double `0.125`. -/
theorem sales_count_and_revenue_of_seller_witness :
    analyzeSalesDataRounded roundToDouble codePointCompare (some (loneData centRecords))
      (some (defaultOptionsRounded roundToDouble)) = .ok centResult ∧
    (loneSeller.map (·.id)).Nodup ∧
    ((centRecords.filter fun r => r.seller_id = "seller_1").map
      (·.total_amount)).foldl (fun sum amount => roundToDouble (sum + amount)) 0 = 1 / 8 ∧
    (∃ x ∈ centResult, x.seller_id = "seller_1") ∧
    ∀ x ∈ centResult, x.seller_id = "seller_1" →
      x.sales_count = (centRecords.filter fun r => r.seller_id = "seller_1").length ∧
      x.revenue =
        toFixed2 (((centRecords.filter fun r => r.seller_id = "seller_1").map
          (·.total_amount)).foldl (fun sum amount => roundToDouble (sum + amount)) 0) :=
  ⟨by decide!, by decide, by decide!,
   sales_count_and_revenue_of_seller roundToDouble codePointCompare loneSeller loneProduct
     centRecords (calculateSimpleRevenueRounded roundToDouble)
     (calculateBonusByProfitRounded roundToDouble) centResult (by decide!) (by decide)
     { id := "seller_1", first_name := "Alexey", last_name := "Petrov" } (by decide)⟩

/-- C4, as stated, fails: the code adds doubles.  On one record with two line
items of a product bought at 0, sold at the doubles that `0.12` and `0.005`
denote, the profit returned is 0.13, while the sum over the line items of the
strategy's revenue minus `purchase_price * quantity` is below 0.125 and is 0.12
when rounded to 2 decimals. -/
theorem profit_is_not_the_sum_counterexample :
    analyzeSalesDataRounded roundToDouble codePointCompare
      (some (freeProductData centItemRecords))
      (some (defaultOptionsRounded roundToDouble)) = .ok centItemResult ∧
    centItemResult.map (·.profit) = [some (13 / 100)] ∧
    (loneSeller.map (·.id)).Nodup ∧ (roundingProducts.map (·.sku)).Nodup ∧
    (∀ r ∈ centItemRecords, ∀ item ∈ r.items, item.sku ∈ roundingProducts.map (·.sku)) ∧
    toFixed2 ((centItemRecords.filter fun r => r.seller_id = "seller_1").map fun r =>
      (r.items.map (lineItemProfit (calculateSimpleRevenueRounded roundToDouble)
        roundingProducts)).sum).sum = 12 / 100 := by
  refine ⟨by decide!, rfl, by decide, by decide, by decide, by decide!⟩

/-- C4, amended. In the arithmetic of the code, where the result of every
operation is rounded (to the nearest double): whenever `analyzeSalesData`
accepts its input and returns, the seller ids are pairwise distinct and so are
the SKUs, the entry of a seller `s` all of whose line items reference catalog
SKUs has as `profit`, rounded to 2 decimals, what the line items of the
purchase records of `s` add up to when, in the order of the records and of
their items, each counted once, the strategy's revenue for the item and its
product minus `purchase_price * quantity` is added to a sum that starts at 0.
Over exact arithmetic (`round` the identity) this is the sum of the claim. -/
theorem profit_of_seller (round : ℚ → ℚ) (localeCompare : String → String → ℤ)
    (sellers : List Seller) (products : List Product) (purchase_records : List PurchaseRecord)
    (calculateRevenue : PurchaseData → Product → ℚ)
    (calculateBonus : ℤ → ℤ → SellerStat → JSNumber) (result : List SellerResult)
    (h : analyzeSalesDataRounded round localeCompare
      (some { sellers := some sellers, products := some products,
              purchase_records := some purchase_records })
      (some { calculateRevenue := some calculateRevenue, calculateBonus := some calculateBonus })
      = .ok result)
    (hid : (sellers.map (·.id)).Nodup) (hsku : (products.map (·.sku)).Nodup)
    (s : Seller) (hs : s ∈ sellers)
    (hknown : ∀ r ∈ purchase_records, r.seller_id = s.id →
      ∀ item ∈ r.items, item.sku ∈ products.map (·.sku)) :
    (∃ x ∈ result, x.seller_id = s.id) ∧
    ∀ x ∈ result, x.seller_id = s.id →
      x.profit = some (toFixed2
        (((purchase_records.filter fun r => r.seller_id = s.id).flatMap (·.items)).foldl
          (fun sum item =>
            round (sum + lineItemProfitRounded round calculateRevenue products item)) 0)) := by
  obtain ⟨_, _, _, hv⟩ := analyzeSalesDataRounded_eq_analyzeValid _ _ _ _ _ _ _ _ h
  obtain ⟨hall, hex⟩ := result_stats_rounded _ _ _ _ _ _ _ _ hv
  constructor
  · obtain ⟨j, hj⟩ := List.mem_iff_getElem?.mp hs
    obtain ⟨x, hx, i, total, hi⟩ := hex j s hj
    refine ⟨x, hx, ?_⟩
    rw [hi, sellerFoldRounded_eq_foldl_filter]
    exact (foldl_addSaleRounded_fields round _ _ _ (seedStat s)).1
  · intro x hx hxs
    obtain ⟨j, seller, i, total, hj, hi⟩ := hall x hx
    rw [sellerFoldRounded_eq_foldl_filter,
      filter_own_eq sellers hid purchase_records j seller hj] at hi
    have f1 := (foldl_addSaleRounded_fields round calculateRevenue
      (productIndex products) (purchase_records.filter fun r => r.seller_id = seller.id)
      (seedStat seller)).1
    have hsid : seller.id = s.id := by
      rw [← hxs, hi]
      exact f1.symm
    rw [hsid] at hi
    have hprofit := foldl_addSaleRounded_profit round calculateRevenue products hsku
      (purchase_records.filter fun r => r.seller_id = s.id) (seedStat seller)
      (by
        intro r hr item hitem
        have hr' := List.mem_filter.mp hr
        exact hknown r hr'.1 (by simpa using hr'.2) item hitem)
      0 rfl
    rw [hi]
    show jsToFixed2 (List.foldl _ (seedStat seller) _).profit = _
    rw [hprofit]
    rfl

/-- C4, amended, in double arithmetic at the record with two line items sold
at `0.12` and `0.005`, whose profits add up to the double `0.125`. -/
theorem profit_of_seller_witness :
    analyzeSalesDataRounded roundToDouble codePointCompare
      (some (freeProductData centItemRecords))
      (some (defaultOptionsRounded roundToDouble)) = .ok centItemResult ∧
    (loneSeller.map (·.id)).Nodup ∧ (roundingProducts.map (·.sku)).Nodup ∧
    (∀ r ∈ centItemRecords, r.seller_id = "seller_1" →
      ∀ item ∈ r.items, item.sku ∈ roundingProducts.map (·.sku)) ∧
    ((centItemRecords.filter fun r => r.seller_id = "seller_1").flatMap (·.items)).foldl
      (fun sum item => roundToDouble (sum + lineItemProfitRounded roundToDouble
        (calculateSimpleRevenueRounded roundToDouble) roundingProducts item)) 0 = 1 / 8 ∧
    (∃ x ∈ centItemResult, x.seller_id = "seller_1") ∧
    ∀ x ∈ centItemResult, x.seller_id = "seller_1" →
      x.profit = some (toFixed2
        (((centItemRecords.filter fun r => r.seller_id = "seller_1").flatMap (·.items)).foldl
          (fun sum item => roundToDouble (sum + lineItemProfitRounded roundToDouble
            (calculateSimpleRevenueRounded roundToDouble) roundingProducts item)) 0)) :=
  ⟨by decide!, by decide, by decide, by decide, by decide!,
   profit_of_seller roundToDouble codePointCompare loneSeller roundingProducts
     centItemRecords (calculateSimpleRevenueRounded roundToDouble)
     (calculateBonusByProfitRounded roundToDouble) centItemResult (by decide!) (by decide)
     (by decide) { id := "seller_1", first_name := "Alexey", last_name := "Petrov" }
     (by decide) (by decide)⟩

/-! ## Double arithmetic and exact arithmetic -/

theorem addItemRounded_id (cr : PurchaseData → Product → ℚ)
    (products : List (String × Product)) :
    addItemRounded id cr products = addItem cr products := by
  funext st item
  unfold addItemRounded addItem countProductRounded countProduct
  cases getProperty products item.sku <;> simp

theorem addSaleRounded_id (cr : PurchaseData → Product → ℚ)
    (products : List (String × Product)) :
    addSaleRounded id cr products = addSale cr products := by
  funext record st
  unfold addSaleRounded addSale
  rw [addItemRounded_id]
  rfl

theorem accumulateRounded_id (cr : PurchaseData → Product → ℚ)
    (sellers : List (String × ℕ)) (products : List (String × Product))
    (stats : List SellerStat) (records : List PurchaseRecord) :
    accumulateRounded id cr sellers products stats records =
      accumulate cr sellers products stats records := by
  induction records generalizing stats with
  | nil => rfl
  | cons record rest ih =>
    have hp : processRecordRounded id cr sellers products stats record =
        processRecord cr sellers products stats record := by
      unfold processRecordRounded processRecord
      rw [addSaleRounded_id]
    simp only [accumulateRounded, accumulate, hp]
    cases processRecord cr sellers products stats record with
    | error e => rfl
    | ok stats1 => exact ih stats1

/-- With the identity for `round`, the definitions in rounded arithmetic are
those in exact arithmetic. -/
theorem analyzeSalesDataRounded_id (localeCompare : String → String → ℤ)
    (data : Option Data) (options : Option Options) :
    analyzeSalesDataRounded id localeCompare data options =
      analyzeSalesData localeCompare data options := by
  have hv : ∀ cr cb sellers products records,
      analyzeValidRounded id localeCompare cr cb sellers products records =
        analyzeValid localeCompare cr cb sellers products records := by
    intro cr cb sellers products records
    unfold analyzeValidRounded analyzeValid accumulatedStatsRounded accumulatedStats
    rw [accumulateRounded_id]
  unfold analyzeSalesDataRounded analyzeSalesData
  simp only [hv]

theorem defaultOptionsRounded_id : defaultOptionsRounded id = defaultOptions := by
  unfold defaultOptionsRounded defaultOptions
  congr 2
  · funext index total seller
    unfold calculateBonusByProfitRounded calculateBonusByProfit
    simp

/-! ## Double arithmetic: the order of the purchase records -/

/-- Exact arithmetic rounds no sum. -/
theorem sumsExact_id (values : List ℚ) : sumsExact id values := fun _ _ => rfl

theorem sumsExact_subperm (round : ℚ → ℚ) (values l : List ℚ) (h : sumsExact round values)
    (hl : l.Subperm values) : round l.sum = l.sum := by
  obtain ⟨l₀, hp, hs⟩ := hl
  rw [← hp.sum_eq]
  exact h l₀ (List.mem_sublists.mpr hs)

/-- Values of which no sum is rounded add up, one by one, to their sum. -/
theorem foldl_round_of_sumsExact (round : ℚ → ℚ) (values : List ℚ)
    (h : sumsExact round values) (l pre : List ℚ) (hl : (pre ++ l).Subperm values) :
    l.foldl (fun sum a => round (sum + a)) pre.sum = (pre ++ l).sum := by
  induction l generalizing pre with
  | nil => simp
  | cons a rest ih =>
    have hl' : (pre ++ [a] ++ rest).Subperm values := by simpa using hl
    have hsub : (pre ++ [a]).Subperm values :=
      (List.sublist_append_left (pre ++ [a]) rest).subperm.trans hl'
    have hr := sumsExact_subperm round values _ h hsub
    rw [List.sum_append, List.sum_singleton] at hr
    have hi := ih (pre ++ [a]) hl'
    rw [List.sum_append, List.sum_singleton] at hi
    rw [List.foldl_cons, hr, hi]
    simp

theorem sublist_flatMap_filter {α β : Type} (p : α → Bool) (f : α → List β) (l : List α) :
    List.Sublist ((l.filter p).flatMap f) (l.flatMap f) := by
  induction l with
  | nil => exact List.Sublist.refl _
  | cons a rest ih =>
    rw [List.filter_cons]
    split
    · rw [List.flatMap_cons, List.flatMap_cons]
      exact ih.append_left _
    · rw [List.flatMap_cons]
      exact ih.trans (List.sublist_append_right _ _)

theorem foldl_addSaleRounded_bonus (round : ℚ → ℚ) (cr : PurchaseData → Product → ℚ)
    (products : List (String × Product)) (records : List PurchaseRecord) (st : SellerStat) :
    (records.foldl (fun st r => addSaleRounded round cr products r st) st).bonus = st.bonus := by
  induction records generalizing st with
  | nil => rfl
  | cons record rest ih =>
    rw [List.foldl_cons, ih]
    exact (addSaleRounded_fields round cr products record st).2.2.2.2

theorem accumulatedStatsRounded_map_id (round : ℚ → ℚ) (cr : PurchaseData → Product → ℚ)
    (sellers : List Seller) (products : List Product) (records : List PurchaseRecord)
    (stats : List SellerStat)
    (h : accumulatedStatsRounded round cr sellers products records = .ok stats) :
    stats.map (·.id) = sellers.map (·.id) := by
  apply List.ext_getElem?
  intro j
  rw [List.getElem?_map, List.getElem?_map,
    accumulatedStatsRounded_getElem? round cr _ _ _ _ h j]
  cases sellers[j]? with
  | none => rfl
  | some seller =>
    simp only [Option.map_some']
    rw [sellerFoldRounded_eq_foldl_filter,
      (foldl_addSaleRounded_fields round cr _ _ (seedStat seller)).1]
    rfl

/-- The revenue accumulated for a seller when no sum of `total_amount`s is
rounded. -/
theorem sellerFoldRounded_revenue (round : ℚ → ℚ) (cr : PurchaseData → Product → ℚ)
    (sellers : List (String × ℕ)) (products : List (String × Product)) (j : ℕ)
    (all records : List PurchaseRecord) (seller : Seller) (hperm : records.Perm all)
    (h : sumsExact round (all.map (·.total_amount))) :
    (sellerFoldRounded round cr sellers products j records (seedStat seller)).revenue =
      ((records.filter fun r => getProperty sellers r.seller_id = .own j).map
        (·.total_amount)).sum := by
  rw [sellerFoldRounded_eq_foldl_filter,
    (foldl_addSaleRounded_fields round cr products _ (seedStat seller)).2.2.2]
  have hsub : (([] : List ℚ) ++ (records.filter fun r =>
      getProperty sellers r.seller_id = .own j).map (·.total_amount)).Subperm
      (all.map (·.total_amount)) := by
    rw [List.nil_append]
    exact ((List.filter_sublist _).map _).subperm.trans (hperm.map _).subperm
  have := foldl_round_of_sumsExact round _ h _ [] hsub
  simpa [seedStat] using this

theorem addItemRounded_profit (round : ℚ → ℚ) (cr : PurchaseData → Product → ℚ)
    (products : List (String × Product)) (st : SellerStat) (item : LineItem) :
    (addItemRounded round cr products st item).profit =
      addProfitRounded round cr products st.profit item := by
  unfold addItemRounded addProfitRounded
  cases getProperty products item.sku with
  | absent => rfl
  | own product => rfl
  | inherited => cases st.profit <;> rfl

theorem foldl_addItemRounded_addProfit (round : ℚ → ℚ) (cr : PurchaseData → Product → ℚ)
    (products : List (String × Product)) (items : List LineItem) (st : SellerStat) :
    (items.foldl (addItemRounded round cr products) st).profit =
      items.foldl (addProfitRounded round cr products) st.profit := by
  induction items generalizing st with
  | nil => rfl
  | cons item rest ih => rw [List.foldl_cons, ih, addItemRounded_profit]; rfl

theorem foldl_addSaleRounded_addProfit (round : ℚ → ℚ) (cr : PurchaseData → Product → ℚ)
    (products : List (String × Product)) (records : List PurchaseRecord) (st : SellerStat) :
    (records.foldl (fun st r => addSaleRounded round cr products r st) st).profit =
      (records.flatMap (·.items)).foldl (addProfitRounded round cr products) st.profit := by
  induction records generalizing st with
  | nil => rfl
  | cons record rest ih =>
    rw [List.foldl_cons, ih]
    unfold addSaleRounded
    rw [foldl_addItemRounded_addProfit, List.flatMap_cons, List.foldl_append]

theorem foldl_addProfitRounded_none (round : ℚ → ℚ) (cr : PurchaseData → Product → ℚ)
    (products : List (String × Product)) (items : List LineItem) :
    items.foldl (addProfitRounded round cr products) none = none := by
  induction items with
  | nil => rfl
  | cons item rest ih =>
    rw [List.foldl_cons]
    have : addProfitRounded round cr products none item = none := by
      unfold addProfitRounded
      cases getProperty products item.sku <;> rfl
    rw [this, ih]

/-- The profit accumulated over line items: `NaN` when one of them has a
member of `Object.prototype` for product, and otherwise the profits of the
items with a catalog product, added one by one, each sum rounded. -/
theorem foldl_addProfitRounded (round : ℚ → ℚ) (cr : PurchaseData → Product → ℚ)
    (products : List (String × Product)) (items : List LineItem) (p : ℚ) :
    items.foldl (addProfitRounded round cr products) (some p) =
      if ∃ item ∈ items, getProperty products item.sku = .inherited then none
      else some ((itemProfits round cr products items).foldl
        (fun sum a => round (sum + a)) p) := by
  induction items generalizing p with
  | nil => simp [itemProfits]
  | cons item rest ih =>
    rw [List.foldl_cons]
    cases hl : getProperty products item.sku with
    | absent =>
      have hstep : addProfitRounded round cr products (some p) item = some p := by
        simp [addProfitRounded, hl]
      rw [hstep, ih]
      simp [itemProfits, List.filterMap_cons, hl]
    | own product =>
      have hstep : addProfitRounded round cr products (some p) item =
          some (round (p + round (cr
            { sale_price := item.sale_price, quantity := item.quantity,
              discount := item.discount }
            product - round (product.purchase_price * item.quantity)))) := by
        simp [addProfitRounded, hl, jsAdd]
      rw [hstep, ih]
      simp [itemProfits, List.filterMap_cons, hl]
    | inherited =>
      have hstep : addProfitRounded round cr products (some p) item = none := by
        simp [addProfitRounded, hl]
      rw [hstep, foldl_addProfitRounded_none]
      simp [hl]

/-- The profit accumulated for a seller when no sum of item profits is
rounded. -/
theorem sellerFoldRounded_profit (round : ℚ → ℚ) (cr : PurchaseData → Product → ℚ)
    (sellers : List (String × ℕ)) (products : List (String × Product)) (j : ℕ)
    (all records : List PurchaseRecord) (seller : Seller) (hperm : records.Perm all)
    (h : sumsExact round (itemProfits round cr products (all.flatMap (·.items)))) :
    (sellerFoldRounded round cr sellers products j records (seedStat seller)).profit =
      if ∃ item ∈ (records.filter fun r : PurchaseRecord =>
          getProperty sellers r.seller_id = .own j).flatMap (·.items),
          getProperty products item.sku = .inherited then none
      else some (itemProfits round cr products
        ((records.filter fun r => getProperty sellers r.seller_id = .own j).flatMap
          (·.items))).sum := by
  rw [sellerFoldRounded_eq_foldl_filter, foldl_addSaleRounded_addProfit]
  have hseed : (seedStat seller).profit = some 0 := rfl
  rw [hseed, foldl_addProfitRounded]
  have hsub : (([] : List ℚ) ++ itemProfits round cr products
      ((records.filter fun r => getProperty sellers r.seller_id = .own j).flatMap
        (·.items))).Subperm (itemProfits round cr products (all.flatMap (·.items))) := by
    rw [List.nil_append]
    unfold itemProfits
    exact ((sublist_flatMap_filter _ _ records).filterMap _).subperm.trans
      ((hperm.flatMap_right _).filterMap _).subperm
  have := foldl_round_of_sumsExact round _ h _ [] hsub
  simp only [List.sum_nil, List.nil_append] at this
  rw [this]

theorem addItemRounded_top_products (round : ℚ → ℚ) (cr : PurchaseData → Product → ℚ)
    (products : List (String × Product)) (st : SellerStat) (item : LineItem) :
    (addItemRounded round cr products st item).top_products =
      if getProperty products item.sku ≠ .absent then
        countProductRounded round st.top_products item
      else st.top_products := by
  unfold addItemRounded
  cases getProperty products item.sku <;> simp

theorem foldl_addItemRounded_top_products (round : ℚ → ℚ) (cr : PurchaseData → Product → ℚ)
    (products : List (String × Product)) (items : List LineItem) (st : SellerStat) :
    (items.foldl (addItemRounded round cr products) st).top_products =
      (items.filter fun item => getProperty products item.sku ≠ .absent).foldl
        (countProductRounded round) st.top_products := by
  induction items generalizing st with
  | nil => rfl
  | cons item rest ih =>
    rw [List.foldl_cons, ih, addItemRounded_top_products]
    by_cases h : getProperty products item.sku = .absent
    · simp [h, List.filter_cons]
    · simp [h, List.filter_cons]

theorem foldl_addSaleRounded_top_products (round : ℚ → ℚ) (cr : PurchaseData → Product → ℚ)
    (products : List (String × Product)) (records : List PurchaseRecord) (st : SellerStat) :
    (records.foldl (fun st r => addSaleRounded round cr products r st) st).top_products =
      ((records.flatMap (·.items)).filter fun item =>
        getProperty products item.sku ≠ .absent).foldl (countProductRounded round)
        st.top_products := by
  induction records generalizing st with
  | nil => rfl
  | cons record rest ih =>
    rw [List.foldl_cons, ih]
    unfold addSaleRounded
    rw [foldl_addItemRounded_top_products, List.flatMap_cons, List.filter_append,
      List.foldl_append]

/-- Line items of which no sum of quantities is rounded fill the `Map` with
the pairs of SKU and cumulative quantity. -/
theorem foldl_countProductRounded (round : ℚ → ℚ) (values : List ℚ)
    (h : sumsExact round values) (items pre : List LineItem)
    (hl : ((pre ++ items).map (·.quantity)).Subperm values) :
    items.foldl (countProductRounded round) (soldPairs pre) = soldPairs (pre ++ items) := by
  induction items generalizing pre with
  | nil => simp
  | cons x rest ih =>
    have hl' : ((pre ++ [x] ++ rest).map (·.quantity)).Subperm values := by simpa using hl
    have hcur : (mapGet (soldPairs pre) x.sku).getD 0 = soldQuantity pre x.sku := by
      unfold soldPairs
      rw [mapGet_map]
      by_cases hm : x.sku ∈ firstOccurrences (pre.map (·.sku))
      · rw [if_pos hm]; rfl
      · rw [if_neg hm, soldQuantity_of_not_mem pre x.sku
          (fun hmem => hm ((mem_firstOccurrences _ _).mpr hmem))]
        rfl
    have hsum : soldQuantity pre x.sku + x.quantity = soldQuantity (pre ++ [x]) x.sku := by
      rw [soldQuantity_concat, if_pos rfl]
    have hsub : (((pre ++ [x]).filter fun item => item.sku = x.sku).map
        (·.quantity)).Subperm values :=
      ((List.filter_sublist _).map _).subperm.trans
        (((List.sublist_append_left (pre ++ [x]) rest).map _).subperm.trans hl')
    have hexact : round (soldQuantity pre x.sku + x.quantity) =
        soldQuantity pre x.sku + x.quantity := by
      rw [hsum]
      exact sumsExact_subperm round values _ h hsub
    have hstep : countProductRounded round (soldPairs pre) x = soldPairs (pre ++ [x]) := by
      rw [soldPairs_concat]
      unfold countProductRounded countProduct
      simp only [hcur, hexact]
    rw [List.foldl_cons, hstep, ih (pre ++ [x]) hl']
    simp

/-- The `Map` accumulated for a seller when no sum of quantities is rounded. -/
theorem sellerFoldRounded_top_products (round : ℚ → ℚ) (cr : PurchaseData → Product → ℚ)
    (sellers : List (String × ℕ)) (products : List (String × Product)) (j : ℕ)
    (all records : List PurchaseRecord) (seller : Seller) (hperm : records.Perm all)
    (h : sumsExact round ((all.flatMap (·.items)).map (·.quantity))) :
    (sellerFoldRounded round cr sellers products j records (seedStat seller)).top_products =
      soldPairs (soldItems sellers products j records) := by
  rw [sellerFoldRounded_eq_foldl_filter, foldl_addSaleRounded_top_products]
  have hsub : ((([] : List LineItem) ++ soldItems sellers products j records).map
      (·.quantity)).Subperm ((all.flatMap (·.items)).map (·.quantity)) := by
    rw [List.nil_append]
    unfold soldItems
    exact (((List.filter_sublist _).trans (sublist_flatMap_filter _ _ records)).map
      _).subperm.trans ((hperm.flatMap_right _).map _).subperm
  have := foldl_countProductRounded round _ h _ [] hsub
  rw [List.nil_append] at this
  exact this

/-- When no sum is rounded, the stat of a seller after accumulation depends on
the order of the records only through the order of the entries of its `Map`. -/
theorem sellerFoldRounded_perm (round : ℚ → ℚ) (cr : PurchaseData → Product → ℚ)
    (sellers : List (String × ℕ)) (products : List (String × Product)) (j : ℕ)
    (records' records : List PurchaseRecord) (hperm : records'.Perm records)
    (hamount : sumsExact round (records.map (·.total_amount)))
    (hquantity : sumsExact round ((records.flatMap (·.items)).map (·.quantity)))
    (hprofit : sumsExact round (itemProfits round cr products (records.flatMap (·.items))))
    (seller : Seller) :
    sameUpToMapOrder
      (sellerFoldRounded round cr sellers products j records' (seedStat seller))
      (sellerFoldRounded round cr sellers products j records (seedStat seller)) := by
  have hfilter := hperm.filter (fun r => getProperty sellers r.seller_id = .own j)
  have hitems := hfilter.flatMap_right (·.items)
  refine ⟨?_, ?_, ?_, ?_, ?_, ?_, ?_⟩
  · rw [sellerFoldRounded_eq_foldl_filter, sellerFoldRounded_eq_foldl_filter,
      (foldl_addSaleRounded_fields round cr products _ (seedStat seller)).1,
      (foldl_addSaleRounded_fields round cr products _ (seedStat seller)).1]
  · rw [sellerFoldRounded_eq_foldl_filter, sellerFoldRounded_eq_foldl_filter,
      (foldl_addSaleRounded_fields round cr products _ (seedStat seller)).2.1,
      (foldl_addSaleRounded_fields round cr products _ (seedStat seller)).2.1]
  · rw [sellerFoldRounded_revenue round cr sellers products j records records' seller hperm
        hamount,
      sellerFoldRounded_revenue round cr sellers products j records records seller
        (List.Perm.refl _) hamount]
    exact (hfilter.map _).sum_eq
  · rw [sellerFoldRounded_profit round cr sellers products j records records' seller hperm
        hprofit,
      sellerFoldRounded_profit round cr sellers products j records records seller
        (List.Perm.refl _) hprofit]
    have hiff : (∃ item ∈ (records'.filter fun r =>
          getProperty sellers r.seller_id = .own j).flatMap (·.items),
          getProperty products item.sku = .inherited) ↔
        ∃ item ∈ (records.filter fun r =>
          getProperty sellers r.seller_id = .own j).flatMap (·.items),
          getProperty products item.sku = .inherited := by
      constructor
      · rintro ⟨item, hm, hi⟩
        exact ⟨item, hitems.mem_iff.mp hm, hi⟩
      · rintro ⟨item, hm, hi⟩
        exact ⟨item, hitems.mem_iff.mpr hm, hi⟩
    have hsum : (itemProfits round cr products ((records'.filter fun r =>
          getProperty sellers r.seller_id = .own j).flatMap (·.items))).sum =
        (itemProfits round cr products ((records.filter fun r =>
          getProperty sellers r.seller_id = .own j).flatMap (·.items))).sum := by
      unfold itemProfits
      exact (hitems.filterMap _).sum_eq
    rw [hsum]
    by_cases hc : ∃ item ∈ (records.filter fun r =>
          getProperty sellers r.seller_id = .own j).flatMap (·.items),
          getProperty products item.sku = .inherited
    · rw [if_pos hc, if_pos (hiff.mpr hc)]
    · rw [if_neg hc, if_neg (fun hc' => hc (hiff.mp hc'))]
  · rw [sellerFoldRounded_eq_foldl_filter, sellerFoldRounded_eq_foldl_filter,
      (foldl_addSaleRounded_fields round cr products _ (seedStat seller)).2.2.1,
      (foldl_addSaleRounded_fields round cr products _ (seedStat seller)).2.2.1,
      hfilter.length_eq]
  · rw [sellerFoldRounded_eq_foldl_filter, sellerFoldRounded_eq_foldl_filter,
      foldl_addSaleRounded_bonus, foldl_addSaleRounded_bonus]
  · rw [sellerFoldRounded_top_products round cr sellers products j records records' seller
        hperm hquantity,
      sellerFoldRounded_top_products round cr sellers products j records records seller
        (List.Perm.refl _) hquantity]
    exact soldPairs_perm _ _ (soldItems_perm sellers products j records' records hperm)

theorem accumulatedStatsRounded_perm (round : ℚ → ℚ) (cr : PurchaseData → Product → ℚ)
    (sellers : List Seller) (products : List Product) (records' records : List PurchaseRecord)
    (hperm : records'.Perm records)
    (hamount : sumsExact round (records.map (·.total_amount)))
    (hquantity : sumsExact round ((records.flatMap (·.items)).map (·.quantity)))
    (hprofit : sumsExact round
      (itemProfits round cr (productIndex products) (records.flatMap (·.items))))
    (stats' stats : List SellerStat)
    (h' : accumulatedStatsRounded round cr sellers products records' = .ok stats')
    (h : accumulatedStatsRounded round cr sellers products records = .ok stats) :
    List.Forall₂ sameUpToMapOrder stats' stats := by
  have hlen' := congrArg List.length (accumulatedStatsRounded_map_id round cr _ _ _ _ h')
  have hlen := congrArg List.length (accumulatedStatsRounded_map_id round cr _ _ _ _ h)
  simp only [List.length_map] at hlen' hlen
  apply List.forall₂_of_length_eq_of_get (hlen'.trans hlen.symm)
  intro i h₁ h₂
  have g' := accumulatedStatsRounded_getElem? round cr _ _ _ _ h' i
  have g := accumulatedStatsRounded_getElem? round cr _ _ _ _ h i
  have hi : i < sellers.length := hlen' ▸ h₁
  rw [List.getElem?_eq_getElem h₁, List.getElem?_eq_getElem hi, Option.map_some',
    Option.some.injEq] at g'
  rw [List.getElem?_eq_getElem h₂, List.getElem?_eq_getElem hi, Option.map_some',
    Option.some.injEq] at g
  rw [List.get_eq_getElem, List.get_eq_getElem, g', g]
  exact sellerFoldRounded_perm round cr _ _ i records' records hperm hamount hquantity hprofit _

theorem processRecordRounded_returns_iff (round : ℚ → ℚ) (cr : PurchaseData → Product → ℚ)
    (sellers : List (String × ℕ)) (products : List (String × Product))
    (stats : List SellerStat) (record : PurchaseRecord) :
    (∃ stats', processRecordRounded round cr sellers products stats record = .ok stats') ↔
      ¬ recordThrows sellers products record := by
  unfold processRecordRounded recordThrows
  cases h : getProperty sellers record.seller_id with
  | absent => simp
  | own j => simp
  | inherited =>
    simp only [true_and, not_exists, not_and, not_not]
    rcases addItemsInherited_cases products record.items with hok | herr
    · rw [hok]
      have := (addItemsInherited_ok_iff products record.items).mp hok
      simpa using this
    · rw [herr]
      have hno : ¬ ∀ item ∈ record.items, getProperty products item.sku = .absent := by
        intro hall
        rw [(addItemsInherited_ok_iff products record.items).mpr hall] at herr
        cases herr
      simpa using hno

theorem accumulateRounded_returns_iff (round : ℚ → ℚ) (cr : PurchaseData → Product → ℚ)
    (sellers : List (String × ℕ)) (products : List (String × Product))
    (records : List PurchaseRecord) (stats : List SellerStat) :
    (∃ stats', accumulateRounded round cr sellers products stats records = .ok stats') ↔
      ∀ record ∈ records, ¬ recordThrows sellers products record := by
  induction records generalizing stats with
  | nil => simp [accumulateRounded]
  | cons record rest ih =>
    simp only [accumulateRounded, List.mem_cons, forall_eq_or_imp]
    rw [← processRecordRounded_returns_iff round cr sellers products stats record]
    cases hp : processRecordRounded round cr sellers products stats record with
    | error e => simp
    | ok stats1 => simpa using ih stats1

/-! ## The rounding of the output -/

/-- C14, as stated, fails: with the bonus strategy
`seller.profit / seller.sales_count` and a seller without sales, the input is
accepted and the returned bonus of that seller is `NaN`, not a multiple of
0.01, in exact and in double arithmetic alike. -/
theorem bonus_not_a_number_counterexample :
    analyzeSalesData codePointCompare (some idleSellerData)
      (some { calculateRevenue := some calculateSimpleRevenue,
              calculateBonus := some profitPerSale }) = .ok idleSellerResult ∧
    analyzeSalesDataRounded roundToDouble codePointCompare (some idleSellerData)
      (some { calculateRevenue := some (calculateSimpleRevenueRounded roundToDouble),
              calculateBonus := some (profitPerSaleRounded roundToDouble) }) =
      .ok idleSellerResult ∧
    ∃ x ∈ idleSellerResult, x.seller_id = "seller_2" ∧
      ¬ ∃ (q : ℚ) (n : ℤ), x.bonus = some q ∧ q = (n : ℚ) / 100 := by
  refine ⟨by decide!, by decide!, idleSellerResult.get ⟨1, by decide⟩, by decide, rfl, ?_⟩
  rintro ⟨q, n, hq, _⟩
  have hnone : (none : JSNumber) = some q := hq
  cases hnone

/-- C14, amended. In the arithmetic of the code, where the result of every
operation is rounded (`round`: to the nearest double as the code runs, the
identity for exact arithmetic): whenever `analyzeSalesData` accepts its input
and returns, the result is made, position by position, from a permutation
`ranked` of the sellers' accumulated stats, and the entry at position `i`, made
from the stat `st`, has: a revenue that is an integer multiple of 0.01 within
0.005 of the accumulated revenue; when the accumulated profit is a number, a
profit that is an integer multiple of 0.01 within 0.005 of it, and when it is
`NaN` the profit `NaN`; the same of the returned bonus and
`calculateBonus(i, number of sellers, st)`; the `sales_count` as accumulated,
and in every entry of `top_products` the cumulative quantity recorded for its
SKU. -/
theorem output_rounding (round : ℚ → ℚ) (localeCompare : String → String → ℤ)
    (sellers : List Seller) (products : List Product) (purchase_records : List PurchaseRecord)
    (calculateRevenue : PurchaseData → Product → ℚ)
    (calculateBonus : ℤ → ℤ → SellerStat → JSNumber) (result : List SellerResult)
    (h : analyzeSalesDataRounded round localeCompare
      (some { sellers := some sellers, products := some products,
              purchase_records := some purchase_records })
      (some { calculateRevenue := some calculateRevenue,
              calculateBonus := some calculateBonus })
      = .ok result) :
    ∃ stats ranked : List SellerStat,
      accumulatedStatsRounded round calculateRevenue sellers products purchase_records =
        .ok stats ∧
      ranked.Perm stats ∧
      result.length = sellers.length ∧
      ∀ (i : ℕ) (x : SellerResult), result[i]? = some x →
        ∃ st, ranked[i]? = some st ∧
          x.seller_id = st.id ∧ x.name = st.name ∧
          (∃ n : ℤ, x.revenue = (n : ℚ) / 100) ∧ |x.revenue - st.revenue| ≤ 1 / 200 ∧
          (∀ p, st.profit = some p →
            ∃ q, x.profit = some q ∧ (∃ n : ℤ, q = (n : ℚ) / 100) ∧ |q - p| ≤ 1 / 200) ∧
          (st.profit = none → x.profit = none) ∧
          (∀ b, calculateBonus i sellers.length st = some b →
            ∃ q, x.bonus = some q ∧ (∃ n : ℤ, q = (n : ℚ) / 100) ∧ |q - b| ≤ 1 / 200) ∧
          (calculateBonus i sellers.length st = none → x.bonus = none) ∧
          x.sales_count = st.sales_count ∧
          ∀ t ∈ x.top_products, (t.sku, t.quantity) ∈ st.top_products := by
  obtain ⟨_, _, _, hv⟩ := analyzeSalesDataRounded_eq_analyzeValid _ _ _ _ _ _ _ _ h
  obtain ⟨stats, hacc, hres⟩ := analyzeValidRounded_ok _ _ _ _ _ _ _ _ hv
  have hlen : (rankedStats localeCompare stats).length = sellers.length := by
    rw [length_rankedStats]
    have := congrArg List.length
      (accumulatedStatsRounded_map_id round calculateRevenue _ _ _ _ hacc)
    simpa using this
  rw [hlen] at hres
  refine ⟨stats, rankedStats localeCompare stats, hacc, rankedStats_perm _ _, ?_, ?_⟩
  · rw [hres, length_resultsFrom, hlen]
  · intro i x hx
    rw [hres, getElem?_resultsFrom] at hx
    cases hst : (rankedStats localeCompare stats)[i]? with
    | none => rw [hst] at hx; simp at hx
    | some st =>
      rw [hst] at hx
      simp only [Option.map_some', Option.some.injEq, Nat.zero_add] at hx
      subst hx
      refine ⟨st, rfl, rfl, rfl, toFixed2_multiple _, toFixed2_near _, (jsToFixed2_spec _).1,
        (jsToFixed2_spec _).2, (jsToFixed2_spec _).1, (jsToFixed2_spec _).2, rfl, ?_⟩
      intro t ht
      exact mem_topProductsArray _ _ t ht

/-- C14, amended, in double arithmetic at the input `roundingData`, whose
profits 10.004 and 10.001 are both returned as 10. -/
theorem output_rounding_witness :
    ∃ stats ranked : List SellerStat,
      accumulatedStatsRounded roundToDouble (calculateSimpleRevenueRounded roundToDouble)
        roundingSellers roundingProducts roundingRecords = .ok stats ∧
      ranked.Perm stats ∧
      roundingResult.length = roundingSellers.length ∧
      ∀ (i : ℕ) (x : SellerResult), roundingResult[i]? = some x →
        ∃ st, ranked[i]? = some st ∧
          x.seller_id = st.id ∧ x.name = st.name ∧
          (∃ n : ℤ, x.revenue = (n : ℚ) / 100) ∧ |x.revenue - st.revenue| ≤ 1 / 200 ∧
          (∀ p, st.profit = some p →
            ∃ q, x.profit = some q ∧ (∃ n : ℤ, q = (n : ℚ) / 100) ∧ |q - p| ≤ 1 / 200) ∧
          (st.profit = none → x.profit = none) ∧
          (∀ b, calculateBonusByProfitRounded roundToDouble i roundingSellers.length st =
              some b →
            ∃ q, x.bonus = some q ∧ (∃ n : ℤ, q = (n : ℚ) / 100) ∧ |q - b| ≤ 1 / 200) ∧
          (calculateBonusByProfitRounded roundToDouble i roundingSellers.length st = none →
            x.bonus = none) ∧
          x.sales_count = st.sales_count ∧
          ∀ t ∈ x.top_products, (t.sku, t.quantity) ∈ st.top_products :=
  output_rounding roundToDouble codePointCompare roundingSellers roundingProducts
    roundingRecords (calculateSimpleRevenueRounded roundToDouble)
    (calculateBonusByProfitRounded roundToDouble) roundingResult (by decide!)

/-! ## The ranking is a stable sort -/

/-- C17, as stated, fails: on `nanData`, which is accepted, the profit of B is
`NaN`, the comparator returns `NaN` for B against A and against C, and the
sellers are returned in the order A, B, C, in exact and in double arithmetic
alike, although the comparator applied to the accumulated stats of A and C is
10, which puts C, of profit 20, strictly before A, of profit 10: the result is
not sorted by the ranking comparator. -/
theorem ranking_not_sorted_counterexample :
    analyzeSalesData codePointCompare (some nanData) (some defaultOptions) = .ok nanResult ∧
    analyzeSalesDataRounded roundToDouble codePointCompare (some nanData)
      (some (defaultOptionsRounded roundToDouble)) = .ok nanResult ∧
    nanResult.map (·.seller_id) = ["A", "B", "C"] ∧
    accumulatedStats calculateSimpleRevenue exampleSellers exampleProducts nanRecords =
      .ok nanStats ∧
    accumulatedStatsRounded roundToDouble (calculateSimpleRevenueRounded roundToDouble)
      exampleSellers exampleProducts nanRecords = .ok nanStats ∧
    nanStats.map (·.profit) = [some 10, none, some 20] ∧
    ∃ a b c, nanStats = [a, b, c] ∧
      compareSellers codePointCompare a b = none ∧
      compareSellers codePointCompare b c = none ∧
      compareSellers codePointCompare a c = some 10 := by
  refine ⟨by decide!, by decide!, by decide, by decide!, by decide!, rfl,
    nanStats.get ⟨0, by decide⟩, nanStats.get ⟨1, by decide⟩, nanStats.get ⟨2, by decide⟩,
    rfl, by decide!, by decide!, by decide!⟩

/-- C17, amended. In the arithmetic of the code, where the result of every
operation is rounded (`round`: to the nearest double as the code runs, the
identity for exact arithmetic): whenever `analyzeSalesData` accepts its input
and returns, every returned profit is a number and `localeCompare` is a total
preorder, the result is made, position by position, from the stable sort by
the ranking comparator of the accumulated stats taken in `data.sellers` order:
the ranking is a permutation of the stats in which, for any two entries, the
comparator is a number that is not positive (it never puts the later one
strictly first), and two stats that tie on profit, revenue, `sales_count` and
name comparison are ranked, and returned, in the relative order they have in
`data.sellers`. -/
theorem ranking_is_stable_sort (round : ℚ → ℚ) (localeCompare : String → String → ℤ)
    (sellers : List Seller) (products : List Product) (purchase_records : List PurchaseRecord)
    (calculateRevenue : PurchaseData → Product → ℚ)
    (calculateBonus : ℤ → ℤ → SellerStat → JSNumber) (result : List SellerResult)
    (h : analyzeSalesDataRounded round localeCompare
      (some { sellers := some sellers, products := some products,
              purchase_records := some purchase_records })
      (some { calculateRevenue := some calculateRevenue,
              calculateBonus := some calculateBonus })
      = .ok result)
    (htotal : ∀ a b, localeCompare a b ≤ 0 ∨ localeCompare b a ≤ 0)
    (htrans : ∀ a b c, localeCompare a b ≤ 0 → localeCompare b c ≤ 0 → localeCompare a c ≤ 0)
    (hnum : ∀ x ∈ result, x.profit ≠ none) :
    ∃ stats,
      accumulatedStatsRounded round calculateRevenue sellers products purchase_records =
        .ok stats ∧
      stats.map (·.id) = sellers.map (·.id) ∧
      (rankedStats localeCompare stats).Perm stats ∧
      result = resultsFrom calculateBonus (productIndex products) sellers.length 0
        (rankedStats localeCompare stats) ∧
      result.map (·.seller_id) = (rankedStats localeCompare stats).map (·.id) ∧
      (rankedStats localeCompare stats).Pairwise
        (fun a b => ∃ v, compareSellers localeCompare a b = some v ∧ v ≤ 0) ∧
      ∀ a b : SellerStat, List.Sublist [a, b] stats →
        a.profit = b.profit → a.revenue = b.revenue → a.sales_count = b.sales_count →
        localeCompare a.name b.name = 0 →
        List.Sublist [a, b] (rankedStats localeCompare stats) ∧
        List.Sublist [a.id, b.id] (result.map (·.seller_id)) := by
  obtain ⟨_, _, _, hv⟩ := analyzeSalesDataRounded_eq_analyzeValid _ _ _ _ _ _ _ _ h
  obtain ⟨stats, hacc, hres⟩ := analyzeValidRounded_ok _ _ _ _ _ _ _ _ hv
  have hids := accumulatedStatsRounded_map_id round calculateRevenue _ _ _ _ hacc
  have hnum' : ∀ st ∈ stats, st.profit ≠ none := by
    intro st hst hnone
    have hst' := (rankedStats_perm localeCompare stats).mem_iff.mpr hst
    obtain ⟨x, hx, i, hi⟩ := exists_resultsFrom calculateBonus (productIndex products)
      (rankedStats localeCompare stats).length 0 _ st hst'
    rw [← hres] at hx
    apply hnum x hx
    rw [hi]
    show jsToFixed2 st.profit = none
    rw [hnone]; rfl
  have hnumr : ∀ st ∈ rankedStats localeCompare stats, st.profit ≠ none :=
    fun st hst => hnum' st ((rankedStats_perm localeCompare stats).mem_iff.mp hst)
  have hlen : (rankedStats localeCompare stats).length = sellers.length := by
    rw [length_rankedStats]
    have := congrArg List.length hids
    simpa using this
  rw [hlen] at hres
  have hmap : result.map (·.seller_id) = (rankedStats localeCompare stats).map (·.id) := by
    rw [hres]; exact map_seller_id_resultsFrom _ _ _ _ _
  refine ⟨stats, hacc, hids, rankedStats_perm _ _, hres, hmap, ?_, ?_⟩
  · have hpw := rankedStats_pairwise localeCompare htotal htrans stats hnum'
    refine hpw.imp_of_mem ?_
    intro a b ha hb hab
    obtain ⟨p, hp⟩ := Option.ne_none_iff_exists'.mp (hnumr a ha)
    obtain ⟨q, hq⟩ := Option.ne_none_iff_exists'.mp (hnumr b hb)
    have hle := (compareSellers_le_iff localeCompare a b (hnumr a ha) (hnumr b hb)).mpr hab
    rw [compareSellers_some localeCompare a b p q hp hq] at hle ⊢
    exact ⟨_, rfl, hle⟩
  · intro a b hsub hp hr hc hn
    have hranked : List.Sublist [a, b] (rankedStats localeCompare stats) :=
      List.pair_sublist_insertionSort (compareSellers_tie localeCompare a b hp hr hc hn) hsub
    refine ⟨hranked, ?_⟩
    rw [hmap]
    exact hranked.map (·.id)

/-- C17, amended, in double arithmetic at three sellers of whom the first and
the third tie on profit, revenue, `sales_count` and name: they are returned
second and third, in the order of `data.sellers`. -/
theorem ranking_is_stable_sort_witness :
    analyzeSalesDataRounded roundToDouble codePointCompare
      (some { sellers := some tiedSellers, products := some exampleProducts,
              purchase_records := some tiedRecords })
      (some (defaultOptionsRounded roundToDouble)) = .ok tiedResult ∧
    tiedResult.map (·.seller_id) = ["t2", "t1", "t3"] ∧
    (∀ x ∈ tiedResult, x.profit ≠ none) ∧
    ∃ stats,
      accumulatedStatsRounded roundToDouble (calculateSimpleRevenueRounded roundToDouble)
        tiedSellers exampleProducts tiedRecords = .ok stats ∧
      stats.map (·.id) = tiedSellers.map (·.id) ∧
      (rankedStats codePointCompare stats).Perm stats ∧
      tiedResult = resultsFrom (calculateBonusByProfitRounded roundToDouble)
        (productIndex exampleProducts) tiedSellers.length 0
        (rankedStats codePointCompare stats) ∧
      tiedResult.map (·.seller_id) = (rankedStats codePointCompare stats).map (·.id) ∧
      (rankedStats codePointCompare stats).Pairwise
        (fun a b => ∃ v, compareSellers codePointCompare a b = some v ∧ v ≤ 0) ∧
      ∀ a b : SellerStat, List.Sublist [a, b] stats →
        a.profit = b.profit → a.revenue = b.revenue → a.sales_count = b.sales_count →
        codePointCompare a.name b.name = 0 →
        List.Sublist [a, b] (rankedStats codePointCompare stats) ∧
        List.Sublist [a.id, b.id] (tiedResult.map (·.seller_id)) :=
  ⟨by decide!, by decide, by decide,
   ranking_is_stable_sort roundToDouble codePointCompare tiedSellers exampleProducts
     tiedRecords (calculateSimpleRevenueRounded roundToDouble)
     (calculateBonusByProfitRounded roundToDouble) tiedResult (by decide!)
     codePointCompare_total codePointCompare_trans (by decide)⟩

/-! ## The order of the purchase records -/

/-- C20, as stated, fails, in two ways.  A bonus strategy is handed the
seller's stat, the `Map` of sold quantities included, whose entries are in
first-sale order: with the strategy `firstProductBonus` the two orders of
`orderedRecords` are both accepted and give the one seller the bonus 1 and the
bonus 2, in exact and in double arithmetic alike.  And the code adds doubles,
whose sums depend on the order in which they are formed: with the default
strategies the `total_amount`s `2 ^ 53`, 1 and 1 of `largeOrderRecords` add up
to `2 ^ 53` in this order and to `2 ^ 53 + 2` in the reverse order, and that is
the revenue returned. -/
theorem result_depends_on_record_order_counterexample :
    (orderedRecords.reverse.Perm orderedRecords ∧
      (∃ result result',
        analyzeSalesData codePointCompare (some (orderData orderedRecords))
          (some { calculateRevenue := some calculateSimpleRevenue,
                  calculateBonus := some firstProductBonus }) = .ok result ∧
        analyzeSalesData codePointCompare (some (orderData orderedRecords.reverse))
          (some { calculateRevenue := some calculateSimpleRevenue,
                  calculateBonus := some firstProductBonus }) = .ok result' ∧
        result.map (·.bonus) = [some 1] ∧ result'.map (·.bonus) = [some 2] ∧
        result.map (·.bonus) ≠ result'.map (·.bonus)) ∧
      ∃ result result',
        analyzeSalesDataRounded roundToDouble codePointCompare
          (some (orderData orderedRecords))
          (some { calculateRevenue := some (calculateSimpleRevenueRounded roundToDouble),
                  calculateBonus := some firstProductBonus }) = .ok result ∧
        analyzeSalesDataRounded roundToDouble codePointCompare
          (some (orderData orderedRecords.reverse))
          (some { calculateRevenue := some (calculateSimpleRevenueRounded roundToDouble),
                  calculateBonus := some firstProductBonus }) = .ok result' ∧
        result.map (·.bonus) = [some 1] ∧ result'.map (·.bonus) = [some 2]) ∧
    largeOrderRecords.reverse.Perm largeOrderRecords ∧
    ∃ result result',
      analyzeSalesDataRounded roundToDouble codePointCompare
        (some (loneData largeOrderRecords))
        (some (defaultOptionsRounded roundToDouble)) = .ok result ∧
      analyzeSalesDataRounded roundToDouble codePointCompare
        (some (loneData largeOrderRecords.reverse))
        (some (defaultOptionsRounded roundToDouble)) = .ok result' ∧
      result.map (·.revenue) = [9007199254740992] ∧
      result'.map (·.revenue) = [9007199254740994] ∧
      result.map (·.revenue) ≠ result'.map (·.revenue) := by
  refine ⟨⟨List.reverse_perm _, ?_, ?_⟩, List.reverse_perm _, ?_⟩
  · have h : ∃ result, analyzeSalesData codePointCompare (some (orderData orderedRecords))
        (some { calculateRevenue := some calculateSimpleRevenue,
                calculateBonus := some firstProductBonus }) = .ok result ∧
        result.map (·.bonus) = [some 1] := ⟨_, rfl, by decide!⟩
    have h' : ∃ result', analyzeSalesData codePointCompare
        (some (orderData orderedRecords.reverse))
        (some { calculateRevenue := some calculateSimpleRevenue,
                calculateBonus := some firstProductBonus }) = .ok result' ∧
        result'.map (·.bonus) = [some 2] := ⟨_, rfl, by decide!⟩
    obtain ⟨result, hr, hb⟩ := h
    obtain ⟨result', hr', hb'⟩ := h'
    refine ⟨result, result', hr, hr', hb, hb', ?_⟩
    rw [hb, hb']
    decide
  · have h : ∃ result, analyzeSalesDataRounded roundToDouble codePointCompare
        (some (orderData orderedRecords))
        (some { calculateRevenue := some (calculateSimpleRevenueRounded roundToDouble),
                calculateBonus := some firstProductBonus }) = .ok result ∧
        result.map (·.bonus) = [some 1] := ⟨_, rfl, by decide!⟩
    have h' : ∃ result', analyzeSalesDataRounded roundToDouble codePointCompare
        (some (orderData orderedRecords.reverse))
        (some { calculateRevenue := some (calculateSimpleRevenueRounded roundToDouble),
                calculateBonus := some firstProductBonus }) = .ok result' ∧
        result'.map (·.bonus) = [some 2] := ⟨_, rfl, by decide!⟩
    obtain ⟨result, hr, hb⟩ := h
    obtain ⟨result', hr', hb'⟩ := h'
    exact ⟨result, result', hr, hr', hb, hb'⟩
  · have h : ∃ result, analyzeSalesDataRounded roundToDouble codePointCompare
        (some (loneData largeOrderRecords))
        (some (defaultOptionsRounded roundToDouble)) = .ok result ∧
        result.map (·.revenue) = [9007199254740992] := ⟨_, rfl, by decide!⟩
    have h' : ∃ result', analyzeSalesDataRounded roundToDouble codePointCompare
        (some (loneData largeOrderRecords.reverse))
        (some (defaultOptionsRounded roundToDouble)) = .ok result' ∧
        result'.map (·.revenue) = [9007199254740994] := ⟨_, rfl, by decide!⟩
    obtain ⟨result, hr, hb⟩ := h
    obtain ⟨result', hr', hb'⟩ := h'
    refine ⟨result, result', hr, hr', hb, hb', ?_⟩
    rw [hb, hb']
    decide

/-- C20, amended. In the arithmetic of the code, where the result of every
operation is rounded (`round`: to the nearest double as the code runs, the
identity for exact arithmetic), for a bonus strategy whose value does not
depend on the order of the entries of the seller's `Map` of sold quantities,
and for purchase records of which no sum of `total_amount`s, no sum of line
item quantities and no sum of profits of line items with a catalog product is
rounded: whenever `analyzeSalesData` accepts its input and returns `result`, it
returns on every permutation of `data.purchase_records` a result with the same
sellers in the same order, with the same name, revenue, profit, `sales_count`
and bonus, in which each seller's `top_products` is the first 10 entries of a
list of the same entries (SKU, quantity, name and category) by non-increasing
quantity: the quantities agree position by position, and only the order of
entries of equal quantity, and which of these are among the first 10, may
differ. -/
theorem ranking_independent_of_record_order (round : ℚ → ℚ)
    (localeCompare : String → String → ℤ)
    (sellers : List Seller) (products : List Product)
    (purchase_records permuted : List PurchaseRecord)
    (calculateRevenue : PurchaseData → Product → ℚ)
    (calculateBonus : ℤ → ℤ → SellerStat → JSNumber) (result : List SellerResult)
    (h : analyzeSalesDataRounded round localeCompare
      (some { sellers := some sellers, products := some products,
              purchase_records := some purchase_records })
      (some { calculateRevenue := some calculateRevenue,
              calculateBonus := some calculateBonus })
      = .ok result)
    (hperm : permuted.Perm purchase_records)
    (hcb : ∀ (index total : ℤ) (st : SellerStat) (m : List (String × ℚ)),
      m.Perm st.top_products →
      calculateBonus index total { st with top_products := m } =
        calculateBonus index total st)
    (hamount : sumsExact round (purchase_records.map (·.total_amount)))
    (hquantity : sumsExact round ((purchase_records.flatMap (·.items)).map (·.quantity)))
    (hprofit : sumsExact round (itemProfits round calculateRevenue (productIndex products)
      (purchase_records.flatMap (·.items)))) :
    ∃ result',
      analyzeSalesDataRounded round localeCompare
        (some { sellers := some sellers, products := some products,
                purchase_records := some permuted })
        (some { calculateRevenue := some calculateRevenue,
                calculateBonus := some calculateBonus })
        = .ok result' ∧
      List.Forall₂ sameRanking result' result := by
  obtain ⟨hs, hp, hr, hv⟩ := analyzeSalesDataRounded_eq_analyzeValid _ _ _ _ _ _ _ _ h
  obtain ⟨stats, hacc, hres⟩ := analyzeValidRounded_ok _ _ _ _ _ _ _ _ hv
  have hsafe := (accumulateRounded_returns_iff round calculateRevenue
    (sellerIndex (sellerStats sellers)) (productIndex products) purchase_records
    (sellerStats sellers)).mp ⟨stats, hacc⟩
  obtain ⟨stats', hacc'⟩ := (accumulateRounded_returns_iff round calculateRevenue
    (sellerIndex (sellerStats sellers)) (productIndex products) permuted
    (sellerStats sellers)).mpr (fun record hrec => hsafe record (hperm.mem_iff.mp hrec))
  have hacc'' : accumulatedStatsRounded round calculateRevenue sellers products permuted =
      .ok stats' := hacc'
  have hne : ¬ (sellers.length = 0 ∨ products.length = 0 ∨ permuted.length = 0) := by
    simp only [not_or, List.length_eq_zero]
    refine ⟨hs, hp, ?_⟩
    intro hnil
    rw [hnil] at hperm
    exact hr (List.perm_nil.mp hperm.symm)
  refine ⟨resultsFrom calculateBonus (productIndex products)
    (rankedStats localeCompare stats').length 0 (rankedStats localeCompare stats'), ?_, ?_⟩
  · simp only [analyzeSalesDataRounded, if_neg hne, analyzeValidRounded, hacc'']
  · have hstats := accumulatedStatsRounded_perm round calculateRevenue sellers products
      permuted purchase_records hperm hamount hquantity hprofit stats' stats hacc'' hacc
    have hranked := rankedStats_congr localeCompare stats' stats hstats
    rw [hres, hranked.length_eq]
    exact resultsFrom_congr calculateBonus hcb _ _ _ _ _ hranked

/-- C20, amended, in double arithmetic at the input `sampleData` with its
records reversed and the default strategies. -/
theorem ranking_independent_of_record_order_witness :
    analyzeSalesDataRounded roundToDouble codePointCompare (some sampleData)
      (some (defaultOptionsRounded roundToDouble)) = .ok sampleResult ∧
    sampleRecords.reverse.Perm sampleRecords ∧
    sumsExact roundToDouble (sampleRecords.map (·.total_amount)) ∧
    sumsExact roundToDouble ((sampleRecords.flatMap (·.items)).map (·.quantity)) ∧
    sumsExact roundToDouble (itemProfits roundToDouble
      (calculateSimpleRevenueRounded roundToDouble) (productIndex sampleProducts)
      (sampleRecords.flatMap (·.items))) ∧
    ∃ result',
      analyzeSalesDataRounded roundToDouble codePointCompare
        (some { sellers := some sampleSellers, products := some sampleProducts,
                purchase_records := some sampleRecords.reverse })
        (some { calculateRevenue := some (calculateSimpleRevenueRounded roundToDouble),
                calculateBonus := some (calculateBonusByProfitRounded roundToDouble) })
        = .ok result' ∧
      List.Forall₂ sameRanking result' sampleResult :=
  ⟨by decide!, List.reverse_perm _, by decide!, by decide!, by decide!,
   ranking_independent_of_record_order roundToDouble codePointCompare sampleSellers
     sampleProducts sampleRecords sampleRecords.reverse
     (calculateSimpleRevenueRounded roundToDouble)
     (calculateBonusByProfitRounded roundToDouble) sampleResult (by decide!)
     (List.reverse_perm _) (fun _ _ _ _ _ => rfl) (by decide!) (by decide!) (by decide!)⟩

end SalesBonus
